import Mathlib

/-!
Verification of the ad-data-lake remote-object synchronization engine.

This file gives a shallow embedding of the core of the repository:

* `src/src/utils/api_helpers.py` — the retrying single-request executor
  (`make_api_request`) and the structural payload sanitizer (`sanitize_payload`);
* `src/src/main_extractor.py` — the batched multi-request orchestrator
  (`execute_batch_requests`);
* `src/pages/1_Campaign_Cloner.py` — per-field normalization
  (`normalize_input_value`), payload assembly, creative-spec merging
  (`update_object_story_spec`, `build_creative_payload`) and the hierarchical
  cloner (`create_campaign_from_template`).

Dynamically-typed Python values are modelled by the inductive type `PyVal`
(dicts are insertion-ordered association lists, floats are modelled by exact
rationals).  The remote API is modelled by oracles giving the outcome of the
k-th call.
-/

namespace AdDataLake

/-- Model of a dynamically-typed Python value as it occurs in payloads.
Python floats are modelled as exact rationals; dicts as insertion-ordered
association lists with string keys. -/
inductive PyVal where
  | none
  | bool (b : Bool)
  | int (n : Int)
  | float (q : Rat)
  | str (s : String)
  | list (xs : List PyVal)
  | dict (entries : List (String × PyVal))

mutual

def PyVal.decEq : (a b : PyVal) → Decidable (a = b)
  | .none, .none => isTrue rfl
  | .bool x, .bool y =>
    if h : x = y then isTrue (by rw [h]) else isFalse (fun hh => by cases hh; exact h rfl)
  | .int x, .int y =>
    if h : x = y then isTrue (by rw [h]) else isFalse (fun hh => by cases hh; exact h rfl)
  | .float x, .float y =>
    if h : x = y then isTrue (by rw [h]) else isFalse (fun hh => by cases hh; exact h rfl)
  | .str x, .str y =>
    if h : x = y then isTrue (by rw [h]) else isFalse (fun hh => by cases hh; exact h rfl)
  | .list xs, .list ys =>
    match PyVal.decEqList xs ys with
    | isTrue h => isTrue (by rw [h])
    | isFalse h => isFalse (fun hh => by cases hh; exact h rfl)
  | .dict xs, .dict ys =>
    match PyVal.decEqDict xs ys with
    | isTrue h => isTrue (by rw [h])
    | isFalse h => isFalse (fun hh => by cases hh; exact h rfl)
  | .none, .bool _ => isFalse (fun h => PyVal.noConfusion h)
  | .none, .int _ => isFalse (fun h => PyVal.noConfusion h)
  | .none, .float _ => isFalse (fun h => PyVal.noConfusion h)
  | .none, .str _ => isFalse (fun h => PyVal.noConfusion h)
  | .none, .list _ => isFalse (fun h => PyVal.noConfusion h)
  | .none, .dict _ => isFalse (fun h => PyVal.noConfusion h)
  | .bool _, .none => isFalse (fun h => PyVal.noConfusion h)
  | .bool _, .int _ => isFalse (fun h => PyVal.noConfusion h)
  | .bool _, .float _ => isFalse (fun h => PyVal.noConfusion h)
  | .bool _, .str _ => isFalse (fun h => PyVal.noConfusion h)
  | .bool _, .list _ => isFalse (fun h => PyVal.noConfusion h)
  | .bool _, .dict _ => isFalse (fun h => PyVal.noConfusion h)
  | .int _, .none => isFalse (fun h => PyVal.noConfusion h)
  | .int _, .bool _ => isFalse (fun h => PyVal.noConfusion h)
  | .int _, .float _ => isFalse (fun h => PyVal.noConfusion h)
  | .int _, .str _ => isFalse (fun h => PyVal.noConfusion h)
  | .int _, .list _ => isFalse (fun h => PyVal.noConfusion h)
  | .int _, .dict _ => isFalse (fun h => PyVal.noConfusion h)
  | .float _, .none => isFalse (fun h => PyVal.noConfusion h)
  | .float _, .bool _ => isFalse (fun h => PyVal.noConfusion h)
  | .float _, .int _ => isFalse (fun h => PyVal.noConfusion h)
  | .float _, .str _ => isFalse (fun h => PyVal.noConfusion h)
  | .float _, .list _ => isFalse (fun h => PyVal.noConfusion h)
  | .float _, .dict _ => isFalse (fun h => PyVal.noConfusion h)
  | .str _, .none => isFalse (fun h => PyVal.noConfusion h)
  | .str _, .bool _ => isFalse (fun h => PyVal.noConfusion h)
  | .str _, .int _ => isFalse (fun h => PyVal.noConfusion h)
  | .str _, .float _ => isFalse (fun h => PyVal.noConfusion h)
  | .str _, .list _ => isFalse (fun h => PyVal.noConfusion h)
  | .str _, .dict _ => isFalse (fun h => PyVal.noConfusion h)
  | .list _, .none => isFalse (fun h => PyVal.noConfusion h)
  | .list _, .bool _ => isFalse (fun h => PyVal.noConfusion h)
  | .list _, .int _ => isFalse (fun h => PyVal.noConfusion h)
  | .list _, .float _ => isFalse (fun h => PyVal.noConfusion h)
  | .list _, .str _ => isFalse (fun h => PyVal.noConfusion h)
  | .list _, .dict _ => isFalse (fun h => PyVal.noConfusion h)
  | .dict _, .none => isFalse (fun h => PyVal.noConfusion h)
  | .dict _, .bool _ => isFalse (fun h => PyVal.noConfusion h)
  | .dict _, .int _ => isFalse (fun h => PyVal.noConfusion h)
  | .dict _, .float _ => isFalse (fun h => PyVal.noConfusion h)
  | .dict _, .str _ => isFalse (fun h => PyVal.noConfusion h)
  | .dict _, .list _ => isFalse (fun h => PyVal.noConfusion h)

def PyVal.decEqList : (xs ys : List PyVal) → Decidable (xs = ys)
  | [], [] => isTrue rfl
  | [], _ :: _ => isFalse (fun h => List.noConfusion h)
  | _ :: _, [] => isFalse (fun h => List.noConfusion h)
  | x :: xs, y :: ys =>
    match PyVal.decEq x y with
    | isFalse h => isFalse (fun hh => by cases hh; exact h rfl)
    | isTrue h1 =>
      match PyVal.decEqList xs ys with
      | isTrue h2 => isTrue (by rw [h1, h2])
      | isFalse h2 => isFalse (fun hh => by cases hh; exact h2 rfl)

def PyVal.decEqDict : (xs ys : List (String × PyVal)) → Decidable (xs = ys)
  | [], [] => isTrue rfl
  | [], _ :: _ => isFalse (fun h => List.noConfusion h)
  | _ :: _, [] => isFalse (fun h => List.noConfusion h)
  | (k1, v1) :: xs, (k2, v2) :: ys =>
    if hk : k1 = k2 then
      match PyVal.decEq v1 v2 with
      | isFalse h => isFalse (fun hh => by cases hh; exact h rfl)
      | isTrue hv =>
        match PyVal.decEqDict xs ys with
        | isTrue ht => isTrue (by rw [hk, hv, ht])
        | isFalse h => isFalse (fun hh => by cases hh; exact h rfl)
    else isFalse (fun hh => by cases hh; exact hk rfl)

end

instance : DecidableEq PyVal := PyVal.decEq

/-! ## Python dict primitives (insertion-ordered association lists) -/

/-- `d.get(k)`: value of the binding of `k`. -/
def dictGet (es : List (String × PyVal)) (k : String) : Option PyVal :=
  match es with
  | [] => Option.none
  | e :: rest => if e.1 = k then some e.2 else dictGet rest k

/-- `k in d`. -/
def dictHas (es : List (String × PyVal)) (k : String) : Bool :=
  match es with
  | [] => false
  | e :: rest => e.1 = k || dictHas rest k

/-- `d[k] = v`: update in place when the key exists, else append at the end
(CPython dict insertion-order semantics). -/
def dictSet (es : List (String × PyVal)) (k : String) (v : PyVal) :
    List (String × PyVal) :=
  match es with
  | [] => [(k, v)]
  | e :: rest => if e.1 = k then (k, v) :: rest else e :: dictSet rest k v

/-- `d.pop(k, None)`: remove the binding of `k`. -/
def dictPop (es : List (String × PyVal)) (k : String) : List (String × PyVal) :=
  match es with
  | [] => []
  | e :: rest => if e.1 = k then dictPop rest k else e :: dictPop rest k

/-! ## The retrying single-request executor (`make_api_request`) -/

/-- `RATE_LIMIT_ERROR_CODES` from `api_helpers.py`. -/
def RATE_LIMIT_ERROR_CODES : List Int := [4, 17, 32, 613, 80004]

/-- `ACCOUNT_RATE_LIMIT_SUBCODES` from `api_helpers.py`. -/
def ACCOUNT_RATE_LIMIT_SUBCODES : List Int := [2446079, 2446094, 2446095]

/-- Outcome of one invocation of the underlying API call:
a value is returned, a `FacebookRequestError` is raised (with the code and
subcode the executor extracts), or an unexpected exception is raised. -/
inductive CallOutcome where
  | success (v : PyVal)
  | platformError (code : Option Int) (subcode : Option Int)
  | unexpectedError
deriving DecidableEq

/-- `x in s` for a possibly-missing numeric error code. -/
def optMem (x : Option Int) (l : List Int) : Bool :=
  match x with
  | some v => l.contains v
  | Option.none => false

/-- `is_rate_limited` classification in `make_api_request`. -/
def isRateLimitedError (code subcode : Option Int) : Bool :=
  optMem code RATE_LIMIT_ERROR_CODES || optMem subcode ACCOUNT_RATE_LIMIT_SUBCODES

/-- The retry loop of `make_api_request`.  `call k` is the outcome of the k-th
invocation of `api_call_function`; `attempt` is the loop counter and `fuel`
the number of loop iterations still allowed by the guard
`attempt < max_retries` (so `fuel = max_retries - attempt`).  The result pairs
the returned value (the null sentinel is `Option.none`) with the number of
underlying calls issued. -/
def makeApiRequestGo (call : Nat → CallOutcome) (maxRetries : Int) :
    Nat → Nat → Option PyVal × Nat
  | _, 0 => (Option.none, 0)
  | attempt, fuel + 1 =>
    match call attempt with
    | .success v => (some v, 1)
    | .unexpectedError => (Option.none, 1)
    | .platformError code subcode =>
      if isRateLimitedError code subcode && decide ((attempt : Int) < maxRetries - 1) then
        let r := makeApiRequestGo call maxRetries (attempt + 1) fuel
        (r.1, r.2 + 1)
      else (Option.none, 1)

/-- `make_api_request(api_call_function, max_retries, ...)` from
`api_helpers.py`: the value returned together with the number of underlying
calls issued.  Sleeping/backoff has no bearing on the returned value and is
not modelled. -/
def makeApiRequest (call : Nat → CallOutcome) (maxRetries : Int) : Option PyVal × Nat :=
  makeApiRequestGo call maxRetries 0 maxRetries.toNat

/-! ## The batched multi-request orchestrator (`execute_batch_requests`) -/

/-- Outcome of dispatching one request inside a completed `batch.execute`
round: the success callback ran and the handler collected a record, the
success callback ran but the handler raised (caught and printed), or the
failure callback ran with an error body that was / was not classified as
rate-limited. -/
inductive ReqOutcome where
  | success
  | handlerError
  | failure (rateLimited : Bool)
deriving DecidableEq

/-- Behaviour of the remote batch surface for one `execute_batch_requests`
invocation.  `batchFails c a` models `make_api_request(batch.execute)`
exhausting its retries for attempt `a` of chunk `c` with no per-request
callbacks having run; `outcome a i` is how the batch dispatched request `i`
in attempt `a` of its chunk; `seqOutcome i` is the result of the sequential
fallback for request `i` (`success` collects, `handlerError` and `failure _`
both mean the request joins `failed_fallback`). -/
structure BatchOracle where
  batchFails : Nat → Nat → Bool
  outcome : Nat → Nat → ReqOutcome
  seqOutcome : Nat → ReqOutcome

/-- Recursion core for `chunk_list`; `fuel ≥ items.length` suffices for the
recursion (each step drops `n ≥ 1` elements). -/
def chunkListGo (n : Nat) : Nat → List Nat → List (List Nat)
  | 0, _ => []
  | _ + 1, [] => []
  | fuel + 1, x :: xs => (x :: xs).take n :: chunkListGo n fuel ((x :: xs).drop n)

/-- `chunk_list(items, chunk_size)` from `main_extractor.py` (the caller
guards `chunk_size ≥ 1`). -/
def chunkList (items : List Nat) (n : Nat) : List (List Nat) :=
  chunkListGo n items.length items

/-- One batch round over the remaining request indices of a chunk: returns
(collected successes, logged terminal failures, re-queued rate-limited
requests), in dispatch order. -/
def batchRound (oracle : BatchOracle) (attempt : Nat) (remaining : List Nat) :
    List Nat × List Nat × List Nat :=
  match remaining with
  | [] => ([], [], [])
  | i :: rest =>
    let r := batchRound oracle attempt rest
    match oracle.outcome attempt i with
    | .success => (i :: r.1, r.2.1, r.2.2)
    | .handlerError => (r.1, i :: r.2.1, r.2.2)
    | .failure true => (r.1, r.2.1, i :: r.2.2)
    | .failure false => (r.1, i :: r.2.1, r.2.2)

/-- The per-chunk retry loop (`while remaining_entries and attempt <= max_attempts`).
Returns (collected, terminal-logged, remaining after the loop). -/
def chunkRounds (oracle : BatchOracle) (chunkIdx : Nat) (maxAttempts : Nat)
    (attempt : Nat) (remaining : List Nat) (fuel : Nat) :
    List Nat × List Nat × List Nat :=
  match fuel with
  | 0 => ([], [], remaining)
  | fuel + 1 =>
    if remaining = [] ∨ ¬ (attempt ≤ maxAttempts) then ([], [], remaining)
    else
      if oracle.batchFails chunkIdx attempt then
        -- batch.execute returned the null sentinel: no callbacks ran,
        -- `retry_entries` is empty, so the loop clears `remaining_entries`
        -- and breaks (the requests of this round are dropped).
        ([], [], [])
      else
        let r := batchRound oracle attempt remaining
        if r.2.2 = [] then (r.1, r.2.1, [])
        else if maxAttempts ≤ attempt then (r.1, r.2.1, r.2.2)
        else
          let next := chunkRounds oracle chunkIdx maxAttempts (attempt + 1) r.2.2 fuel
          (r.1 ++ next.1, r.2.1 ++ next.2.1, next.2.2)

/-- Sequential fallback over the requests left by the chunk loop: returns
(collected, terminal-logged).  A null response from `make_api_request` and a
handler exception both land the request in `failed_fallback`. -/
def seqFallback (oracle : BatchOracle) (remaining : List Nat) :
    List Nat × List Nat :=
  match remaining with
  | [] => ([], [])
  | i :: rest =>
    let r := seqFallback oracle rest
    match oracle.seqOutcome i with
    | .success => (i :: r.1, r.2)
    | _ => (r.1, i :: r.2)

/-- `execute_batch_requests(api, requests, handler, ..., max_chunk_retries,
..., chunk_size)` from `main_extractor.py`, with requests identified by their
index in the input list.  Returns the pair (indices whose records a success
handler collected, indices whose terminal failure was logged). -/
def executeBatchRequests (oracle : BatchOracle) (R : Nat)
    (maxChunkRetries : Int) (chunkSize : Int) : List Nat × List Nat :=
  go (chunkList (List.range R) (max 1 chunkSize).toNat) 0
where
  go : List (List Nat) → Nat → List Nat × List Nat
  | [], _ => ([], [])
  | chunk :: rest, chunkIdx =>
    let maxAttempts := (max 1 maxChunkRetries).toNat
    let r := chunkRounds oracle chunkIdx maxAttempts 1 chunk (maxAttempts + 1)
    let fb := seqFallback oracle r.2.2
    let tail := go rest (chunkIdx + 1)
    (r.1 ++ fb.1 ++ tail.1, r.2.1 ++ fb.2 ++ tail.2)

/-! ## Python string and number primitives -/

/-- ASCII whitespace stripped by `str.strip()`. -/
def isPySpace (c : Char) : Bool :=
  c == ' ' || c == '\t' || c == '\n' || c == '\x0d' || c == '\x0b' || c == '\x0c'

/-- `s.strip()` (ASCII whitespace model). -/
def pyStrip (s : String) : String :=
  String.mk (((s.toList.dropWhile isPySpace).reverse.dropWhile isPySpace).reverse)

/-- `s.split(',')` (CPython keeps empty fields; `''.split(',') == ['']`). -/
def splitCommaAux : List Char → List Char → List String
  | [], acc => [String.mk acc.reverse]
  | c :: rest, acc =>
    if c = ',' then String.mk acc.reverse :: splitCommaAux rest []
    else splitCommaAux rest (c :: acc)

def pySplitComma (s : String) : List String := splitCommaAux s.toList []

/-- `s.startswith(c)` for a single-character needle. -/
def startsWithChar (s : String) (c : Char) : Bool :=
  match s.toList with
  | [] => false
  | c2 :: _ => c2 = c

/-- `s.endswith(t)`. -/
def strEndsWith (s t : String) : Bool := List.isSuffixOf t.toList s.toList

def isAsciiDigit (c : Char) : Bool := '0' ≤ c && c ≤ '9'

/-- `s.isdigit()` (ASCII model: non-empty and all decimal digits). -/
def pyIsDigit (s : String) : Bool :=
  ¬ s.toList = [] && s.toList.all isAsciiDigit

def digitVal (c : Char) : Nat := c.toNat - 48

def digitsToNat (cs : List Char) : Nat :=
  cs.foldl (fun a c => a * 10 + digitVal c) 0

/-- `float(s)` for a character list: optional sign, then
`digits [. digits] [e[sign]digits]` with at least one mantissa digit and the
whole input consumed.  (`inf`, `nan` and digit-group underscores are outside
the model.) -/
def parseFloatCore (cs : List Char) : Option Rat :=
  let signAndRest : Rat × List Char :=
    match cs with
    | '+' :: rest => (1, rest)
    | '-' :: rest => (-1, rest)
    | _ => (1, cs)
  let sign := signAndRest.1
  let cs1 := signAndRest.2
  let ip := cs1.takeWhile isAsciiDigit
  let cs2 := cs1.dropWhile isAsciiDigit
  let fracAndRest : List Char × List Char :=
    match cs2 with
    | '.' :: rest => (rest.takeWhile isAsciiDigit, rest.dropWhile isAsciiDigit)
    | _ => ([], cs2)
  match fracAndRest with
  | (fp, cs3) =>
    if ip = [] ∧ fp = [] then Option.none
    else
      let mant : Rat := (digitsToNat ip : Rat) + (digitsToNat fp : Rat) / ((10 : Rat) ^ fp.length)
      match cs3 with
      | [] => some (sign * mant)
      | e :: rest =>
        if e == 'e' || e == 'E' then
          let expSignAndRest : Int × List Char :=
            match rest with
            | '+' :: r2 => (1, r2)
            | '-' :: r2 => (-1, r2)
            | _ => (1, rest)
          let ed := expSignAndRest.2.takeWhile isAsciiDigit
          let tail := expSignAndRest.2.dropWhile isAsciiDigit
          if ed = [] ∨ ¬ tail = [] then Option.none
          else some (sign * mant * (10 : Rat) ^ (expSignAndRest.1 * (digitsToNat ed : Int)))
        else Option.none

/-- `float(s)` (CPython strips surrounding whitespace itself). -/
def parseFloat (s : String) : Option Rat :=
  parseFloatCore (pyStrip s).toList

/-- Python 3 `round(x)`: round half to even, returning an integer. -/
def pyRound (q : Rat) : Int :=
  let f : Int := q.floor
  let r : Rat := q - (f : Rat)
  if r < 1/2 then f
  else if 1/2 < r then f + 1
  else if f % 2 = 0 then f else f + 1

/-- Zero-padded fixed-width decimal rendering (used by `isoformat`). -/
def digitChar (d : Nat) : Char := Char.ofNat (48 + d)

def pad2 (n : Nat) : List Char := [digitChar (n / 10 % 10), digitChar (n % 10)]

def pad4 (n : Nat) : List Char :=
  [digitChar (n / 1000 % 10), digitChar (n / 100 % 10), digitChar (n / 10 % 10),
   digitChar (n % 10)]

/-- `repr(x)` for a Python float modelled as an exact rational: integers render
as `n.0`; other 10-smooth denominators as their exact decimal expansion (the
exact expansion has no trailing zero at the minimal exponent, matching
CPython's shortest-roundtrip rendering on such values).  Non-10-smooth
rationals cannot arise from parsed decimal input and fall back to `num/den`. -/
def floatRepr (q : Rat) : String :=
  if q.den = 1 then toString q.num ++ ".0"
  else
    match (List.range 30).find? (fun k => q.den ∣ 10 ^ (k + 1)) with
    | some k =>
      let p := 10 ^ (k + 1)
      let n := (q.num.natAbs * (p / q.den))
      let sign := if q.num < 0 then "-" else ""
      let frac := toString (n % p + p)
      sign ++ toString (n / p) ++ "." ++ String.mk (frac.toList.drop 1)
    | Option.none => toString q.num ++ "/" ++ toString q.den

mutual

/-- `repr(v)` (string escaping simplified to plain single quotes). -/
def pyRepr : PyVal → String
  | .none => "None"
  | .bool b => if b then "True" else "False"
  | .int n => toString n
  | .float q => floatRepr q
  | .str s => "'" ++ s ++ "'"
  | .list xs => "[" ++ pyReprList xs ++ "]"
  | .dict es => "\x7b" ++ pyReprDict es ++ "\x7d"

def pyReprList : List PyVal → String
  | [] => ""
  | [x] => pyRepr x
  | x :: y :: xs => pyRepr x ++ ", " ++ pyReprList (y :: xs)

def pyReprDict : List (String × PyVal) → String
  | [] => ""
  | [(k, v)] => "'" ++ k ++ "': " ++ pyRepr v
  | (k, v) :: e :: es => "'" ++ k ++ "': " ++ pyRepr v ++ ", " ++ pyReprDict (e :: es)

end

/-- `str(v)`: identity on strings, `repr` otherwise. -/
def pyStr : PyVal → String
  | .str s => s
  | v => pyRepr v

/-- Python truthiness (`bool(v)`). -/
def pyTruthy : PyVal → Bool
  | .none => false
  | .bool b => b
  | .int n => ¬ n = 0
  | .float q => ¬ q = 0
  | .str s => ¬ s = ""
  | .list xs => ¬ xs = []
  | .dict es => ¬ es = []

/-! ## A model of `json.loads` -/

/-- Skip JSON whitespace. -/
def jsonWs (cs : List Char) : List Char :=
  cs.dropWhile (fun c => c == ' ' || c == '\t' || c == '\n' || c == '\x0d')

/-- JSON string body after the opening quote: returns (content, rest after the
closing quote).  Common escapes are mapped; `\uXXXX` is outside the model. -/
def jsonString (fuel : Nat) (cs : List Char) : Option (List Char × List Char) :=
  match fuel, cs with
  | 0, _ => Option.none
  | _, [] => Option.none
  | fuel + 1, c :: rest =>
    if c = '"' then some ([], rest)
    else if c = '\\' then
      match rest with
      | [] => Option.none
      | e :: rest2 =>
        let decoded : Option Char :=
          if e = '"' then some '"'
          else if e = '\\' then some '\\'
          else if e = '/' then some '/'
          else if e = 'n' then some '\n'
          else if e = 't' then some '\t'
          else if e = 'r' then some '\x0d'
          else if e = 'b' then some '\x08'
          else if e = 'f' then some '\x0c'
          else Option.none
        match decoded with
        | Option.none => Option.none
        | some d =>
          match jsonString fuel rest2 with
          | some (body, rest3) => some (d :: body, rest3)
          | Option.none => Option.none
    else
      match jsonString fuel rest with
      | some (body, rest3) => some (c :: body, rest3)
      | Option.none => Option.none

/-- JSON number starting at `cs` (grammar `-?digits(.digits)?([eE][+-]?digits)?`);
integer-syntax numbers load as Python ints, others as floats. -/
def jsonNumber (cs : List Char) : Option (PyVal × List Char) :=
  let signAndRest : Int × List Char :=
    match cs with
    | '-' :: rest => (-1, rest)
    | _ => (1, cs)
  let ip := signAndRest.2.takeWhile isAsciiDigit
  let cs1 := signAndRest.2.dropWhile isAsciiDigit
  if ip = [] then Option.none
  else
    let intVal : Int := signAndRest.1 * (digitsToNat ip : Int)
    match cs1 with
    | '.' :: rest =>
      let fp := rest.takeWhile isAsciiDigit
      let cs2 := rest.dropWhile isAsciiDigit
      if fp = [] then Option.none
      else
        let mant : Rat := (intVal : Rat) +
          (signAndRest.1 : Rat) * (digitsToNat fp : Rat) / ((10 : Rat) ^ fp.length)
        match cs2 with
        | 'e' :: r2 => jsonExp mant r2
        | 'E' :: r2 => jsonExp mant r2
        | _ => some (.float mant, cs2)
    | 'e' :: r2 => jsonExp (intVal : Rat) r2
    | 'E' :: r2 => jsonExp (intVal : Rat) r2
    | _ => some (.int intVal, cs1)
where
  jsonExp (mant : Rat) (cs : List Char) : Option (PyVal × List Char) :=
    let expSignAndRest : Int × List Char :=
      match cs with
      | '+' :: r2 => (1, r2)
      | '-' :: r2 => (-1, r2)
      | _ => (1, cs)
    let ed := expSignAndRest.2.takeWhile isAsciiDigit
    let tail := expSignAndRest.2.dropWhile isAsciiDigit
    if ed = [] then Option.none
    else some (.float (mant * (10 : Rat) ^ (expSignAndRest.1 * (digitsToNat ed : Int))), tail)

mutual

/-- One JSON value at the head of `cs` (leading whitespace already skipped). -/
def jsonValue (fuel : Nat) (cs : List Char) : Option (PyVal × List Char) :=
  match fuel with
  | 0 => Option.none
  | fuel + 1 =>
    match cs with
    | [] => Option.none
    | c :: rest =>
      if c = '"' then
        match jsonString (rest.length + 1) rest with
        | some (body, rest2) => some (.str (String.mk body), rest2)
        | Option.none => Option.none
      else if c = '[' then
        match jsonWs rest with
        | ']' :: rest2 => some (.list [], rest2)
        | rest2 =>
          match jsonArrayItems fuel rest2 with
          | some (xs, rest3) => some (.list xs, rest3)
          | Option.none => Option.none
      else if c = '\x7b' then
        match jsonWs rest with
        | '\x7d' :: rest2 => some (.dict [], rest2)
        | rest2 =>
          match jsonObjectItems fuel rest2 with
          | some (pairs, rest3) =>
            -- CPython builds the object dict by repeated assignment: a
            -- repeated key keeps its first position and last value.
            some (.dict (pairs.foldl (fun acc kv => dictSet acc kv.1 kv.2) []), rest3)
          | Option.none => Option.none
      else if cs.take 4 = [ 't', 'r', 'u', 'e' ] then some (.bool true, cs.drop 4)
      else if cs.take 5 = [ 'f', 'a', 'l', 's', 'e' ] then some (.bool false, cs.drop 5)
      else if cs.take 4 = [ 'n', 'u', 'l', 'l' ] then some (.none, cs.drop 4)
      else jsonNumber cs

/-- Comma-separated array items up to the closing bracket. -/
def jsonArrayItems (fuel : Nat) (cs : List Char) : Option (List PyVal × List Char) :=
  match fuel with
  | 0 => Option.none
  | fuel + 1 =>
    match jsonValue fuel cs with
    | Option.none => Option.none
    | some (v, rest) =>
      match jsonWs rest with
      | ',' :: rest2 =>
        match jsonArrayItems fuel (jsonWs rest2) with
        | some (xs, rest3) => some (v :: xs, rest3)
        | Option.none => Option.none
      | ']' :: rest2 => some ([v], rest2)
      | _ => Option.none

/-- Comma-separated `"key": value` members up to the closing brace, as a raw
pair list in source order. -/
def jsonObjectItems (fuel : Nat) (cs : List Char) : Option (List (String × PyVal) × List Char) :=
  match fuel with
  | 0 => Option.none
  | fuel + 1 =>
    match cs with
    | '"' :: rest =>
      match jsonString (rest.length + 1) rest with
      | Option.none => Option.none
      | some (key, rest2) =>
        match jsonWs rest2 with
        | ':' :: rest3 =>
          match jsonValue fuel (jsonWs rest3) with
          | Option.none => Option.none
          | some (v, rest4) =>
            match jsonWs rest4 with
            | ',' :: rest5 =>
              match jsonObjectItems fuel (jsonWs rest5) with
              | some (es, rest6) => some ((String.mk key, v) :: es, rest6)
              | Option.none => Option.none
            | '\x7d' :: rest5 => some ([(String.mk key, v)], rest5)
            | _ => Option.none
        | _ => Option.none
    | _ => Option.none

end

/-- `json.loads(s)`: parse one JSON document with only trailing whitespace
allowed. -/
def jsonLoads (s : String) : Option PyVal :=
  let cs := jsonWs s.toList
  match jsonValue (s.length + 1) cs with
  | some (v, rest) => if jsonWs rest = [] then some v else Option.none
  | Option.none => Option.none

/-! ## A model of the `datetime` layer

`_parse_datetime_value` always returns a timezone-aware datetime, so the model
is a civil date-time with an explicit UTC offset in minutes.  Payload values
can only be JSON-ish data (never live `datetime` objects), so the
`isinstance(value, datetime)` branch of `_parse_datetime_value` has no
counterpart here. -/

structure PyDateTime where
  year : Nat
  month : Nat
  day : Nat
  hour : Nat
  minute : Nat
  second : Nat
  microsecond : Nat
  offsetMinutes : Int
deriving DecidableEq

def isLeap (y : Nat) : Bool := (y % 4 = 0 && ¬ y % 100 = 0) || y % 400 = 0

def daysInMonth (y m : Nat) : Nat :=
  if m = 2 then (if isLeap y then 29 else 28)
  else if m = 4 ∨ m = 6 ∨ m = 9 ∨ m = 11 then 30
  else 31

/-- Field ranges enforced by `datetime` constructors (year 1–9999, offset
strictly within ±24h). -/
def validDT (dt : PyDateTime) : Bool :=
  1 ≤ dt.year && dt.year ≤ 9999 && 1 ≤ dt.month && dt.month ≤ 12 &&
  1 ≤ dt.day && dt.day ≤ daysInMonth dt.year dt.month &&
  dt.hour ≤ 23 && dt.minute ≤ 59 && dt.second ≤ 59 && dt.microsecond ≤ 999999 &&
  -1439 ≤ dt.offsetMinutes && dt.offsetMinutes ≤ 1439

def mkValidDT (dt : PyDateTime) : Option PyDateTime :=
  if validDT dt then some dt else Option.none

/-- Days from 1970-01-01 for a civil date with `1 ≤ y ≤ 9999` (Hinnant's
`days_from_civil`, specialised to nonnegative years). -/
def rataDie (y m d : Nat) : Int :=
  let y2 : Nat := if m ≤ 2 then y - 1 else y
  let era : Nat := y2 / 400
  let yoe : Nat := y2 % 400
  let mp : Nat := (m + 9) % 12
  let doy : Nat := (153 * mp + 2) / 5 + d - 1
  let doe : Nat := yoe * 365 + yoe / 4 - yoe / 100 + doy
  (era * 146097 + doe : Int) - 719468

/-- The instant of an aware datetime, in microseconds since the epoch; this is
the order used by Python's aware-datetime comparison. -/
def dtInstantMicro (dt : PyDateTime) : Int :=
  rataDie dt.year dt.month dt.day * 86400000000
    + ((dt.hour * 3600 + dt.minute * 60 + dt.second) * 1000000 + dt.microsecond : Nat)
    - dt.offsetMinutes * 60000000

/-- Civil date from days since 1970-01-01 (Hinnant's `civil_from_days`);
the year is returned as an `Int` and range-checked by the caller. -/
def civilFromDays (z0 : Int) : Int × Nat × Nat :=
  let z := z0 + 719468
  let era : Int := Int.ediv z 146097
  let doe : Nat := (Int.emod z 146097).toNat
  let yoe : Nat := (doe - doe / 1460 + doe / 36524 - doe / 146096) / 365
  let doy : Nat := doe - (365 * yoe + yoe / 4 - yoe / 100)
  let mp : Nat := (5 * doy + 2) / 153
  let d : Nat := doy - (153 * mp + 2) / 5 + 1
  let m : Nat := if mp < 10 then mp + 3 else mp - 9
  ((yoe : Int) + era * 400 + (if m ≤ 2 then 1 else 0), m, d)

/-- `datetime.fromtimestamp(q, tz=timezone.utc)`: timestamps are rounded to
whole microseconds (half to even); out-of-range years raise, modelled as
`none`. -/
def dtFromTimestamp (q : Rat) : Option PyDateTime :=
  let totalUs : Int := pyRound (q * 1000000)
  let day : Int := Int.ediv totalUs 86400000000
  let rem : Nat := (Int.emod totalUs 86400000000).toNat
  match civilFromDays day with
  | (y, m, d) =>
    if y < 1 then Option.none
    else
      mkValidDT
        { year := y.toNat, month := m, day := d,
          hour := rem / 3600000000, minute := rem / 60000000 % 60,
          second := rem / 1000000 % 60, microsecond := rem / 1 % 1000000,
          offsetMinutes := 0 }

/-- Time-of-day tail of an ISO string: `HH:MM[:SS[.ffffff]]`, returning
(hour, minute, second, microsecond, rest). -/
def parseHMS : List Char → Option (Nat × Nat × Nat × Nat × List Char)
  | h1 :: h2 :: ':' :: m1 :: m2 :: rest =>
    if [h1, h2, m1, m2].all isAsciiDigit then
      let h := digitsToNat [h1, h2]
      let mi := digitsToNat [m1, m2]
      match rest with
      | ':' :: s1 :: s2 :: rest2 =>
        if isAsciiDigit s1 && isAsciiDigit s2 then
          let s := digitsToNat [s1, s2]
          match rest2 with
          | '.' :: rest3 =>
            let fd := rest3.takeWhile isAsciiDigit
            let rest4 := rest3.dropWhile isAsciiDigit
            if fd = [] ∨ 6 < fd.length then Option.none
            else some (h, mi, s, digitsToNat fd * 10 ^ (6 - fd.length), rest4)
          | _ => some (h, mi, s, 0, rest2)
        else Option.none
      | _ => some (h, mi, 0, 0, rest)
    else Option.none
  | _ => Option.none

/-- Trailing UTC-offset of an ISO string; an absent offset means a naive
datetime, which `_parse_datetime_value` immediately converts to UTC, so it is
modelled as offset 0 directly. -/
def parseOffset : List Char → Option Int
  | [] => some 0
  | sign :: h1 :: h2 :: ':' :: m1 :: m2 :: [] =>
    if (sign = '+' ∨ sign = '-') ∧ [h1, h2, m1, m2].all isAsciiDigit = true then
      let hv := digitsToNat [h1, h2]
      let mv := digitsToNat [m1, m2]
      if hv ≤ 23 ∧ mv ≤ 59 then
        some (if sign = '-' then -((hv * 60 + mv : Nat) : Int) else (hv * 60 + mv : Nat))
      else Option.none
    else Option.none
  | _ => Option.none

/-- `datetime.fromisoformat` on the extended format
`YYYY-MM-DD[(T| )HH:MM[:SS[.ffffff]][±HH:MM]]` (the only shapes reaching it
through `_parse_datetime_value` after its `Z`/offset-colon normalization);
out-of-range fields raise `ValueError`, modelled as `none`. -/
def fromIsoformat (cs : List Char) : Option PyDateTime :=
  match cs with
  | y1 :: y2 :: y3 :: y4 :: '-' :: mo1 :: mo2 :: '-' :: d1 :: d2 :: rest =>
    if [y1, y2, y3, y4, mo1, mo2, d1, d2].all isAsciiDigit then
      let y := digitsToNat [y1, y2, y3, y4]
      let mo := digitsToNat [mo1, mo2]
      let d := digitsToNat [d1, d2]
      match rest with
      | [] =>
        mkValidDT
          { year := y, month := mo, day := d, hour := 0, minute := 0, second := 0,
            microsecond := 0, offsetMinutes := 0 }
      | sep :: rest2 =>
        if sep = 'T' ∨ sep = ' ' then
          match parseHMS rest2 with
          | Option.none => Option.none
          | some (h, mi, s, us, rest3) =>
            match parseOffset rest3 with
            | Option.none => Option.none
            | some off =>
              mkValidDT
                { year := y, month := mo, day := d, hour := h, minute := mi,
                  second := s, microsecond := us, offsetMinutes := off }
        else Option.none
    else Option.none
  | _ => Option.none

/-- The `datetime.strptime` fallback formats `%Y-%m-%d %H:%M:%S` and
`%Y-%m-%dT%H:%M:%S` (4-digit-year shapes; a naive result gets UTC attached). -/
def strptimeFallback (cs : List Char) : Option PyDateTime :=
  match cs with
  | y1 :: y2 :: y3 :: y4 :: '-' :: mo1 :: mo2 :: '-' :: d1 :: d2 :: sep ::
      h1 :: h2 :: ':' :: mi1 :: mi2 :: ':' :: s1 :: s2 :: [] =>
    if (sep = ' ' ∨ sep = 'T') ∧
        [y1, y2, y3, y4, mo1, mo2, d1, d2, h1, h2, mi1, mi2, s1, s2].all isAsciiDigit = true then
      mkValidDT
        { year := digitsToNat [y1, y2, y3, y4], month := digitsToNat [mo1, mo2],
          day := digitsToNat [d1, d2], hour := digitsToNat [h1, h2],
          minute := digitsToNat [mi1, mi2], second := digitsToNat [s1, s2],
          microsecond := 0, offsetMinutes := 0 }
    else Option.none
  | _ => Option.none

/-- The string branch of `_parse_datetime_value`: strip, rewrite a trailing
`Z` to `+00:00`, insert the missing colon of a `±HHMM` offset, then
`fromisoformat` with the `strptime` fallback. -/
def parseDatetimeString (s : String) : Option PyDateTime :=
  let stripped := (pyStrip s).toList
  if stripped = [] then Option.none
  else
    let n := stripped.length
    let normalized :=
      if stripped.getLast? = some 'Z' then
        stripped.dropLast ++ [ '+', '0', '0', ':', '0', '0' ]
      else if 5 ≤ n ∧
          (stripped.get? (n - 5) = some '+' ∨ stripped.get? (n - 5) = some '-') ∧
          ¬ stripped.get? (n - 3) = some ':' then
        stripped.take (n - 2) ++ [ ':' ] ++ stripped.drop (n - 2)
      else stripped
    match fromIsoformat normalized with
    | some dt => some dt
    | Option.none => strptimeFallback stripped

/-- `_parse_datetime_value` from `api_helpers.py` over payload values
(`bool` is an `int` subtype in Python, so it reaches the timestamp branch). -/
def parseDatetimeValue : PyVal → Option PyDateTime
  | .int n => dtFromTimestamp (n : Rat)
  | .float q => dtFromTimestamp q
  | .bool b => dtFromTimestamp (if b then 1 else 0)
  | .str s => parseDatetimeString s
  | _ => Option.none

/-- `_isoformat_datetime` from `api_helpers.py`: ISO 8601 with the
microseconds dropped, keeping the datetime's own offset. -/
def isoformatDatetime (dt : PyDateTime) : String :=
  let a := dt.offsetMinutes.natAbs
  String.mk (pad4 dt.year ++ [ '-' ] ++ pad2 dt.month ++ [ '-' ] ++ pad2 dt.day ++ [ 'T' ]
    ++ pad2 dt.hour ++ [ ':' ] ++ pad2 dt.minute ++ [ ':' ] ++ pad2 dt.second
    ++ [if dt.offsetMinutes < 0 then '-' else '+'] ++ pad2 (a / 60) ++ [ ':' ] ++ pad2 (a % 60))

/-! ## The structural sanitizer (`sanitize_payload`, `api_helpers.py`) -/

/-- `d.get(k)` with the Python default `None`. -/
def pyGet (es : List (String × PyVal)) (k : String) : PyVal :=
  (dictGet es k).getD .none

/-- `s.lower()` (ASCII model). -/
def pyLower (s : String) : String := String.mk (s.toList.map Char.toLower)

/-- `_parse_positive_amount` closure of `sanitize_payload`. -/
def parsePositiveAmount (v : PyVal) : Option Int :=
  let q? : Option Rat :=
    match v with
    | .str s =>
      let t := pyStrip s
      if t = "" then Option.none else parseFloat t
    | .int n => some ((n : Int) : Rat)
    | .float q => some q
    | .bool b => some (if b then 1 else 0)
    | _ => Option.none
  match q? with
  | Option.none => Option.none
  | some q => if q ≤ 0 then Option.none else some (pyRound q)

/-- The element loop of `_normalize_string_collection` for list values. -/
def collectStringItems : List PyVal → List String
  | [] => []
  | it :: rest =>
    if it = .none ∨ it = .str "" ∨ it = .list [] then collectStringItems rest
    else
      match it with
      | .str s =>
        let t := pyStrip s
        if t = "" then collectStringItems rest else t :: collectStringItems rest
      | other => pyStr other :: collectStringItems rest

/-- `_normalize_string_collection` closure of `sanitize_payload`; `none`
models the final `return None` for uncoercible values. -/
def normalizeStringCollection (v : PyVal) : Option (List String) :=
  if v = .none ∨ v = .str "" ∨ v = .list [] then some []
  else
    match v with
    | .str s =>
      let t := pyStrip s
      if t = "" ∨ t = "[]" then some []
      else
        match jsonLoads t with
        | Option.none =>
          some (((pySplitComma t).map pyStrip).filter (fun x => ¬ x = ""))
        | some (.list items) =>
          some ((items.map (fun it => pyStrip (pyStr it))).filter (fun x => ¬ x = ""))
        | some .none => some []
        | some parsed =>
          let ps := pyStrip (pyStr parsed)
          if ps = "" then some [] else some [ps]
    | .list xs => some (collectStringItems xs)
    | _ => Option.none

/-- Budget mutual-exclusivity rule of `_apply_dict_rules`. -/
def budgetRule (vs : List (String × PyVal)) : List (String × PyVal) :=
  if dictHas vs "daily_budget" || dictHas vs "lifetime_budget" then
    match parsePositiveAmount (pyGet vs "daily_budget"),
        parsePositiveAmount (pyGet vs "lifetime_budget") with
    | some a, _ => dictPop (dictSet vs "daily_budget" (.int a)) "lifetime_budget"
    | Option.none, some b => dictPop (dictSet vs "lifetime_budget" (.int b)) "daily_budget"
    | Option.none, Option.none => dictPop (dictPop vs "daily_budget") "lifetime_budget"
  else vs

/-- `value in (None, '', '0', 0)` after the optional strip (Python `==`
equates `0`, `0.0` and `False`). -/
def spendCapSentinel (v : PyVal) : Bool :=
  match v with
  | .none => true
  | .str s => s = "" ∨ s = "0"
  | .int n => n = 0
  | .float q => q = 0
  | .bool b => b = false
  | _ => false

/-- Spend-cap rule of `_apply_dict_rules`. -/
def spendCapRule (vs : List (String × PyVal)) : List (String × PyVal) :=
  if dictHas vs "spend_cap" then
    let v :=
      match pyGet vs "spend_cap" with
      | .str s => .str (pyStrip s)
      | x => x
    if spendCapSentinel v then dictPop vs "spend_cap"
    else
      match parsePositiveAmount v with
      | some n => dictSet vs "spend_cap" (.int n)
      | Option.none => dictPop vs "spend_cap"
  else vs

/-- `special_ad_categories` rule of `_apply_dict_rules` (`depth0` is
`depth == 0`). -/
def sacRule (vs : List (String × PyVal)) (depth0 : Bool) : List (String × PyVal) :=
  if depth0 || dictHas vs "special_ad_categories" then
    match normalizeStringCollection (pyGet vs "special_ad_categories") with
    | Option.none =>
      if depth0 then dictSet vs "special_ad_categories" (.list [])
      else dictPop vs "special_ad_categories"
    | some items => dictSet vs "special_ad_categories" (.list (items.map PyVal.str))
  else vs

def brandSafetyFields : List String :=
  [ "brand_safety_content_filter_levels",
    "brand_safety_content_severity_levels",
    "excluded_brand_safety_content_types" ]

/-- One iteration of the brand-safety loop of `_apply_dict_rules`. -/
def brandFieldRule (vs : List (String × PyVal)) (name : String) : List (String × PyVal) :=
  if dictHas vs name then
    match normalizeStringCollection (pyGet vs name) with
    | Option.none => dictPop vs name
    | some items => dictSet vs name (.list (items.map PyVal.str))
  else vs

def brandRule (vs : List (String × PyVal)) : List (String × PyVal) :=
  brandSafetyFields.foldl brandFieldRule vs

/-- `start_time` clamp of `_apply_dict_rules`: never earlier than `now`. -/
def startTimeRule (vs : List (String × PyVal)) (now : PyDateTime) : List (String × PyVal) :=
  let stv := pyGet vs "start_time"
  if stv = .none ∨ stv = .str "" then dictPop vs "start_time"
  else
    match parseDatetimeValue stv with
    | some parsed =>
      dictSet vs "start_time"
        (.str (isoformatDatetime
          (if dtInstantMicro now ≤ dtInstantMicro parsed then parsed else now)))
    | Option.none => dictPop vs "start_time"

/-- `time_fields_map` lookup: which stop/end fields apply to the object kind. -/
def timeFieldsList (objectType : String) : List String :=
  if objectType = "campaign" then [ "stop_time" ]
  else if objectType = "adset" then [ "end_time", "stop_time" ]
  else [ "stop_time", "end_time" ]

/-- One iteration of the stop/end-time loop of `_apply_dict_rules`. -/
def timeFieldRule (vs : List (String × PyVal)) (name : String) : List (String × PyVal) :=
  if dictHas vs name then
    let v := pyGet vs name
    if v = .none ∨ v = .str "" then dictPop vs name
    else
      match parseDatetimeValue v with
      | some p => dictSet vs name (.str (isoformatDatetime p))
      | Option.none => dictPop vs name
  else vs

def timeFieldsRule (vs : List (String × PyVal)) (objectType : String) :
    List (String × PyVal) :=
  (timeFieldsList objectType).foldl timeFieldRule vs

/-- `numeric_exclusions` of `_apply_dict_rules`. -/
def numericExclusions : List String :=
  [ "id", "account_id", "campaign_id", "adset_id", "creative_id", "parent_id",
    "existing_creative_id" ]

/-- The final opportunistic numeric coercion of one entry: fully-numeric plain
strings become numbers unless the key is identifier-like. -/
def coerceEntry (k : String) (v : PyVal) : PyVal :=
  match v with
  | .str s =>
    let stripped := pyStrip s
    if stripped = "" then v
    else if numericExclusions.contains k || strEndsWith k "_id" || strEndsWith k "_ids" then v
    else if pyIsDigit stripped then .int (digitsToNat stripped.toList)
    else
      match parseFloat stripped with
      | some q => .float q
      | Option.none => v
  | _ => v

def numericCoerceRule (vs : List (String × PyVal)) : List (String × PyVal) :=
  vs.map (fun e => (e.1, coerceEntry e.1 e.2))

/-- `_apply_dict_rules(values, depth)` (empty dicts are returned untouched). -/
def applyDictRules (objectType : String) (now : PyDateTime)
    (vs : List (String × PyVal)) (depth0 : Bool) : List (String × PyVal) :=
  if vs = [] then vs
  else
    numericCoerceRule
      (timeFieldsRule
        (startTimeRule
          (brandRule (sacRule (spendCapRule (budgetRule vs)) depth0))
          now)
        objectType)

mutual

/-- `_sanitize(value, depth)`. -/
def sanitizeVal (objectType : String) (now : PyDateTime) : PyVal → Nat → PyVal
  | .dict es, depth =>
    .dict (applyDictRules objectType now
      (sanitizeEntries objectType now es (depth + 1)) (depth = 0))
  | .list xs, depth => .list (sanitizeListVals objectType now xs (depth + 1))
  | v, _ => v

def sanitizeListVals (objectType : String) (now : PyDateTime) :
    List PyVal → Nat → List PyVal
  | [], _ => []
  | x :: xs, depth => sanitizeVal objectType now x depth :: sanitizeListVals objectType now xs depth

def sanitizeEntries (objectType : String) (now : PyDateTime) :
    List (String × PyVal) → Nat → List (String × PyVal)
  | [], _ => []
  | (k, v) :: es, depth =>
    (k, sanitizeVal objectType now v depth) :: sanitizeEntries objectType now es depth

end

/-- `sanitize_payload(data, object_type)` from `api_helpers.py`.  `now` is the
`datetime.now(timezone.utc)` reference captured at entry. -/
def sanitizePayload (data : PyVal) (objectType : String) (now : PyDateTime) : PyVal :=
  let ot := pyLower objectType
  match data with
  | .dict es => sanitizeVal ot now (.dict es) 0
  | .list xs => .list (xs.map (fun item => sanitizeVal ot now item 0))
  | v => v

/-! ## Per-field normalization and payload assembly (`1_Campaign_Cloner.py`) -/

def BUDGET_FIELDS : List String :=
  [ "daily_budget", "lifetime_budget", "spend_cap", "bid_amount" ]

def BOOLEAN_FIELDS : List String := [ "is_dynamic_creative" ]

def JSON_FIELD_HINTS : List String :=
  [ "promoted_object", "targeting", "attribution_spec", "special_ad_categories" ]

def TRUTHY_VALUES : List String := [ "true", "1", "yes", "y" ]

def FALSY_VALUES : List String := [ "false", "0", "no", "n" ]

/-- `int(x)` on a float: truncation toward zero. -/
def ratTrunc (q : Rat) : Int := if q < 0 then -((-q).floor) else q.floor

/-- Stages 6–7 of `normalize_input_value`: numeric-original coercion falling
through to residual-string handling. -/
def normalizeResidual (value : PyVal) : PyVal :=
  match value with
  | .str s =>
    let trimmed := pyStrip s
    if startsWithChar trimmed '\x7b' ∨ startsWithChar trimmed '[' then
      match jsonLoads trimmed with
      | some parsed => parsed
      | Option.none =>
        if TRUTHY_VALUES.contains (pyLower trimmed) then .bool true
        else if FALSY_VALUES.contains (pyLower trimmed) then .bool false
        else .str trimmed
    else if TRUTHY_VALUES.contains (pyLower trimmed) then .bool true
    else if FALSY_VALUES.contains (pyLower trimmed) then .bool false
    else .str trimmed
  | _ => value

/-- `normalize_input_value(field_name, value, original_value)` from
`1_Campaign_Cloner.py`.  Python `bool` is an `int` subtype, so booleans take
the numeric branches where `isinstance(value, (int, float))` holds. -/
def normalizeInputValue (fieldName : String) (value originalValue : PyVal) : PyVal :=
  if value = .none then .none
  else if BUDGET_FIELDS.contains fieldName then
    if value = .str "" then .none
    else
      match value with
      | .int n => .str (toString n)
      | .float q => .str (toString (pyRound q))
      | .bool b => .str (toString (if b then (1 : Int) else 0))
      | .str s =>
        let trimmed := pyStrip s
        if trimmed = "" then .none
        else
          match parseFloat trimmed with
          | some q => .str (toString (pyRound q))
          | Option.none => .str trimmed
      | other => .str (pyStr other)
  else if BOOLEAN_FIELDS.contains fieldName ||
      (match originalValue with | .bool _ => true | _ => false) then
    match value with
    | .bool b => .bool b
    | .str s =>
      let lowered := pyLower (pyStrip s)
      if TRUTHY_VALUES.contains lowered then .bool true
      else if FALSY_VALUES.contains lowered then .bool false
      else .bool (pyTruthy value)
    | _ => .bool (pyTruthy value)
  else
    match value with
    | .dict _ => value
    | .list _ => value
    | _ =>
      match originalValue with
      | .dict _ =>
        (match value with
         | .str s => (jsonLoads s).getD originalValue
         | _ => value)
      | .list _ =>
        (match value with
         | .str s => (jsonLoads s).getD originalValue
         | _ => value)
      | _ =>
        if JSON_FIELD_HINTS.contains fieldName then
          match value with
          | .str s =>
            let trimmed := pyStrip s
            if trimmed = "" then
              if fieldName = "special_ad_categories" then .list [] else .none
            else
              match jsonLoads trimmed with
              | some parsed => parsed
              | Option.none =>
                if fieldName = "special_ad_categories" then
                  .list ((((pySplitComma trimmed).map pyStrip).filter
                    (fun x => ¬ x = "")).map PyVal.str)
                else value
          | _ => value
        else
          match originalValue with
          | .int _ =>
            (match value with
             | .int n => .int n
             | .float q => .int (ratTrunc q)
             | .bool b => .int (if b then 1 else 0)
             | .str s =>
               let trimmed := pyStrip s
               if trimmed = "" then .none
               else
                 match parseFloat trimmed with
                 | some q => .int (ratTrunc q)
                 | Option.none => normalizeResidual value
             | _ => normalizeResidual value)
          | .float _ =>
            (match value with
             | .int n => .float (n : Rat)
             | .float q => .float q
             | .bool b => .float (if b then 1 else 0)
             | .str s =>
               let trimmed := pyStrip s
               if trimmed = "" then .none
               else
                 match parseFloat trimmed with
                 | some q => .float q
                 | Option.none => normalizeResidual value
             | _ => normalizeResidual value)
          | _ => normalizeResidual value

/-! Ordered create-payload field schemas from `configs/fields_schema.py`. -/

def CAMPAIGN_POST_FIELDS : List String :=
  [ "name", "objective", "status", "special_ad_categories", "buying_type",
    "bid_strategy", "start_time", "stop_time", "daily_budget",
    "lifetime_budget", "spend_cap", "promoted_object" ]

def ADSET_POST_FIELDS : List String :=
  [ "name", "campaign_id", "status", "daily_budget", "lifetime_budget",
    "start_time", "end_time", "pacing_type", "bid_strategy", "bid_amount",
    "billing_event", "optimization_goal", "promoted_object", "targeting",
    "attribution_spec", "is_dynamic_creative",
    "financial_services_declaration_section" ]

def AD_POST_FIELDS : List String := [ "name", "status", "adset_id", "creative" ]

def CREATIVE_POST_FIELDS : List String :=
  [ "name", "object_story_spec", "body", "title", "image_url", "thumbnail_url",
    "video_id", "call_to_action_type", "instagram_actor_id", "url_tags",
    "message", "headline" ]

def asDictEntries (v : PyVal) : List (String × PyVal) :=
  match v with
  | .dict es => es
  | _ => []

def isDict (v : PyVal) : Bool :=
  match v with
  | .dict _ => true
  | _ => false

/-- Shared schema-driven assembly loop of the `sanitize_*_payload` helpers:
for each schema field not skipped, normalize `overrides.get(f, base.get(f))`
and keep non-`None` results. -/
def assemblePayload (fields : List String) (skip : String → Bool)
    (base : List (String × PyVal)) (overrides : List (String × PyVal)) :
    List (String × PyVal) :=
  fields.foldl
    (fun payload field =>
      if skip field then payload
      else
        let originalValue := pyGet base field
        let value := (dictGet overrides field).getD originalValue
        let normalized := normalizeInputValue field value originalValue
        if normalized = .none then payload else dictSet payload field normalized)
    []

/-- `payload['status'] = payload.get('status') or 'PAUSED'`. -/
def defaultStatus (payload : List (String × PyVal)) : List (String × PyVal) :=
  dictSet payload "status"
    (if pyTruthy (pyGet payload "status") then pyGet payload "status" else .str "PAUSED")

/-- `sanitize_campaign_payload(template, overrides, is_cbo)`. -/
def sanitizeCampaignPayload (template : PyVal) (overrides : List (String × PyVal))
    (isCbo : Bool) : List (String × PyVal) :=
  defaultStatus
    (assemblePayload CAMPAIGN_POST_FIELDS
      (fun field => (field = "daily_budget" ∨ field = "lifetime_budget") ∧ ¬ isCbo)
      (asDictEntries template) overrides)

/-- `sanitize_adset_payload(template, overrides, new_campaign_id, is_cbo)`. -/
def sanitizeAdsetPayload (template : PyVal) (overrides : List (String × PyVal))
    (newCampaignId : String) (isCbo : Bool) : List (String × PyVal) :=
  let payload :=
    assemblePayload ADSET_POST_FIELDS
      (fun field => field = "campaign_id" ∨
        ((field = "daily_budget" ∨ field = "lifetime_budget") ∧ isCbo))
      (asDictEntries template) overrides
  let payload := dictSet payload "campaign_id" (.str newCampaignId)
  let payload := defaultStatus payload
  if isCbo then dictPop (dictPop payload "daily_budget") "lifetime_budget"
  else payload

/-- `sanitize_ad_payload(template, overrides, new_adset_id, creative_id)`. -/
def sanitizeAdPayload (template : PyVal) (overrides : List (String × PyVal))
    (newAdsetId creativeId : String) : List (String × PyVal) :=
  let payload :=
    assemblePayload AD_POST_FIELDS
      (fun field => field = "creative" ∨ field = "adset_id")
      (asDictEntries template) overrides
  let payload := dictSet payload "adset_id" (.str newAdsetId)
  let payload := dictSet payload "creative" (.dict [("creative_id", .str creativeId)])
  defaultStatus payload

/-! ## Creative-spec merging (`update_object_story_spec`, `build_creative_payload`) -/

/-- Rewrite a section's `call_to_action.value` link fields (shared shape of
the three section cases in `update_object_story_spec`). -/
def updateCta (sectionEntries : List (String × PyVal)) (link : String) :
    List (String × PyVal) :=
  match dictGet sectionEntries "call_to_action" with
  | some (.dict ctaEs) =>
    let newCta :=
      match dictGet ctaEs "value" with
      | some (.dict valueEs) =>
        dictSet ctaEs "value"
          (.dict (dictSet (dictSet valueEs "link" (.str link)) "link_url" (.str link)))
      | _ => dictSet ctaEs "value" (.dict [("link", .str link)])
    dictSet sectionEntries "call_to_action" (.dict newCta)
  | _ => sectionEntries

/-- Apply `f` to the named section when it is a dict, writing the result back
(the `isinstance(section, dict)` + `dict(section)` + reassignment pattern). -/
def updateSection (updated : List (String × PyVal)) (name : String)
    (f : List (String × PyVal) → List (String × PyVal)) : List (String × PyVal) :=
  match dictGet updated name with
  | some (.dict ses) => dictSet updated name (.dict (f ses))
  | _ => updated

/-- The strip–dedup loop over `retailer_item_ids` (order-preserving). -/
def cleanedRetailerIds (items : List String) : List String :=
  items.foldl
    (fun acc item =>
      let normalized := pyStrip item
      if ¬ normalized = "" ∧ ¬ acc.contains normalized then acc ++ [normalized] else acc)
    []

/-- `update_object_story_spec(story_spec, asset_info, message, headline, link,
retailer_item_ids)` from `1_Campaign_Cloner.py`.  The UI always supplies the
message/headline/link overrides as (possibly empty) strings. -/
def updateObjectStorySpec (storySpec assetInfo : PyVal)
    (message headline link : String) (retailerItemIds : List String) : PyVal :=
  let updated := asDictEntries storySpec
  let updated :=
    if pyTruthy assetInfo then
      let key := pyGet (asDictEntries assetInfo) "key"
      let value := pyGet (asDictEntries assetInfo) "value"
      if pyTruthy key ∧ pyTruthy value then
        let u1 := updateSection updated "link_data" (fun ld =>
          if key = .str "image_hash" then dictPop (dictSet ld "image_hash" value) "video_id"
          else if key = .str "video_id" then dictPop (dictSet ld "video_id" value) "image_hash"
          else ld)
        let u2 := updateSection u1 "video_data" (fun vd =>
          if key = .str "video_id" then dictSet vd "video_id" value else vd)
        updateSection u2 "photo_data" (fun pd =>
          if key = .str "image_hash" then dictSet pd "image_hash" value else pd)
      else updated
    else updated
  let updated :=
    if ¬ message = "" then
      [ "link_data", "video_data", "photo_data" ].foldl
        (fun u sec => updateSection u sec (fun se => dictSet se "message" (.str message)))
        updated
    else updated
  let updated :=
    if ¬ headline = "" then
      let u := updateSection updated "link_data" (fun ld =>
        dictSet (dictSet ld "headline" (.str headline)) "name" (.str headline))
      updateSection u "video_data" (fun vd => dictSet vd "title" (.str headline))
    else updated
  let updated :=
    if ¬ link = "" then
      let u := updateSection updated "link_data" (fun ld =>
        updateCta (dictSet (dictSet ld "link" (.str link)) "link_url" (.str link)) link)
      [ "video_data", "photo_data" ].foldl
        (fun u2 sec => updateSection u2 sec (fun se => updateCta se link)) u
    else updated
  let cleaned := cleanedRetailerIds retailerItemIds
  let updated :=
    if ¬ cleaned = [] then
      let u := [ "link_data", "video_data", "template_data" ].foldl
        (fun u2 sec => updateSection u2 sec
          (fun se => dictSet se "retailer_item_ids" (.list (cleaned.map PyVal.str))))
        updated
      dictSet u "retailer_item_ids" (.list (cleaned.map PyVal.str))
    else
      let u := [ "link_data", "video_data", "template_data" ].foldl
        (fun u2 sec => updateSection u2 sec (fun se => dictPop se "retailer_item_ids"))
        updated
      dictPop u "retailer_item_ids"
  .dict updated

/-- `(d.get(k) or '')` for the UI-supplied string inputs of
`build_creative_payload`. -/
def pyStrField (es : List (String × PyVal)) (k : String) : String :=
  match pyGet es k with
  | .str s => s
  | _ => ""

/-- `build_creative_payload(creative_template, creative_inputs, asset_map)`
from `1_Campaign_Cloner.py`: returns the assembled payload (or `none` for a
non-dict template) together with the selected asset-map entry. -/
def buildCreativePayload (creativeTemplate : PyVal)
    (creativeInputs : List (String × PyVal)) (assetMap : List (String × PyVal)) :
    Option (List (String × PyVal)) × PyVal :=
  if ¬ isDict creativeTemplate then (Option.none, .none)
  else
    let payload := asDictEntries creativeTemplate
    let payload :=
      [ "id", "status", "thumbnail_url", "image_url", "effective_object_story_id",
        "asset_feed_spec" ].foldl dictPop payload
    let assetName := pyGet creativeInputs "asset_name"
    let assetInfo :=
      if pyTruthy assetName then
        (match assetName with
         | .str nm => pyGet assetMap nm
         | _ => .none)
      else .none
    let message := pyStrField creativeInputs "message"
    let headline := pyStrField creativeInputs "title"
    let link := pyStrField creativeInputs "link"
    let retailerIdsRaw := pyStrField creativeInputs "retailer_item_ids"
    let retailerIdsList :=
      ((pySplitComma retailerIdsRaw).filter
        (fun item => ¬ item = "" ∧ ¬ pyStrip item = "")).map pyStrip
    let storySpec := pyGet payload "object_story_spec"
    let payload := dictSet payload "object_story_spec"
      (updateObjectStorySpec storySpec assetInfo message headline link retailerIdsList)
    let payload :=
      if ¬ message = "" then dictSet payload "body" (.str message)
      else dictPop payload "body"
    let payload :=
      if ¬ headline = "" then dictSet payload "title" (.str headline)
      else dictPop payload "title"
    let payload :=
      if ¬ retailerIdsList = [] then
        dictSet payload "retailer_item_ids" (.list (retailerIdsList.map PyVal.str))
      else dictPop payload "retailer_item_ids"
    let creativeName := pyGet creativeInputs "name"
    let payload :=
      if pyTruthy creativeName then dictSet payload "name" creativeName else payload
    (some payload, assetInfo)

/-! ## The hierarchical cloner (`create_campaign_from_template`)

The remote create surface is modelled by an oracle giving the outcome of the
k-th create call of the run (`none` = the call raised a platform error or
returned no response; both make `create_ad_object` return `None`).  Logging
and backoff do not influence the returned value and are not modelled. -/

def optTruthy (r : Option PyVal) : Bool :=
  match r with
  | some v => pyTruthy v
  | Option.none => false

/-- `result.get('id')`: SDK results are dict-like; anything else yields `None`
through the `getattr` fallback. -/
def resultId (result : PyVal) : PyVal :=
  match result with
  | .dict es => pyGet es "id"
  | _ => .none

/-- A create step "succeeded" when its response is truthy and carries a truthy
identifier; anything else aborts the traversal. -/
def createSucceeds (r : Option PyVal) : Bool :=
  match r with
  | some v => pyTruthy v && pyTruthy (resultId v)
  | Option.none => false

inductive CloneOutcome where
  | raised (msg : String)
  | aborted
  | completed (campaignId : String) (adsetIds adIds : List String)
deriving DecidableEq

structure CloneResult where
  outcome : CloneOutcome
  calls : Nat
deriving DecidableEq

inductive AdsLoopResult where
  | halted (r : CloneResult)
  | done (adIds : List String) (nextCall : Nat)

inductive AdSetsLoopResult where
  | halted (r : CloneResult)
  | done (adsetIds adIds : List String) (nextCall : Nat)

/-- The inner `for ad_index, ad in enumerate(ad_templates)` loop. -/
def cloneAds (oracle : Nat → Option PyVal) (assetMap : List (String × PyVal))
    (now : PyDateTime) (adsetKey adsetIdStr : String) (adInputsMap : PyVal) :
    List PyVal → Nat → Nat → List String → AdsLoopResult
  | [], _, callIdx, acc => .done acc callIdx
  | ad :: rest, adIndex, callIdx, acc =>
    let adEs := asDictEntries ad
    let adKey :=
      if pyTruthy (pyGet adEs "id") then pyStr (pyGet adEs "id")
      else adsetKey ++ "_ad_" ++ toString adIndex
    let adInput :=
      if isDict adInputsMap then (dictGet (asDictEntries adInputsMap) adKey).getD (.dict [])
      else .dict []
    let adFieldOverrides :=
      if isDict adInput then
        asDictEntries ((dictGet (asDictEntries adInput) "fields").getD (.dict []))
      else []
    let creativeInputs :=
      if isDict adInput then
        asDictEntries ((dictGet (asDictEntries adInput) "creative").getD (.dict []))
      else []
    let creativeTemplate := pyGet adEs "creative_details"
    let built := buildCreativePayload creativeTemplate creativeInputs assetMap
    let payloadTruthy : Bool :=
      match built.1 with
      | some es => ¬ es = []
      | Option.none => false
    if ¬ payloadTruthy then
      -- `if not creative_payload:` — this ad is skipped with a warning.
      cloneAds oracle assetMap now adsetKey adsetIdStr adInputsMap rest (adIndex + 1) callIdx acc
    else
      let creativeEs := (built.1).getD []
      let _creativeParams := sanitizePayload (.dict creativeEs) "creative" now
      let creativeResult := oracle callIdx
      if ¬ optTruthy creativeResult then .halted ⟨.aborted, callIdx + 1⟩
      else
        let newCreativeId := resultId (creativeResult.getD .none)
        if ¬ pyTruthy newCreativeId then .halted ⟨.aborted, callIdx + 1⟩
        else
          let adPayload := sanitizeAdPayload ad adFieldOverrides adsetIdStr (pyStr newCreativeId)
          let _adParams := sanitizePayload (.dict adPayload) "ad" now
          let adResult := oracle (callIdx + 1)
          if ¬ optTruthy adResult then .halted ⟨.aborted, callIdx + 2⟩
          else
            let newAdId := resultId (adResult.getD .none)
            if ¬ pyTruthy newAdId then .halted ⟨.aborted, callIdx + 2⟩
            else
              cloneAds oracle assetMap now adsetKey adsetIdStr adInputsMap rest (adIndex + 1)
                (callIdx + 2) (acc ++ [pyStr newAdId])

/-- `adset_key`: the stable synthetic identifier for one template ad set. -/
def adsetKeyOf (es : List (String × PyVal)) (index : Nat) : String :=
  if pyTruthy (pyGet es "id") then pyStr (pyGet es "id")
  else "adset_" ++ toString index

/-- `adset_inputs_map.get(adset_key, {})` with its `isinstance` guard. -/
def adsetInputsOf (adsetInputsMap : PyVal) (key : String) : PyVal :=
  if isDict adsetInputsMap then (dictGet (asDictEntries adsetInputsMap) key).getD (.dict [])
  else .dict []

/-- The per-ad-set payload assembly then structural sanitization
(`sanitize_adset_payload` followed by `sanitize_payload(..., 'adset')`). -/
def cloneAdsetParams (adSet adsetInputs : PyVal) (campaignIdStr : String)
    (isCbo : Bool) (now : PyDateTime) : List (String × PyVal) :=
  let adsetFieldOverrides :=
    if isDict adsetInputs then
      asDictEntries ((dictGet (asDictEntries adsetInputs) "fields").getD (.dict []))
    else []
  asDictEntries (sanitizePayload
    (.dict (sanitizeAdsetPayload adSet adsetFieldOverrides campaignIdStr isCbo)) "adset" now)

/-- The outer `for index, ad_set in enumerate(ad_sets_template)` loop. -/
def cloneAdSets (oracle : Nat → Option PyVal) (assetMap : List (String × PyVal))
    (now : PyDateTime) (isCbo : Bool) (campaignIdStr : String) (adsetInputsMap : PyVal) :
    List PyVal → Nat → Nat → List String → List String → AdSetsLoopResult
  | [], _, callIdx, accSets, accAds => .done accSets accAds callIdx
  | adSet :: rest, index, callIdx, accSets, accAds =>
    let es := asDictEntries adSet
    let adsetKey := adsetKeyOf es index
    let adsetInputs := adsetInputsOf adsetInputsMap adsetKey
    let adsetParams := cloneAdsetParams adSet adsetInputs campaignIdStr isCbo now
    if ¬ isCbo ∧ ¬ (dictHas adsetParams "daily_budget" ∨ dictHas adsetParams "lifetime_budget") then
      .halted ⟨.raised "ad set missing budget", callIdx⟩
    else
      let adsetResult := oracle callIdx
      if ¬ optTruthy adsetResult then .halted ⟨.aborted, callIdx + 1⟩
      else
        let newAdsetId := resultId (adsetResult.getD .none)
        if ¬ pyTruthy newAdsetId then .halted ⟨.aborted, callIdx + 1⟩
        else
          let adsetIdStr := pyStr newAdsetId
          let adInputsMap :=
            if isDict adsetInputs then (dictGet (asDictEntries adsetInputs) "ads").getD (.dict [])
            else .dict []
          let adTemplates :=
            match pyGet es "ads" with
            | .list xs => xs
            | _ => []
          match cloneAds oracle assetMap now adsetKey adsetIdStr adInputsMap adTemplates 0
              (callIdx + 1) accAds with
          | .halted res => .halted res
          | .done newAccAds nextCall =>
            cloneAdSets oracle assetMap now isCbo campaignIdStr adsetInputsMap rest (index + 1)
              nextCall (accSets ++ [adsetIdStr]) newAccAds

/-- The campaign payload assembly then structural sanitization prefix of
`create_campaign_from_template` (`sanitize_campaign_payload` followed by
`sanitize_payload(..., 'campaign')`). -/
def cloneCampaignParams (templateData userInputs : List (String × PyVal))
    (isCbo : Bool) (now : PyDateTime) : List (String × PyVal) :=
  let campaignTemplate :=
    if isDict (pyGet templateData "campaign") then pyGet templateData "campaign" else .dict []
  let campaignOverrides :=
    if isDict (pyGet userInputs "campaign") then asDictEntries (pyGet userInputs "campaign") else []
  asDictEntries (sanitizePayload
    (.dict (sanitizeCampaignPayload campaignTemplate campaignOverrides isCbo)) "campaign" now)

/-- `create_campaign_from_template(api, account_id, template_data, user_inputs,
asset_map, is_cbo)` from `1_Campaign_Cloner.py`: the outcome (assembly
`ValueError`, aborted-with-`None`, or the returned Creation Result) together
with the number of create API calls issued. -/
def createCampaignFromTemplate (oracle : Nat → Option PyVal)
    (templateData userInputs : List (String × PyVal))
    (assetMap : List (String × PyVal)) (isCbo : Bool) (now : PyDateTime) : CloneResult :=
  let campaignParams := cloneCampaignParams templateData userInputs isCbo now
  if isCbo ∧ ¬ (dictHas campaignParams "daily_budget" ∨ dictHas campaignParams "lifetime_budget") then
    ⟨.raised "CBO campaign requires daily_budget or lifetime_budget", 0⟩
  else
    let campaignResult := oracle 0
    if ¬ optTruthy campaignResult then ⟨.aborted, 1⟩
    else
      let newCampaignId := resultId (campaignResult.getD .none)
      if ¬ pyTruthy newCampaignId then ⟨.aborted, 1⟩
      else
        let campaignIdStr := pyStr newCampaignId
        let adsetInputsMap := (dictGet userInputs "ad_sets").getD (.dict [])
        let adSetsTemplate :=
          match pyGet templateData "ad_sets" with
          | .list xs => xs
          | _ => []
        match cloneAdSets oracle assetMap now isCbo campaignIdStr adsetInputsMap
            adSetsTemplate 0 1 [] [] with
        | .halted res => res
        | .done adsetIds adIds nextCall =>
          ⟨.completed campaignIdStr adsetIds adIds, nextCall⟩

/-- A concrete reference instant (`datetime.now(timezone.utc)`) used by the
concrete scenarios below. -/
def refNow : PyDateTime :=
  { year := 2030, month := 6, day := 15, hour := 12, minute := 0, second := 0,
    microsecond := 0, offsetMinutes := 0 }

/-- A reference instant with a fractional second, as `datetime.now` almost
always returns. -/
def refNowFrac : PyDateTime :=
  { year := 2030, month := 1, day := 1, hour := 0, minute := 0, second := 0,
    microsecond := 500000, offsetMinutes := 0 }

/-! ## Well-formedness of payload values (amounts that round to a positive
integer and collection fields made of plain strings) -/

def itemOk : PyVal → Bool
  | .str _ => true
  | .none => true
  | .list [] => true
  | _ => false

def amountOk (v : PyVal) : Bool := decide (¬ parsePositiveAmount v = some 0)

def collectionOk : PyVal → Bool
  | .list xs => xs.all itemOk
  | _ => true

def wfDict (es : List (String × PyVal)) : Bool :=
  amountOk (pyGet es "daily_budget") && amountOk (pyGet es "lifetime_budget") &&
  amountOk (pyGet es "spend_cap") &&
  collectionOk (pyGet es "special_ad_categories") &&
  brandSafetyFields.all (fun f => collectionOk (pyGet es f))

mutual

def wfVal : PyVal → Bool
  | .dict es => wfDict es && wfEntries es
  | .list xs => wfListVals xs
  | _ => true

def wfListVals : List PyVal → Bool
  | [] => true
  | x :: xs => wfVal x && wfListVals xs

def wfEntries : List (String × PyVal) → Bool
  | [] => true
  | (_, v) :: es => wfVal v && wfEntries es

end

/-! # Lemmas -/

/-! ## Dict primitives -/

lemma dictGet_dictSet_self (es : List (String × PyVal)) (k : String) (v : PyVal) :
    dictGet (dictSet es k v) k = some v := by
  induction es with
  | nil => simp [dictSet, dictGet]
  | cons e rest ih =>
    by_cases h : e.1 = k
    · simp [dictSet, dictGet, h]
    · simp [dictSet, dictGet, h, ih]

lemma dictGet_dictSet_other (es : List (String × PyVal)) (k k2 : String) (v : PyVal)
    (h : ¬ k2 = k) : dictGet (dictSet es k v) k2 = dictGet es k2 := by
  have h2 : ¬ k = k2 := fun hh => h hh.symm
  induction es with
  | nil => simp [dictSet, dictGet, h2]
  | cons e rest ih =>
    by_cases he : e.1 = k
    · simp [dictSet, dictGet, he, h, h2]
    · by_cases he2 : e.1 = k2 <;> simp [dictSet, dictGet, he, he2, h, h2, ih]

lemma dictGet_dictPop_self (es : List (String × PyVal)) (k : String) :
    dictGet (dictPop es k) k = Option.none := by
  induction es with
  | nil => simp [dictPop, dictGet]
  | cons e rest ih =>
    by_cases h : e.1 = k <;> simp [dictPop, dictGet, h, ih]

lemma dictGet_dictPop_other (es : List (String × PyVal)) (k k2 : String)
    (h : ¬ k2 = k) : dictGet (dictPop es k) k2 = dictGet es k2 := by
  have h2 : ¬ k = k2 := fun hh => h hh.symm
  induction es with
  | nil => simp [dictPop, dictGet]
  | cons e rest ih =>
    by_cases he : e.1 = k
    · simp [dictPop, dictGet, he, h, h2, ih]
    · by_cases he2 : e.1 = k2 <;> simp [dictPop, dictGet, he, he2, h, h2, ih]

lemma dictHas_iff_dictGet (es : List (String × PyVal)) (k : String) :
    dictHas es k = true ↔ ∃ v, dictGet es k = some v := by
  induction es with
  | nil => simp [dictHas, dictGet]
  | cons e rest ih =>
    by_cases h : e.1 = k <;> simp [dictHas, dictGet, h, ih]

lemma dictGet_map_coerce (es : List (String × PyVal)) (k : String)
    (f : String → PyVal → PyVal) :
    dictGet (es.map (fun e => (e.1, f e.1 e.2))) k = (dictGet es k).map (f k) := by
  induction es with
  | nil => simp [dictGet]
  | cons e rest ih =>
    by_cases h : e.1 = k
    · subst h; simp [dictGet, ih]
    · simp [dictGet, h, ih]

lemma updateSection_get_other (u : List (String × PyVal)) (name k : String)
    (f : List (String × PyVal) → List (String × PyVal)) (hk : ¬ k = name) :
    dictGet (updateSection u name f) k = dictGet u k := by
  unfold updateSection
  cases hg : dictGet u name with
  | none => simp [hg]
  | some v =>
    cases v <;> simp [hg]
    exact dictGet_dictSet_other _ _ _ _ hk

lemma updateSection_get_self (u : List (String × PyVal)) (name : String)
    (f : List (String × PyVal) → List (String × PyVal)) (ses : List (String × PyVal))
    (hg : dictGet u name = some (.dict ses)) :
    dictGet (updateSection u name f) name = some (.dict (f ses)) := by
  unfold updateSection
  simp [hg, dictGet_dictSet_self]

/-! ## The retrying executor -/

lemma makeApiRequestGo_rateLimited (call : Nat → CallOutcome) (N : Int)
    (h : ∀ k, ∃ c s, call k = .platformError c s ∧ isRateLimitedError c s = true) :
    ∀ (fuel attempt : Nat), (attempt : Int) + (fuel : Int) = N →
      makeApiRequestGo call N attempt fuel = (Option.none, fuel) := by
  intro fuel
  induction fuel with
  | zero => intro attempt _; rfl
  | succ f ih =>
    intro attempt hinv
    obtain ⟨c, s, hcall, hrl⟩ := h attempt
    cases f with
    | zero =>
      have hlt : ¬ ((attempt : Int) < N - 1) := by push_cast at hinv; omega
      simp [makeApiRequestGo, hcall, hrl, hlt]
    | succ f₂ =>
      have hlt : (attempt : Int) < N - 1 := by push_cast at hinv ⊢; omega
      have hrec := ih (attempt + 1) (by push_cast at hinv ⊢; omega)
      have hstep : makeApiRequestGo call N attempt (f₂ + 1 + 1)
          = (match call attempt with
             | .success v => (some v, 1)
             | .unexpectedError => (Option.none, 1)
             | .platformError code subcode =>
               if isRateLimitedError code subcode && decide ((attempt : Int) < N - 1) then
                 let r := makeApiRequestGo call N (attempt + 1) (f₂ + 1)
                 (r.1, r.2 + 1)
               else (Option.none, 1)) := rfl
      rw [hstep, hcall]
      simp [hrl, hlt, hrec]

/-! ## Transparency of the sanitizer rules on unrelated keys -/

lemma budgetRule_other (vs : List (String × PyVal)) (k : String)
    (hk1 : ¬ k = "daily_budget") (hk2 : ¬ k = "lifetime_budget") :
    dictGet (budgetRule vs) k = dictGet vs k := by
  unfold budgetRule
  by_cases hb : (dictHas vs "daily_budget" || dictHas vs "lifetime_budget") = true
  · simp only [hb, if_true]
    cases hd : parsePositiveAmount (pyGet vs "daily_budget") with
    | some a =>
      simp [hd, dictGet_dictPop_other _ _ _ hk2, dictGet_dictSet_other _ _ _ _ hk1]
    | none =>
      cases hl : parsePositiveAmount (pyGet vs "lifetime_budget") with
      | some b =>
        simp [hd, hl, dictGet_dictPop_other _ _ _ hk1, dictGet_dictSet_other _ _ _ _ hk2]
      | none =>
        simp [hd, hl, dictGet_dictPop_other _ _ _ hk1, dictGet_dictPop_other _ _ _ hk2]
  · simp only [Bool.not_eq_true] at hb
    simp [hb]

lemma spendCapRule_other (vs : List (String × PyVal)) (k : String)
    (hk : ¬ k = "spend_cap") : dictGet (spendCapRule vs) k = dictGet vs k := by
  unfold spendCapRule
  by_cases hb : dictHas vs "spend_cap" = true
  · simp only [hb, if_true]
    by_cases hs : spendCapSentinel
        (match pyGet vs "spend_cap" with
         | .str s => .str (pyStrip s)
         | x => x) = true
    · simp [hs, dictGet_dictPop_other _ _ _ hk]
    · simp only [hs, Bool.false_eq_true, if_false]
      cases hp : parsePositiveAmount
          (match pyGet vs "spend_cap" with
           | .str s => .str (pyStrip s)
           | x => x) with
      | some n => simp [hp, dictGet_dictSet_other _ _ _ _ hk]
      | none => simp [hp, dictGet_dictPop_other _ _ _ hk]
  · simp only [Bool.not_eq_true] at hb
    simp [hb]

lemma sacRule_other (vs : List (String × PyVal)) (d0 : Bool) (k : String)
    (hk : ¬ k = "special_ad_categories") : dictGet (sacRule vs d0) k = dictGet vs k := by
  unfold sacRule
  by_cases hb : (d0 || dictHas vs "special_ad_categories") = true
  · simp only [hb, if_true]
    cases hn : normalizeStringCollection (pyGet vs "special_ad_categories") with
    | some items => simp [hn, dictGet_dictSet_other _ _ _ _ hk]
    | none =>
      cases d0 <;>
        simp [hn, dictGet_dictSet_other _ _ _ _ hk, dictGet_dictPop_other _ _ _ hk]
  · simp only [Bool.not_eq_true] at hb
    simp [hb]

lemma brandFieldRule_other (vs : List (String × PyVal)) (name k : String)
    (hk : ¬ k = name) : dictGet (brandFieldRule vs name) k = dictGet vs k := by
  unfold brandFieldRule
  by_cases hb : dictHas vs name = true
  · simp only [hb, if_true]
    cases hn : normalizeStringCollection (pyGet vs name) with
    | some items => simp [hn, dictGet_dictSet_other _ _ _ _ hk]
    | none => simp [hn, dictGet_dictPop_other _ _ _ hk]
  · simp only [Bool.not_eq_true] at hb
    simp [hb]

lemma brandRule_other (vs : List (String × PyVal)) (k : String)
    (h1 : ¬ k = "brand_safety_content_filter_levels")
    (h2 : ¬ k = "brand_safety_content_severity_levels")
    (h3 : ¬ k = "excluded_brand_safety_content_types") :
    dictGet (brandRule vs) k = dictGet vs k := by
  unfold brandRule brandSafetyFields
  simp only [List.foldl]
  rw [brandFieldRule_other _ _ _ h3, brandFieldRule_other _ _ _ h2,
    brandFieldRule_other _ _ _ h1]

lemma startTimeRule_other (vs : List (String × PyVal)) (now : PyDateTime) (k : String)
    (hk : ¬ k = "start_time") : dictGet (startTimeRule vs now) k = dictGet vs k := by
  unfold startTimeRule
  by_cases hs : (pyGet vs "start_time" = .none ∨ pyGet vs "start_time" = .str "")
  · simp [hs, dictGet_dictPop_other _ _ _ hk]
  · simp only [hs, if_false]
    cases hp : parseDatetimeValue (pyGet vs "start_time") with
    | some p => simp [hp, dictGet_dictSet_other _ _ _ _ hk]
    | none => simp [hp, dictGet_dictPop_other _ _ _ hk]

lemma timeFieldRule_other (vs : List (String × PyVal)) (name k : String)
    (hk : ¬ k = name) : dictGet (timeFieldRule vs name) k = dictGet vs k := by
  unfold timeFieldRule
  by_cases hb : dictHas vs name = true
  · simp only [hb, if_true]
    by_cases hs : (pyGet vs name = .none ∨ pyGet vs name = .str "")
    · simp [hs, dictGet_dictPop_other _ _ _ hk]
    · simp only [hs, if_false]
      cases hp : parseDatetimeValue (pyGet vs name) with
      | some p => simp [hp, dictGet_dictSet_other _ _ _ _ hk]
      | none => simp [hp, dictGet_dictPop_other _ _ _ hk]
  · simp only [Bool.not_eq_true] at hb
    simp [hb]

lemma timeFieldsRule_other (vs : List (String × PyVal)) (ot : String) (k : String)
    (h1 : ¬ k = "stop_time") (h2 : ¬ k = "end_time") :
    dictGet (timeFieldsRule vs ot) k = dictGet vs k := by
  unfold timeFieldsRule timeFieldsList
  by_cases hc : ot = "campaign"
  · simp only [hc, if_true, List.foldl]
    rw [timeFieldRule_other _ _ _ h1]
  · by_cases ha : ot = "adset"
    · simp only [hc, ha, if_false, if_true, List.foldl]
      rw [timeFieldRule_other _ _ _ h1, timeFieldRule_other _ _ _ h2]
    · simp only [hc, ha, if_false, List.foldl]
      rw [timeFieldRule_other _ _ _ h2, timeFieldRule_other _ _ _ h1]

lemma numericCoerceRule_get (vs : List (String × PyVal)) (k : String) :
    dictGet (numericCoerceRule vs) k = (dictGet vs k).map (coerceEntry k) := by
  unfold numericCoerceRule
  exact dictGet_map_coerce vs k coerceEntry

/-- The non-budget rules composed after the budget rule, on a key none of
them touches. -/
lemma laterRules_other (vs : List (String × PyVal)) (ot : String) (now : PyDateTime)
    (d0 : Bool) (k : String)
    (hsac : ¬ k = "special_ad_categories")
    (hb1 : ¬ k = "brand_safety_content_filter_levels")
    (hb2 : ¬ k = "brand_safety_content_severity_levels")
    (hb3 : ¬ k = "excluded_brand_safety_content_types")
    (hst : ¬ k = "start_time") (hsp : ¬ k = "stop_time") (hen : ¬ k = "end_time") :
    dictGet (numericCoerceRule (timeFieldsRule (startTimeRule (brandRule (sacRule vs d0)) now) ot)) k
      = (dictGet vs k).map (coerceEntry k) := by
  rw [numericCoerceRule_get, timeFieldsRule_other _ _ _ hsp hen,
    startTimeRule_other _ _ _ hst, brandRule_other _ _ hb1 hb2 hb3,
    sacRule_other _ _ _ hsac]

lemma dictGet_sanitizeEntries (ot : String) (now : PyDateTime)
    (es : List (String × PyVal)) (k : String) (d : Nat) :
    dictGet (sanitizeEntries ot now es d) k
      = (dictGet es k).map (fun v => sanitizeVal ot now v d) := by
  induction es with
  | nil => simp [sanitizeEntries, dictGet]
  | cons e rest ih =>
    obtain ⟨k1, v1⟩ := e
    by_cases h : k1 = k <;> simp [sanitizeEntries, dictGet, h, ih]

lemma sanitizeEntries_ne_nil (ot : String) (now : PyDateTime)
    (es : List (String × PyVal)) (d : Nat) (h : ¬ es = []) :
    ¬ sanitizeEntries ot now es d = [] := by
  cases es with
  | nil => exact absurd rfl h
  | cons e rest => obtain ⟨k1, v1⟩ := e; simp [sanitizeEntries]

lemma parsePositiveAmount_sanitizeVal (ot : String) (now : PyDateTime)
    (v : PyVal) (d : Nat) :
    parsePositiveAmount (sanitizeVal ot now v d) = parsePositiveAmount v := by
  cases v <;> rfl

/-- `pyGet` through `sanitizeEntries` (missing keys stay `None`, which is a
`sanitizeVal` fixed point). -/
lemma pyGet_sanitizeEntries (ot : String) (now : PyDateTime)
    (es : List (String × PyVal)) (k : String) (d : Nat) :
    pyGet (sanitizeEntries ot now es d) k = sanitizeVal ot now (pyGet es k) d := by
  unfold pyGet
  rw [dictGet_sanitizeEntries]
  cases dictGet es k <;> rfl

/-- Behaviour of the budget rule on its own keys. -/
lemma budgetRule_char (vs : List (String × PyVal))
    (hb : (dictHas vs "daily_budget" || dictHas vs "lifetime_budget") = true) :
    (∀ a, parsePositiveAmount (pyGet vs "daily_budget") = some a →
      dictGet (budgetRule vs) "daily_budget" = some (.int a) ∧
      dictGet (budgetRule vs) "lifetime_budget" = Option.none) ∧
    (parsePositiveAmount (pyGet vs "daily_budget") = Option.none →
      ∀ b, parsePositiveAmount (pyGet vs "lifetime_budget") = some b →
      dictGet (budgetRule vs) "lifetime_budget" = some (.int b) ∧
      dictGet (budgetRule vs) "daily_budget" = Option.none) ∧
    (parsePositiveAmount (pyGet vs "daily_budget") = Option.none →
      parsePositiveAmount (pyGet vs "lifetime_budget") = Option.none →
      dictGet (budgetRule vs) "daily_budget" = Option.none ∧
      dictGet (budgetRule vs) "lifetime_budget" = Option.none) := by
  unfold budgetRule
  refine ⟨?_, ?_, ?_⟩
  · intro a ha
    simp only [hb, if_true, ha]
    refine ⟨?_, dictGet_dictPop_self _ _⟩
    rw [dictGet_dictPop_other _ _ _ (by decide), dictGet_dictSet_self]
  · intro hd b hbv
    simp only [hb, if_true, hd, hbv]
    refine ⟨?_, ?_⟩
    · rw [dictGet_dictPop_other _ _ _ (by decide), dictGet_dictSet_self]
    · exact dictGet_dictPop_self _ _
  · intro hd hl
    simp only [hb, if_true, hd, hl]
    refine ⟨?_, dictGet_dictPop_self _ _⟩
    rw [dictGet_dictPop_other _ _ _ (by decide), dictGet_dictPop_self]

/-- Behaviour of the `special_ad_categories` rule at the top level. -/
lemma sacRule_self_depth0 (vs : List (String × PyVal)) :
    dictGet (sacRule vs true) "special_ad_categories" =
      some (match normalizeStringCollection (pyGet vs "special_ad_categories") with
        | Option.none => .list []
        | some items => .list (items.map PyVal.str)) := by
  unfold sacRule
  simp only [Bool.true_or, if_true]
  cases hn : normalizeStringCollection (pyGet vs "special_ad_categories") with
  | none => simp [dictGet_dictSet_self]
  | some items => simp [dictGet_dictSet_self]

/-- `sanitize_payload` on a non-empty dict unfolds to the rule chain over the
recursively sanitized entries. -/
lemma sanitizePayload_dict_ne_nil (es : List (String × PyVal)) (ot : String)
    (now : PyDateTime) (hne : ¬ es = []) :
    sanitizePayload (.dict es) ot now =
      .dict (numericCoerceRule
        (timeFieldsRule
          (startTimeRule
            (brandRule
              (sacRule (spendCapRule (budgetRule
                (sanitizeEntries (pyLower ot) now es 1))) true))
            now)
          (pyLower ot))) := by
  have hvs := sanitizeEntries_ne_nil (pyLower ot) now es 1 hne
  unfold sanitizePayload sanitizeVal applyDictRules
  simp [hvs]

/-! ## Cloner call accounting -/


lemma createSucceeds_eq (r : Option PyVal) :
    createSucceeds r = (optTruthy r && pyTruthy (resultId (r.getD .none))) := by
  cases r <;> rfl

/-- Halting right after call `c` because the response was falsy. -/
lemma abortedHalt_optFalse (oracle : Nat → Option PyVal) (c : Nat)
    (hpre : ∀ i, i < c → createSucceeds (oracle i) = true)
    (h : ¬ optTruthy (oracle c) = true) :
    (CloneOutcome.aborted = CloneOutcome.aborted →
      1 ≤ c + 1 ∧ (∀ i, i + 1 < c + 1 → createSucceeds (oracle i) = true) ∧
      createSucceeds (oracle (c + 1 - 1)) = false) ∧
    (∀ cid sids aids, CloneOutcome.aborted = CloneOutcome.completed cid sids aids →
      ∀ i, i < c + 1 → createSucceeds (oracle i) = true) := by
  refine ⟨fun _ => ⟨by omega, fun i hi => hpre i (by omega), ?_⟩,
    fun cid sids aids h => CloneOutcome.noConfusion h⟩
  rw [Nat.add_sub_cancel, createSucceeds_eq, Bool.eq_false_iff.mpr h]
  rfl

/-- Halting right after call `c` because the response carried no truthy id. -/
lemma abortedHalt_idFalse (oracle : Nat → Option PyVal) (c : Nat)
    (hpre : ∀ i, i < c → createSucceeds (oracle i) = true)
    (h5 : optTruthy (oracle c) = true)
    (h6 : ¬ pyTruthy (resultId ((oracle c).getD .none)) = true) :
    (CloneOutcome.aborted = CloneOutcome.aborted →
      1 ≤ c + 1 ∧ (∀ i, i + 1 < c + 1 → createSucceeds (oracle i) = true) ∧
      createSucceeds (oracle (c + 1 - 1)) = false) ∧
    (∀ cid sids aids, CloneOutcome.aborted = CloneOutcome.completed cid sids aids →
      ∀ i, i < c + 1 → createSucceeds (oracle i) = true) := by
  refine ⟨fun _ => ⟨by omega, fun i hi => hpre i (by omega), ?_⟩,
    fun cid sids aids h => CloneOutcome.noConfusion h⟩
  rw [Nat.add_sub_cancel, createSucceeds_eq, h5, Bool.eq_false_iff.mpr h6, Bool.and_false]

/-- Successful call `c` extends a successful prefix by one. -/
lemma succPrefix1 (oracle : Nat → Option PyVal) (c : Nat)
    (hpre : ∀ i, i < c → createSucceeds (oracle i) = true)
    (h5 : optTruthy (oracle c) = true)
    (h6 : pyTruthy (resultId ((oracle c).getD .none)) = true) :
    ∀ i, i < c + 1 → createSucceeds (oracle i) = true := by
  intro i hi
  rcases Nat.lt_succ_iff_lt_or_eq.mp hi with h | h
  · exact hpre i h
  · subst h
    rw [createSucceeds_eq, h5, h6]
    rfl

/-- Halting right after call `c + 1` because the response was falsy. -/
lemma abortedHalt2_optFalse (oracle : Nat → Option PyVal) (c : Nat)
    (hpre : ∀ i, i < c → createSucceeds (oracle i) = true)
    (h5 : optTruthy (oracle c) = true)
    (h6 : pyTruthy (resultId ((oracle c).getD .none)) = true)
    (h7 : ¬ optTruthy (oracle (c + 1)) = true) :
    (CloneOutcome.aborted = CloneOutcome.aborted →
      1 ≤ c + 2 ∧ (∀ i, i + 1 < c + 2 → createSucceeds (oracle i) = true) ∧
      createSucceeds (oracle (c + 2 - 1)) = false) ∧
    (∀ cid sids aids, CloneOutcome.aborted = CloneOutcome.completed cid sids aids →
      ∀ i, i < c + 2 → createSucceeds (oracle i) = true) := by
  refine ⟨fun _ => ⟨by omega, fun i hi => succPrefix1 oracle c hpre h5 h6 i (by omega), ?_⟩,
    fun cid sids aids h => CloneOutcome.noConfusion h⟩
  have hc : c + 2 - 1 = c + 1 := by omega
  rw [hc, createSucceeds_eq, Bool.eq_false_iff.mpr h7]
  rfl

/-- Halting right after call `c + 1` because the response carried no truthy
id. -/
lemma abortedHalt2_idFalse (oracle : Nat → Option PyVal) (c : Nat)
    (hpre : ∀ i, i < c → createSucceeds (oracle i) = true)
    (h5 : optTruthy (oracle c) = true)
    (h6 : pyTruthy (resultId ((oracle c).getD .none)) = true)
    (h7 : optTruthy (oracle (c + 1)) = true)
    (h8 : ¬ pyTruthy (resultId ((oracle (c + 1)).getD .none)) = true) :
    (CloneOutcome.aborted = CloneOutcome.aborted →
      1 ≤ c + 2 ∧ (∀ i, i + 1 < c + 2 → createSucceeds (oracle i) = true) ∧
      createSucceeds (oracle (c + 2 - 1)) = false) ∧
    (∀ cid sids aids, CloneOutcome.aborted = CloneOutcome.completed cid sids aids →
      ∀ i, i < c + 2 → createSucceeds (oracle i) = true) := by
  refine ⟨fun _ => ⟨by omega, fun i hi => succPrefix1 oracle c hpre h5 h6 i (by omega), ?_⟩,
    fun cid sids aids h => CloneOutcome.noConfusion h⟩
  have hc : c + 2 - 1 = c + 1 := by omega
  rw [hc, createSucceeds_eq, h7, Bool.eq_false_iff.mpr h8, Bool.and_false]

/-- Two successful calls `c`, `c + 1` extend a successful prefix by two. -/
lemma succPrefix2 (oracle : Nat → Option PyVal) (c : Nat)
    (hpre : ∀ i, i < c → createSucceeds (oracle i) = true)
    (h5 : optTruthy (oracle c) = true)
    (h6 : pyTruthy (resultId ((oracle c).getD .none)) = true)
    (h7 : optTruthy (oracle (c + 1)) = true)
    (h8 : pyTruthy (resultId ((oracle (c + 1)).getD .none)) = true) :
    ∀ i, i < c + 2 → createSucceeds (oracle i) = true :=
  succPrefix1 oracle (c + 1) (succPrefix1 oracle c hpre h5 h6) h7 h8

/-- Call accounting for the inner ads loop: from a successful prefix of calls,
the loop either completes with every issued call successful, or halts
`.aborted` right after its first failed call. -/
lemma cloneAds_calls_spec (oracle : Nat → Option PyVal) (assetMap : List (String × PyVal))
    (now : PyDateTime) (adsetKey adsetIdStr : String) (adInputsMap : PyVal) :
    ∀ (ads : List PyVal) (adIndex callIdx : Nat) (acc : List String),
    (∀ i, i < callIdx → createSucceeds (oracle i) = true) →
    (match cloneAds oracle assetMap now adsetKey adsetIdStr adInputsMap ads adIndex callIdx acc with
     | .done _ n => ∀ i, i < n → createSucceeds (oracle i) = true
     | .halted r =>
        (r.outcome = .aborted →
          1 ≤ r.calls ∧ (∀ i, i + 1 < r.calls → createSucceeds (oracle i) = true) ∧
          createSucceeds (oracle (r.calls - 1)) = false) ∧
        (∀ cid sids aids, r.outcome = .completed cid sids aids →
          ∀ i, i < r.calls → createSucceeds (oracle i) = true)) := by
  intro ads
  induction ads with
  | nil => intro adIndex callIdx acc hpre; exact hpre
  | cons ad rest ih =>
    intro adIndex callIdx acc hpre
    simp only [cloneAds]
    split_ifs
    all_goals
      first
      | exact ih _ _ _ hpre
      | exact abortedHalt_optFalse oracle _ hpre (by assumption)
      | exact abortedHalt_idFalse oracle _ hpre (by assumption) (by assumption)
      | exact abortedHalt2_optFalse oracle _ hpre (by assumption) (by assumption) (by assumption)
      | exact abortedHalt2_idFalse oracle _ hpre (by assumption) (by assumption) (by assumption)
          (by assumption)
      | exact ih _ _ _ (succPrefix2 oracle _ hpre (by assumption) (by assumption) (by assumption)
          (by assumption))

/-- Composing the inner ads loop with the continuation of the ad-set loop. -/
lemma adSetsStep (oracle : Nat → Option PyVal) (assetMap : List (String × PyVal))
    (now : PyDateTime) (adsetKey adsetIdStr : String) (adInputsMap : PyVal)
    (adTemplates : List PyVal) (c : Nat) (accAds : List String)
    (cont : List String → Nat → AdSetsLoopResult)
    (hpre1 : ∀ i, i < c + 1 → createSucceeds (oracle i) = true)
    (hcont : ∀ a n, (∀ i, i < n → createSucceeds (oracle i) = true) →
      (match cont a n with
       | .done _ _ m => ∀ i, i < m → createSucceeds (oracle i) = true
       | .halted r =>
          (r.outcome = .aborted →
            1 ≤ r.calls ∧ (∀ i, i + 1 < r.calls → createSucceeds (oracle i) = true) ∧
            createSucceeds (oracle (r.calls - 1)) = false) ∧
          (∀ cid sids aids, r.outcome = .completed cid sids aids →
            ∀ i, i < r.calls → createSucceeds (oracle i) = true))) :
    (match (match cloneAds oracle assetMap now adsetKey adsetIdStr adInputsMap
            adTemplates 0 (c + 1) accAds with
        | .halted res => AdSetsLoopResult.halted res
        | .done a n => cont a n) with
     | .done _ _ m => ∀ i, i < m → createSucceeds (oracle i) = true
     | .halted r =>
        (r.outcome = .aborted →
          1 ≤ r.calls ∧ (∀ i, i + 1 < r.calls → createSucceeds (oracle i) = true) ∧
          createSucceeds (oracle (r.calls - 1)) = false) ∧
        (∀ cid sids aids, r.outcome = .completed cid sids aids →
          ∀ i, i < r.calls → createSucceeds (oracle i) = true)) := by
  have hads := cloneAds_calls_spec oracle assetMap now adsetKey adsetIdStr adInputsMap
    adTemplates 0 (c + 1) accAds hpre1
  cases hca : cloneAds oracle assetMap now adsetKey adsetIdStr adInputsMap
      adTemplates 0 (c + 1) accAds with
  | halted res =>
    rw [hca] at hads
    exact hads
  | done a n =>
    rw [hca] at hads
    exact hcont a n hads

/-- Call accounting for the ad-set loop: from a successful prefix of calls,
the loop either completes with every issued call successful, halts `.raised`
(never `.aborted`/`.completed`), or halts `.aborted` right after its first
failed call. -/
lemma cloneAdSets_calls_spec (oracle : Nat → Option PyVal) (assetMap : List (String × PyVal))
    (now : PyDateTime) (isCbo : Bool) (campaignIdStr : String) (adsetInputsMap : PyVal) :
    ∀ (adSets : List PyVal) (index callIdx : Nat) (accSets accAds : List String),
    (∀ i, i < callIdx → createSucceeds (oracle i) = true) →
    (match cloneAdSets oracle assetMap now isCbo campaignIdStr adsetInputsMap
        adSets index callIdx accSets accAds with
     | .done _ _ m => ∀ i, i < m → createSucceeds (oracle i) = true
     | .halted r =>
        (r.outcome = .aborted →
          1 ≤ r.calls ∧ (∀ i, i + 1 < r.calls → createSucceeds (oracle i) = true) ∧
          createSucceeds (oracle (r.calls - 1)) = false) ∧
        (∀ cid sids aids, r.outcome = .completed cid sids aids →
          ∀ i, i < r.calls → createSucceeds (oracle i) = true)) := by
  intro adSets
  induction adSets with
  | nil => intro index callIdx accSets accAds hpre; exact hpre
  | cons adSet rest ih =>
    intro index callIdx accSets accAds hpre
    simp only [cloneAdSets]
    split_ifs
    all_goals
      first
      | exact ⟨fun h => CloneOutcome.noConfusion h, fun cid sids aids h =>
          CloneOutcome.noConfusion h⟩
      | exact abortedHalt_optFalse oracle _ hpre (by assumption)
      | exact abortedHalt_idFalse oracle _ hpre (by assumption) (by assumption)
      | exact adSetsStep oracle assetMap now _ _ _ _ _ _ _
          (succPrefix1 oracle _ hpre (by assumption) (by assumption))
          (fun a n hp => ih _ _ _ _ hp)

/-- Composing the ad-set loop result with the final Creation Result assembly. -/
lemma topStep (oracle : Nat → Option PyVal) (cid : String) (rr : AdSetsLoopResult)
    (hspec : match rr with
     | .done _ _ m => ∀ i, i < m → createSucceeds (oracle i) = true
     | .halted r =>
        (r.outcome = .aborted →
          1 ≤ r.calls ∧ (∀ i, i + 1 < r.calls → createSucceeds (oracle i) = true) ∧
          createSucceeds (oracle (r.calls - 1)) = false) ∧
        (∀ cid2 sids aids, r.outcome = .completed cid2 sids aids →
          ∀ i, i < r.calls → createSucceeds (oracle i) = true)) :
    ((match rr with
      | .halted res => res
      | .done adsetIds adIds nextCall =>
        CloneResult.mk (.completed cid adsetIds adIds) nextCall).outcome = .aborted →
      1 ≤ (match rr with
        | .halted res => res
        | .done adsetIds adIds nextCall =>
          CloneResult.mk (.completed cid adsetIds adIds) nextCall).calls ∧
      (∀ i, i + 1 < (match rr with
        | .halted res => res
        | .done adsetIds adIds nextCall =>
          CloneResult.mk (.completed cid adsetIds adIds) nextCall).calls →
        createSucceeds (oracle i) = true) ∧
      createSucceeds (oracle ((match rr with
        | .halted res => res
        | .done adsetIds adIds nextCall =>
          CloneResult.mk (.completed cid adsetIds adIds) nextCall).calls - 1)) = false) ∧
    (∀ cid2 sids aids,
      (match rr with
       | .halted res => res
       | .done adsetIds adIds nextCall =>
         CloneResult.mk (.completed cid adsetIds adIds) nextCall).outcome =
        .completed cid2 sids aids →
      ∀ i, i < (match rr with
        | .halted res => res
        | .done adsetIds adIds nextCall =>
          CloneResult.mk (.completed cid adsetIds adIds) nextCall).calls →
        createSucceeds (oracle i) = true) := by
  cases rr with
  | halted res => exact hspec
  | done a b n =>
    exact ⟨fun h => (nomatch h), fun cid2 sids aids h i hi => hspec i hi⟩

/-! ## Batch orchestrator conservation -/


/-- Each dispatched request of a batch round ends in exactly one of the three
output lists. -/
lemma batchRound_perm (o : BatchOracle) (a : Nat) : ∀ l : List Nat,
    ((batchRound o a l).1 ++ ((batchRound o a l).2.1 ++ (batchRound o a l).2.2)).Perm l := by
  intro l
  induction l with
  | nil => exact List.Perm.refl _
  | cons i rest ih =>
    rw [batchRound]
    cases h : o.outcome a i with
    | success => exact ih.cons i
    | handlerError => exact List.perm_middle.trans (ih.cons i)
    | failure rl =>
      cases rl
      · exact List.perm_middle.trans (ih.cons i)
      · rw [← List.append_assoc]
        refine List.perm_middle.trans (List.Perm.cons i ?_)
        rw [List.append_assoc]
        exact ih

/-- Each request handed to the sequential fallback is either collected or
logged as a terminal failure. -/
lemma seqFallback_perm (o : BatchOracle) : ∀ l : List Nat,
    ((seqFallback o l).1 ++ (seqFallback o l).2).Perm l := by
  intro l
  induction l with
  | nil => exact List.Perm.refl _
  | cons i rest ih =>
    rw [seqFallback]
    cases h : o.seqOutcome i with
    | success => exact ih.cons i
    | handlerError => exact List.perm_middle.trans (ih.cons i)
    | failure rl => exact List.perm_middle.trans (ih.cons i)

/-- When no whole `batch.execute` call fails, the per-chunk retry loop
conserves its requests across (collected, logged, still-remaining). -/
lemma chunkRounds_perm (o : BatchOracle) (cIdx mA : Nat)
    (hnb : ∀ a, o.batchFails cIdx a = false) :
    ∀ (fuel a : Nat) (l : List Nat),
    ((chunkRounds o cIdx mA a l fuel).1 ++
      ((chunkRounds o cIdx mA a l fuel).2.1 ++ (chunkRounds o cIdx mA a l fuel).2.2)).Perm l := by
  intro fuel
  induction fuel with
  | zero => intro a l; exact List.Perm.refl _
  | succ fuel ih =>
    intro a l
    rw [chunkRounds]
    by_cases h1 : l = [] ∨ ¬ (a ≤ mA)
    · rw [if_pos h1]
      exact List.Perm.refl _
    · rw [if_neg h1, if_neg (by simp [hnb])]
      dsimp only
      by_cases h2 : (batchRound o a l).2.2 = []
      · rw [if_pos h2]
        have hb := batchRound_perm o a l
        rw [h2] at hb
        exact hb
      · rw [if_neg h2]
        by_cases h3 : mA ≤ a
        · rw [if_pos h3]
          exact batchRound_perm o a l
        · rw [if_neg h3]
          dsimp only
          have hb := batchRound_perm o a l
          have hn := ih (a + 1) (batchRound o a l).2.2
          rw [← Multiset.coe_eq_coe] at hb hn ⊢
          simp only [← Multiset.coe_add] at hb hn ⊢
          rw [← hb, ← hn]
          abel

/-- Chunk-by-chunk conservation for the orchestrator body. -/
lemma executeBatch_go_perm (o : BatchOracle) (mcr : Int)
    (hnb : ∀ c a, o.batchFails c a = false) :
    ∀ (chunks : List (List Nat)) (cIdx : Nat),
    ((executeBatchRequests.go o mcr chunks cIdx).1 ++
      (executeBatchRequests.go o mcr chunks cIdx).2).Perm chunks.flatten := by
  intro chunks
  induction chunks with
  | nil => intro cIdx; exact List.Perm.refl _
  | cons chunk rest ih =>
    intro cIdx
    rw [executeBatchRequests.go]
    dsimp only
    have h1 := chunkRounds_perm o cIdx ((max 1 mcr).toNat) (fun a => hnb cIdx a)
      ((max 1 mcr).toNat + 1) 1 chunk
    have h2 := seqFallback_perm o
      (chunkRounds o cIdx ((max 1 mcr).toNat) 1 chunk ((max 1 mcr).toNat + 1)).2.2
    have h3 := ih (cIdx + 1)
    rw [← Multiset.coe_eq_coe] at h1 h2 h3 ⊢
    simp only [List.flatten_cons]
    simp only [← Multiset.coe_add] at h1 h2 h3 ⊢
    rw [← h1, ← h2, ← h3]
    abel

/-- `chunk_list` with a positive chunk size partitions its input. -/
lemma chunkListGo_flatten (n : Nat) (hn : 1 ≤ n) :
    ∀ (fuel : Nat) (items : List Nat), items.length ≤ fuel →
    (chunkListGo n fuel items).flatten = items := by
  intro fuel
  induction fuel with
  | zero =>
    intro items h
    rw [List.eq_nil_of_length_eq_zero (Nat.le_zero.mp h)]
    rfl
  | succ fuel ih =>
    intro items h
    cases items with
    | nil => rfl
    | cons x xs =>
      rw [chunkListGo, List.flatten_cons, ih ((x :: xs).drop n) ?_]
      · exact List.take_append_drop n (x :: xs)
      · rw [List.length_drop]
        simp only [List.length_cons] at h ⊢
        omega

lemma chunkList_flatten (items : List Nat) (n : Nat) (hn : 1 ≤ n) :
    (chunkList items n).flatten = items :=
  chunkListGo_flatten n hn items.length items (le_refl _)


/-! ## Extra dict lemmas for idempotence -/

lemma dictSet_of_get_self (es : List (String × PyVal)) (k : String) (v : PyVal)
    (h : dictGet es k = some v) : dictSet es k v = es := by
  induction es with
  | nil => simp [dictGet] at h
  | cons e rest ih =>
    by_cases he : e.1 = k
    · rw [dictGet, if_pos he] at h
      obtain ⟨k1, v1⟩ := e
      cases h
      rw [dictSet, if_pos he]
      cases he
      rfl
    · rw [dictGet, if_neg he] at h
      rw [dictSet, if_neg he, ih h]

lemma dictPop_of_get_none (es : List (String × PyVal)) (k : String)
    (h : dictGet es k = Option.none) : dictPop es k = es := by
  induction es with
  | nil => rfl
  | cons e rest ih =>
    by_cases he : e.1 = k
    · rw [dictGet, if_pos he] at h
      cases h
    · rw [dictGet, if_neg he] at h
      rw [dictPop, if_neg he, ih h]

lemma mem_dictSet (es : List (String × PyVal)) (k : String) (v : PyVal) :
    ∀ p, p ∈ dictSet es k v → p ∈ es ∨ p = (k, v) := by
  induction es with
  | nil =>
    intro p hp
    rw [dictSet] at hp
    simp at hp
    exact Or.inr hp
  | cons e rest ih =>
    intro p hp
    by_cases he : e.1 = k
    · rw [dictSet, if_pos he] at hp
      rcases List.mem_cons.mp hp with h | h
      · exact Or.inr h
      · exact Or.inl (List.mem_cons_of_mem _ h)
    · rw [dictSet, if_neg he] at hp
      rcases List.mem_cons.mp hp with h | h
      · exact Or.inl (h ▸ List.mem_cons_self _ _)
      · rcases ih p h with h2 | h2
        · exact Or.inl (List.mem_cons_of_mem _ h2)
        · exact Or.inr h2

lemma mem_dictPop (es : List (String × PyVal)) (k : String) :
    ∀ p, p ∈ dictPop es k → p ∈ es := by
  induction es with
  | nil => intro p hp; simp [dictPop] at hp
  | cons e rest ih =>
    intro p hp
    by_cases he : e.1 = k
    · rw [dictPop, if_pos he] at hp
      exact List.mem_cons_of_mem _ (ih p hp)
    · rw [dictPop, if_neg he] at hp
      rcases List.mem_cons.mp hp with h | h
      · exact h ▸ List.mem_cons_self _ _
      · exact List.mem_cons_of_mem _ (ih p h)

/-! ## `str.strip()` stability -/

lemma dropWhile_head_false {p : Char → Bool} :
    ∀ (l t : List Char) (a : Char), l.dropWhile p = a :: t → p a = false := by
  intro l
  induction l with
  | nil => intro t a h; cases h
  | cons c cs ih =>
    intro t a h
    by_cases hc : p c = true
    · rw [List.dropWhile_cons_of_pos hc] at h
      exact ih t a h
    · rw [List.dropWhile_cons_of_neg hc] at h
      cases h
      exact Bool.eq_false_iff.mpr hc

lemma dropWhile_of_head_false {p : Char → Bool} (l : List Char)
    (h : ∀ a t, l = a :: t → p a = false) : l.dropWhile p = l := by
  cases l with
  | nil => rfl
  | cons a t => rw [List.dropWhile_cons_of_neg (by rw [h a t rfl]; exact Bool.false_ne_true)]

/-- `pyStrip` is idempotent. -/
lemma pyStrip_idem (s : String) : pyStrip (pyStrip s) = pyStrip s := by
  unfold pyStrip
  set p := isPySpace with hp
  set l1 := s.toList.dropWhile p with hl1
  set l2 := l1.reverse.dropWhile p with hl2
  show String.mk ((((String.mk l2.reverse).toList.dropWhile p).reverse.dropWhile p).reverse)
    = String.mk l2.reverse
  have htl : (String.mk l2.reverse).toList = l2.reverse := rfl
  rw [htl]
  have hstep1 : l2.reverse.dropWhile p = l2.reverse := by
    apply dropWhile_of_head_false
    intro a t h
    -- a is the head of l2.reverse; l2.reverse is a prefix of l1, whose head is not p
    have hsuf : l2 <:+ l1.reverse := by rw [hl2]; exact List.dropWhile_suffix p
    have hpre : l2.reverse <+: l1 := by
      have := List.reverse_prefix.mpr hsuf
      simpa using this
    obtain ⟨rest, hrest⟩ := hpre
    rw [h] at hrest
    exact dropWhile_head_false s.toList (t ++ rest) a hrest.symm
  rw [hstep1]
  have hstep2 : l2.reverse.reverse.dropWhile p = l2.reverse.reverse := by
    rw [List.reverse_reverse]
    apply dropWhile_of_head_false
    intro a t h
    exact dropWhile_head_false l1.reverse t a h
  rw [hstep2, List.reverse_reverse]

/-! ## Digit rendering facts -/

lemma isAsciiDigit_digitChar (d : Nat) (h : d < 10) : isAsciiDigit (digitChar d) = true := by
  interval_cases d <;> decide

lemma isPySpace_digitChar (d : Nat) (h : d < 10) : isPySpace (digitChar d) = false := by
  interval_cases d <;> decide

lemma digitVal_digitChar (d : Nat) (h : d < 10) : digitVal (digitChar d) = d := by
  interval_cases d <;> decide

lemma digitChar_ne_Z (d : Nat) (h : d < 10) : ¬ digitChar d = 'Z' := by
  interval_cases d <;> decide

lemma digitsToNat_pad2 (n : Nat) (h : n ≤ 99) : digitsToNat (pad2 n) = n := by
  show digitsToNat [digitChar (n / 10 % 10), digitChar (n % 10)] = n
  unfold digitsToNat
  simp only [List.foldl]
  rw [digitVal_digitChar _ (Nat.mod_lt _ (by omega)),
    digitVal_digitChar _ (Nat.mod_lt _ (by omega))]
  omega

lemma digitsToNat_pad4 (n : Nat) (h : n ≤ 9999) : digitsToNat (pad4 n) = n := by
  show digitsToNat [digitChar (n / 1000 % 10), digitChar (n / 100 % 10),
    digitChar (n / 10 % 10), digitChar (n % 10)] = n
  unfold digitsToNat
  simp only [List.foldl]
  rw [digitVal_digitChar _ (Nat.mod_lt _ (by omega)),
    digitVal_digitChar _ (Nat.mod_lt _ (by omega)),
    digitVal_digitChar _ (Nat.mod_lt _ (by omega)),
    digitVal_digitChar _ (Nat.mod_lt _ (by omega))]
  omega

/-- A helper for `pyStrip` on strings with non-space first and last chars. -/
lemma pyStrip_mk_of_ends (l : List Char)
    (hh : ∀ a t, l = a :: t → isPySpace a = false)
    (hl : ∀ a t, l.reverse = a :: t → isPySpace a = false) :
    pyStrip (String.mk l) = String.mk l := by
  unfold pyStrip
  have h1 : (String.mk l).toList = l := rfl
  rw [h1, dropWhile_of_head_false l hh, dropWhile_of_head_false l.reverse hl,
    List.reverse_reverse]


lemma isAsciiDigit_mod (x : Nat) : isAsciiDigit (digitChar (x % 10)) = true :=
  isAsciiDigit_digitChar _ (Nat.mod_lt _ (by decide))

lemma isPySpace_mod (x : Nat) : isPySpace (digitChar (x % 10)) = false :=
  isPySpace_digitChar _ (Nat.mod_lt _ (by decide))

lemma digitChar_mod_ne_Z (x : Nat) : ¬ digitChar (x % 10) = 'Z' :=
  digitChar_ne_Z _ (Nat.mod_lt _ (by decide))

lemma digitChar_mod_ne_plus (x : Nat) : ¬ digitChar (x % 10) = '+' := by
  have h : x % 10 < 10 := Nat.mod_lt _ (by decide)
  interval_cases h2 : (x % 10) <;> decide

lemma digitChar_mod_ne_minus (x : Nat) : ¬ digitChar (x % 10) = '-' := by
  have h : x % 10 < 10 := Nat.mod_lt _ (by decide)
  interval_cases h2 : (x % 10) <;> decide


lemma digitsToNat_pad2_mod (x : Nat) :
    digitsToNat [digitChar (x / 10 % 10), digitChar (x % 10)] = x % 100 := by
  unfold digitsToNat
  simp only [List.foldl]
  rw [digitVal_digitChar _ (Nat.mod_lt _ (by decide)),
    digitVal_digitChar _ (Nat.mod_lt _ (by decide))]
  omega

lemma digitsToNat_pad4_mod (x : Nat) :
    digitsToNat [digitChar (x / 1000 % 10), digitChar (x / 100 % 10),
      digitChar (x / 10 % 10), digitChar (x % 10)] = x % 10000 := by
  unfold digitsToNat
  simp only [List.foldl]
  rw [digitVal_digitChar _ (Nat.mod_lt _ (by decide)),
    digitVal_digitChar _ (Nat.mod_lt _ (by decide)),
    digitVal_digitChar _ (Nat.mod_lt _ (by decide)),
    digitVal_digitChar _ (Nat.mod_lt _ (by decide))]
  omega

/-- `isoformatDatetime` followed by the string parser recovers the datetime
with the microseconds dropped. -/
lemma isoformat_roundtrip (dt : PyDateTime) (hv : validDT dt = true) :
    parseDatetimeString (isoformatDatetime dt)
      = some { dt with microsecond := 0 } := by
  simp only [validDT, Bool.and_eq_true, decide_eq_true_eq] at hv
  by_cases hneg : dt.offsetMinutes < 0
  · have hiso : isoformatDatetime dt = String.mk (
      digitChar (dt.year / 1000 % 10) :: digitChar (dt.year / 100 % 10) ::
      digitChar (dt.year / 10 % 10) :: digitChar (dt.year % 10) :: '-' ::
      digitChar (dt.month / 10 % 10) :: digitChar (dt.month % 10) :: '-' ::
      digitChar (dt.day / 10 % 10) :: digitChar (dt.day % 10) :: 'T' ::
      digitChar (dt.hour / 10 % 10) :: digitChar (dt.hour % 10) :: ':' ::
      digitChar (dt.minute / 10 % 10) :: digitChar (dt.minute % 10) :: ':' ::
      digitChar (dt.second / 10 % 10) :: digitChar (dt.second % 10) :: '-' ::
      digitChar (dt.offsetMinutes.natAbs / 60 / 10 % 10) ::
      digitChar (dt.offsetMinutes.natAbs / 60 % 10) :: ':' ::
      digitChar (dt.offsetMinutes.natAbs % 60 / 10 % 10) ::
      digitChar (dt.offsetMinutes.natAbs % 60 % 10) :: []) := by
      simp only [isoformatDatetime, if_pos hneg, List.cons_append, List.nil_append]
      rfl
    rw [hiso]
    have hstrip : pyStrip (String.mk (
        digitChar (dt.year / 1000 % 10) :: digitChar (dt.year / 100 % 10) ::
      digitChar (dt.year / 10 % 10) :: digitChar (dt.year % 10) :: '-' ::
      digitChar (dt.month / 10 % 10) :: digitChar (dt.month % 10) :: '-' ::
      digitChar (dt.day / 10 % 10) :: digitChar (dt.day % 10) :: 'T' ::
      digitChar (dt.hour / 10 % 10) :: digitChar (dt.hour % 10) :: ':' ::
      digitChar (dt.minute / 10 % 10) :: digitChar (dt.minute % 10) :: ':' ::
      digitChar (dt.second / 10 % 10) :: digitChar (dt.second % 10) :: '-' ::
      digitChar (dt.offsetMinutes.natAbs / 60 / 10 % 10) ::
      digitChar (dt.offsetMinutes.natAbs / 60 % 10) :: ':' ::
      digitChar (dt.offsetMinutes.natAbs % 60 / 10 % 10) ::
      digitChar (dt.offsetMinutes.natAbs % 60 % 10) :: [])) = String.mk (
        digitChar (dt.year / 1000 % 10) :: digitChar (dt.year / 100 % 10) ::
      digitChar (dt.year / 10 % 10) :: digitChar (dt.year % 10) :: '-' ::
      digitChar (dt.month / 10 % 10) :: digitChar (dt.month % 10) :: '-' ::
      digitChar (dt.day / 10 % 10) :: digitChar (dt.day % 10) :: 'T' ::
      digitChar (dt.hour / 10 % 10) :: digitChar (dt.hour % 10) :: ':' ::
      digitChar (dt.minute / 10 % 10) :: digitChar (dt.minute % 10) :: ':' ::
      digitChar (dt.second / 10 % 10) :: digitChar (dt.second % 10) :: '-' ::
      digitChar (dt.offsetMinutes.natAbs / 60 / 10 % 10) ::
      digitChar (dt.offsetMinutes.natAbs / 60 % 10) :: ':' ::
      digitChar (dt.offsetMinutes.natAbs % 60 / 10 % 10) ::
      digitChar (dt.offsetMinutes.natAbs % 60 % 10) :: []) := by
      apply pyStrip_mk_of_ends
      · intro a t h
        cases h
        exact isPySpace_mod _
      · intro a t h
        simp only [List.reverse_cons, List.reverse_nil, List.nil_append, List.cons_append,
          List.append_assoc, List.singleton_append] at h
        cases h
        exact isPySpace_mod _
    unfold parseDatetimeString
    rw [hstrip]
    dsimp only
    have hy : dt.year % 10000 = dt.year := by omega
    have hmo : dt.month % 100 = dt.month := by omega
    have hdm : daysInMonth dt.year dt.month ≤ 31 := by
      unfold daysInMonth
      split_ifs <;> omega
    have hd : dt.day % 100 = dt.day := by omega
    have hh : dt.hour % 100 = dt.hour := by omega
    have hmi : dt.minute % 100 = dt.minute := by omega
    have hs : dt.second % 100 = dt.second := by omega
    have ha : dt.offsetMinutes.natAbs ≤ 1439 := by omega
    have ha1 : dt.offsetMinutes.natAbs / 60 % 100 = dt.offsetMinutes.natAbs / 60 := by omega
    have ha2 : dt.offsetMinutes.natAbs % 60 % 100 = dt.offsetMinutes.natAbs % 60 := by omega
    have hb1 : dt.offsetMinutes.natAbs / 60 ≤ 23 := by omega
    have hb2 : dt.offsetMinutes.natAbs % 60 ≤ 59 := by omega
    simp only [String.toList]
    rw [if_neg (List.cons_ne_nil _ _)]
    simp only [List.getLast?_cons_cons, List.getLast?_singleton]
    rw [if_neg (fun h => digitChar_mod_ne_Z _ (Option.some.inj h)), if_neg ?hc2]
    case hc2 =>
      rintro ⟨h5, hpm, hcl⟩
      rcases hpm with h | h <;>
        [exact digitChar_mod_ne_plus _ (Option.some.inj h);
         exact digitChar_mod_ne_minus _ (Option.some.inj h)]
    simp [fromIsoformat, parseHMS, parseOffset, isAsciiDigit_mod,
      digitsToNat_pad2_mod, digitsToNat_pad4_mod,
      hy, hmo, hd, hh, hmi, hs, ha1, ha2, hb1, hb2, mkValidDT]
    have hoffeq : (-(|dt.offsetMinutes| % 60) + -(|dt.offsetMinutes| / 60 * 60) : Int)
        = dt.offsetMinutes := by
      rw [Int.abs_eq_natAbs]
      omega
    rw [hoffeq, if_pos ?hvr]
    case hvr =>
      simp only [validDT, Bool.and_eq_true, decide_eq_true_eq]
      and_intros <;> omega

  · have hiso : isoformatDatetime dt = String.mk (
      digitChar (dt.year / 1000 % 10) :: digitChar (dt.year / 100 % 10) ::
      digitChar (dt.year / 10 % 10) :: digitChar (dt.year % 10) :: '-' ::
      digitChar (dt.month / 10 % 10) :: digitChar (dt.month % 10) :: '-' ::
      digitChar (dt.day / 10 % 10) :: digitChar (dt.day % 10) :: 'T' ::
      digitChar (dt.hour / 10 % 10) :: digitChar (dt.hour % 10) :: ':' ::
      digitChar (dt.minute / 10 % 10) :: digitChar (dt.minute % 10) :: ':' ::
      digitChar (dt.second / 10 % 10) :: digitChar (dt.second % 10) :: '+' ::
      digitChar (dt.offsetMinutes.natAbs / 60 / 10 % 10) ::
      digitChar (dt.offsetMinutes.natAbs / 60 % 10) :: ':' ::
      digitChar (dt.offsetMinutes.natAbs % 60 / 10 % 10) ::
      digitChar (dt.offsetMinutes.natAbs % 60 % 10) :: []) := by
      simp only [isoformatDatetime, if_neg hneg, List.cons_append, List.nil_append]
      rfl
    rw [hiso]
    have hstrip : pyStrip (String.mk (
        digitChar (dt.year / 1000 % 10) :: digitChar (dt.year / 100 % 10) ::
      digitChar (dt.year / 10 % 10) :: digitChar (dt.year % 10) :: '-' ::
      digitChar (dt.month / 10 % 10) :: digitChar (dt.month % 10) :: '-' ::
      digitChar (dt.day / 10 % 10) :: digitChar (dt.day % 10) :: 'T' ::
      digitChar (dt.hour / 10 % 10) :: digitChar (dt.hour % 10) :: ':' ::
      digitChar (dt.minute / 10 % 10) :: digitChar (dt.minute % 10) :: ':' ::
      digitChar (dt.second / 10 % 10) :: digitChar (dt.second % 10) :: '+' ::
      digitChar (dt.offsetMinutes.natAbs / 60 / 10 % 10) ::
      digitChar (dt.offsetMinutes.natAbs / 60 % 10) :: ':' ::
      digitChar (dt.offsetMinutes.natAbs % 60 / 10 % 10) ::
      digitChar (dt.offsetMinutes.natAbs % 60 % 10) :: [])) = String.mk (
        digitChar (dt.year / 1000 % 10) :: digitChar (dt.year / 100 % 10) ::
      digitChar (dt.year / 10 % 10) :: digitChar (dt.year % 10) :: '-' ::
      digitChar (dt.month / 10 % 10) :: digitChar (dt.month % 10) :: '-' ::
      digitChar (dt.day / 10 % 10) :: digitChar (dt.day % 10) :: 'T' ::
      digitChar (dt.hour / 10 % 10) :: digitChar (dt.hour % 10) :: ':' ::
      digitChar (dt.minute / 10 % 10) :: digitChar (dt.minute % 10) :: ':' ::
      digitChar (dt.second / 10 % 10) :: digitChar (dt.second % 10) :: '+' ::
      digitChar (dt.offsetMinutes.natAbs / 60 / 10 % 10) ::
      digitChar (dt.offsetMinutes.natAbs / 60 % 10) :: ':' ::
      digitChar (dt.offsetMinutes.natAbs % 60 / 10 % 10) ::
      digitChar (dt.offsetMinutes.natAbs % 60 % 10) :: []) := by
      apply pyStrip_mk_of_ends
      · intro a t h
        cases h
        exact isPySpace_mod _
      · intro a t h
        simp only [List.reverse_cons, List.reverse_nil, List.nil_append, List.cons_append,
          List.append_assoc, List.singleton_append] at h
        cases h
        exact isPySpace_mod _
    unfold parseDatetimeString
    rw [hstrip]
    dsimp only
    have hy : dt.year % 10000 = dt.year := by omega
    have hmo : dt.month % 100 = dt.month := by omega
    have hdm : daysInMonth dt.year dt.month ≤ 31 := by
      unfold daysInMonth
      split_ifs <;> omega
    have hd : dt.day % 100 = dt.day := by omega
    have hh : dt.hour % 100 = dt.hour := by omega
    have hmi : dt.minute % 100 = dt.minute := by omega
    have hs : dt.second % 100 = dt.second := by omega
    have ha : dt.offsetMinutes.natAbs ≤ 1439 := by omega
    have ha1 : dt.offsetMinutes.natAbs / 60 % 100 = dt.offsetMinutes.natAbs / 60 := by omega
    have ha2 : dt.offsetMinutes.natAbs % 60 % 100 = dt.offsetMinutes.natAbs % 60 := by omega
    have hb1 : dt.offsetMinutes.natAbs / 60 ≤ 23 := by omega
    have hb2 : dt.offsetMinutes.natAbs % 60 ≤ 59 := by omega
    simp only [String.toList]
    rw [if_neg (List.cons_ne_nil _ _)]
    simp only [List.getLast?_cons_cons, List.getLast?_singleton]
    rw [if_neg (fun h => digitChar_mod_ne_Z _ (Option.some.inj h)), if_neg ?hc2]
    case hc2 =>
      rintro ⟨h5, hpm, hcl⟩
      rcases hpm with h | h <;>
        [exact digitChar_mod_ne_plus _ (Option.some.inj h);
         exact digitChar_mod_ne_minus _ (Option.some.inj h)]
    simp [fromIsoformat, parseHMS, parseOffset, List.all_cons, List.all_nil,
      isAsciiDigit_mod, digitsToNat_pad2_mod, digitsToNat_pad4_mod,
      hy, hmo, hd, hh, hmi, hs, ha1, ha2, hb1, hb2, mkValidDT]
    have hoffeq : (|dt.offsetMinutes| / 60 * 60 + |dt.offsetMinutes| % 60 : Int)
        = dt.offsetMinutes := by
      rw [Int.abs_eq_natAbs]
      omega
    rw [hoffeq, if_pos ?hvr]
    case hvr =>
      simp only [validDT, Bool.and_eq_true, decide_eq_true_eq]
      and_intros <;> omega


/-- `isoformat` never renders the microseconds. -/
lemma isoformatDatetime_micro0 (dt : PyDateTime) :
    isoformatDatetime { dt with microsecond := 0 } = isoformatDatetime dt := rfl

lemma mkValidDT_some (d p : PyDateTime) (h : mkValidDT d = some p) : validDT p = true := by
  unfold mkValidDT at h
  split_ifs at h with hv
  · cases h
    exact hv

lemma dtFromTimestamp_valid (q : Rat) (p : PyDateTime)
    (h : dtFromTimestamp q = some p) : validDT p = true := by
  unfold dtFromTimestamp at h
  dsimp only at h
  repeat first
    | split at h
    | split_ifs at h
  all_goals first
    | exact mkValidDT_some _ _ h
    | cases h

lemma fromIsoformat_valid (cs : List Char) (p : PyDateTime)
    (h : fromIsoformat cs = some p) : validDT p = true := by
  unfold fromIsoformat at h
  split at h
  · split_ifs at h
    · split at h
      · exact mkValidDT_some _ _ h
      · split_ifs at h
        split at h
        · cases h
        · split at h
          · cases h
          · exact mkValidDT_some _ _ h
  · cases h

lemma strptimeFallback_valid (cs : List Char) (p : PyDateTime)
    (h : strptimeFallback cs = some p) : validDT p = true := by
  unfold strptimeFallback at h
  split at h
  · split_ifs at h
    exact mkValidDT_some _ _ h
  · cases h

lemma matchOptValid (o : Option PyDateTime) (fb : Option PyDateTime)
    (ho : ∀ q, o = some q → validDT q = true) (hfb : ∀ q, fb = some q → validDT q = true) :
    ∀ q, (match o with | some dt => some dt | Option.none => fb) = some q → validDT q = true := by
  intro q h
  cases o with
  | some dt => cases h; exact ho _ rfl
  | none => exact hfb _ h

lemma parseDatetimeString_valid (s : String) (p : PyDateTime)
    (h : parseDatetimeString s = some p) : validDT p = true := by
  unfold parseDatetimeString at h
  dsimp only at h
  by_cases c1 : (pyStrip s).toList = []
  · rw [if_pos c1] at h
    cases h
  · rw [if_neg c1] at h
    exact matchOptValid _ _ (fun q hq => fromIsoformat_valid _ _ hq)
      (fun q hq => strptimeFallback_valid _ _ hq) p h

lemma parseDatetimeValue_valid (v : PyVal) (p : PyDateTime)
    (h : parseDatetimeValue v = some p) : validDT p = true := by
  cases v with
  | int n => exact dtFromTimestamp_valid _ _ h
  | float q => exact dtFromTimestamp_valid _ _ h
  | bool b => exact dtFromTimestamp_valid _ _ h
  | str s => exact parseDatetimeString_valid _ _ h
  | none => cases h
  | list xs => cases h
  | dict es => cases h

/-- Dropping the microseconds shifts the instant down by the microseconds. -/
lemma dtInstantMicro_micro0 (p : PyDateTime) :
    dtInstantMicro { p with microsecond := 0 } = dtInstantMicro p - p.microsecond := by
  unfold dtInstantMicro
  dsimp only
  push_cast
  ring

/-- Whole-second instants stay below a truncated later instant. -/
lemma clamp_floor (N B : Int) (m : Nat) (hm : m < 1000000)
    (h1 : (1000000 : Int) ∣ N) (h2 : (1000000 : Int) ∣ B) (h : N ≤ B + m) : N ≤ B := by
  omega

/-- The instant of a datetime with zero microseconds is a whole second. -/
lemma dvd_dtInstantMicro (p : PyDateTime) (hm : p.microsecond = 0) :
    (1000000 : Int) ∣ dtInstantMicro p := by
  unfold dtInstantMicro
  rw [hm]
  refine ⟨rataDie p.year p.month p.day * 86400
    + ((p.hour * 3600 + p.minute * 60 + p.second : Nat) : Int) - p.offsetMinutes * 60, ?_⟩
  push_cast
  ring

/-- The character list of an isoformat rendering. -/
lemma iso_toList (dt : PyDateTime) :
    isoformatDatetime dt = String.mk (
      digitChar (dt.year / 1000 % 10) :: digitChar (dt.year / 100 % 10) ::
      digitChar (dt.year / 10 % 10) :: digitChar (dt.year % 10) :: '-' ::
      digitChar (dt.month / 10 % 10) :: digitChar (dt.month % 10) :: '-' ::
      digitChar (dt.day / 10 % 10) :: digitChar (dt.day % 10) :: 'T' ::
      digitChar (dt.hour / 10 % 10) :: digitChar (dt.hour % 10) :: ':' ::
      digitChar (dt.minute / 10 % 10) :: digitChar (dt.minute % 10) :: ':' ::
      digitChar (dt.second / 10 % 10) :: digitChar (dt.second % 10) ::
      (if dt.offsetMinutes < 0 then '-' else '+') ::
      digitChar (dt.offsetMinutes.natAbs / 60 / 10 % 10) ::
      digitChar (dt.offsetMinutes.natAbs / 60 % 10) :: ':' ::
      digitChar (dt.offsetMinutes.natAbs % 60 / 10 % 10) ::
      digitChar (dt.offsetMinutes.natAbs % 60 % 10) :: []) := by
  simp only [isoformatDatetime, List.cons_append, List.nil_append]
  rfl

/-- isoformat output carries no surrounding whitespace. -/
lemma pyStrip_iso (dt : PyDateTime) :
    pyStrip (isoformatDatetime dt) = isoformatDatetime dt := by
  rw [iso_toList]
  apply pyStrip_mk_of_ends
  · intro a t h
    cases h
    exact isPySpace_mod _
  · intro a t h
    simp only [List.reverse_cons, List.reverse_nil, List.nil_append, List.cons_append,
      List.append_assoc, List.singleton_append] at h
    cases h
    exact isPySpace_mod _

/-- isoformat output is never an all-digits string. -/
lemma pyIsDigit_iso (dt : PyDateTime) :
    pyIsDigit (isoformatDatetime dt) = false := by
  rw [iso_toList]
  unfold pyIsDigit
  apply Bool.eq_false_iff.mpr
  intro h
  rw [Bool.and_eq_true] at h
  have hm := List.all_eq_true.mp h.2 '-' (by simp)
  exact absurd hm (by decide)

/-- isoformat output is nonempty. -/
lemma iso_ne_empty (dt : PyDateTime) : ¬ isoformatDatetime dt = "" := by
  rw [iso_toList]
  intro h
  have h2 := congrArg String.toList h
  cases h2

lemma takeWhile_digits (ds : List Char) (c : Char) (rest : List Char)
    (hds : ∀ x ∈ ds, isAsciiDigit x = true) (hc : isAsciiDigit c = false) :
    List.takeWhile isAsciiDigit (ds ++ c :: rest) = ds ∧
    List.dropWhile isAsciiDigit (ds ++ c :: rest) = c :: rest := by
  induction ds with
  | nil =>
    simp only [List.nil_append]
    rw [List.takeWhile_cons_of_neg (by simp [hc]),
      List.dropWhile_cons_of_neg (by simp [hc])]
    exact ⟨rfl, rfl⟩
  | cons d ds ih =>
    have hd := hds d (List.mem_cons_self _ _)
    obtain ⟨h1, h2⟩ := ih (fun x hx => hds x (List.mem_cons_of_mem _ hx))
    rw [List.cons_append, List.takeWhile_cons_of_pos (by rw [hd]),
      List.dropWhile_cons_of_pos (by rw [hd]), h1, h2]
    exact ⟨rfl, rfl⟩

/-- Python float() rejects isoformat strings (the date dashes stop the mantissa). -/
lemma parseFloat_iso (dt : PyDateTime) :
    parseFloat (isoformatDatetime dt) = Option.none := by
  unfold parseFloat
  rw [pyStrip_iso, iso_toList]
  show parseFloatCore (
      digitChar (dt.year / 1000 % 10) :: digitChar (dt.year / 100 % 10) ::
      digitChar (dt.year / 10 % 10) :: digitChar (dt.year % 10) :: '-' ::
      digitChar (dt.month / 10 % 10) :: digitChar (dt.month % 10) :: '-' ::
      digitChar (dt.day / 10 % 10) :: digitChar (dt.day % 10) :: 'T' ::
      digitChar (dt.hour / 10 % 10) :: digitChar (dt.hour % 10) :: ':' ::
      digitChar (dt.minute / 10 % 10) :: digitChar (dt.minute % 10) :: ':' ::
      digitChar (dt.second / 10 % 10) :: digitChar (dt.second % 10) ::
      (if dt.offsetMinutes < 0 then '-' else '+') ::
      digitChar (dt.offsetMinutes.natAbs / 60 / 10 % 10) ::
      digitChar (dt.offsetMinutes.natAbs / 60 % 10) :: ':' ::
      digitChar (dt.offsetMinutes.natAbs % 60 / 10 % 10) ::
      digitChar (dt.offsetMinutes.natAbs % 60 % 10) :: []) = Option.none
  have hk0 : dt.year / 1000 % 10 < 10 := Nat.mod_lt _ (by decide)
  generalize hg : dt.year / 1000 % 10 = k
  rw [hg] at hk0
  interval_cases k <;>
    simp +decide [parseFloatCore, List.takeWhile_cons, List.dropWhile_cons, isAsciiDigit_mod]

/-! ## Numeric coercion behaviour -/

lemma coerceEntry_int (k : String) (n : Int) : coerceEntry k (.int n) = .int n := rfl

lemma coerceEntry_float (k : String) (q : Rat) : coerceEntry k (.float q) = .float q := rfl

lemma coerceEntry_list (k : String) (xs : List PyVal) : coerceEntry k (.list xs) = .list xs := rfl

lemma coerceEntry_shape (k : String) (v : PyVal) :
    coerceEntry k v = v ∨ (∃ n : Int, coerceEntry k v = .int n) ∨
      (∃ q : Rat, coerceEntry k v = .float q) := by
  cases v with
  | str s =>
    unfold coerceEntry
    dsimp only
    split_ifs
    · exact Or.inl rfl
    · exact Or.inl rfl
    · exact Or.inr (Or.inl ⟨_, rfl⟩)
    · cases hp : parseFloat (pyStrip s) with
      | none => exact Or.inl rfl
      | some q => exact Or.inr (Or.inr ⟨q, rfl⟩)
  | none => exact Or.inl rfl
  | bool b => exact Or.inl rfl
  | int n => exact Or.inl rfl
  | float q => exact Or.inl rfl
  | list xs => exact Or.inl rfl
  | dict es => exact Or.inl rfl

lemma coerceEntry_idem (k : String) (v : PyVal) :
    coerceEntry k (coerceEntry k v) = coerceEntry k v := by
  rcases coerceEntry_shape k v with h | ⟨n, h⟩ | ⟨q, h⟩
  · simp only [h]
  · simp only [h, coerceEntry_int]
  · simp only [h, coerceEntry_float]

lemma coerceEntry_iso (k : String) (dt : PyDateTime) :
    coerceEntry k (.str (isoformatDatetime dt)) = .str (isoformatDatetime dt) := by
  unfold coerceEntry
  dsimp only
  rw [pyStrip_iso, if_neg (iso_ne_empty dt)]
  by_cases hk : (numericExclusions.contains k || strEndsWith k "_id" ||
      strEndsWith k "_ids") = true
  · rw [if_pos hk]
  · rw [if_neg hk, pyIsDigit_iso]
    rw [if_neg (by exact Bool.false_ne_true), parseFloat_iso]

/-! ## Rounding and positive-amount parsing -/

lemma ratFloor_intCast (n : Int) : ((n : Int) : Rat).floor = n := by
  have h1 : ((n : Int) : Rat) = ((n : Int) : Rat) := rfl
  have h2 : (n : Int) ≤ ((n : Int) : Rat).floor := Rat.le_floor.mpr (le_refl _)
  have h3 : ((n : Int) : Rat).floor ≤ n := by
    by_contra hc
    have h4 : n + 1 ≤ ((n : Int) : Rat).floor := by omega
    have h5 := Rat.le_floor.mp h4
    push_cast at h5
    linarith
  omega

lemma pyRound_int (n : Int) : pyRound ((n : Int) : Rat) = n := by
  unfold pyRound
  dsimp only
  rw [ratFloor_intCast]
  norm_num

lemma pyRound_pos (q : Rat) (h : 0 < q) : 0 ≤ pyRound q := by
  have hf : (0 : Int) ≤ q.floor := Rat.le_floor.mpr (by push_cast; linarith)
  unfold pyRound
  dsimp only
  split_ifs <;> omega

lemma parsePositiveAmount_int (a : Int) (ha : 1 ≤ a) :
    parsePositiveAmount (.int a) = some a := by
  unfold parsePositiveAmount
  dsimp only
  rw [if_neg ?h1, pyRound_int]
  case h1 =>
    have h2 : (0 : Rat) < ((a : Int) : Rat) := by
      exact_mod_cast (by omega : (0 : Int) < a)
    linarith

lemma parsePositiveAmount_nonneg (v : PyVal) (a : Int)
    (h : parsePositiveAmount v = some a) : 0 ≤ a := by
  unfold parsePositiveAmount at h
  dsimp only at h
  split at h
  · cases h
  · split_ifs at h with hq
    cases h
    exact pyRound_pos _ (by linarith [not_le.mp hq])

lemma parsePositiveAmount_strip (s : String) :
    parsePositiveAmount (.str (pyStrip s)) = parsePositiveAmount (.str s) := by
  unfold parsePositiveAmount
  dsimp only
  rw [pyStrip_idem]

/-! ## More dict-primitive facts -/

lemma dictHas_true_of_get (es : List (String × PyVal)) (k : String) (v : PyVal)
    (h : dictGet es k = some v) : dictHas es k = true :=
  (dictHas_iff_dictGet es k).mpr ⟨v, h⟩

lemma dictHas_false_of_get (es : List (String × PyVal)) (k : String)
    (h : dictGet es k = Option.none) : dictHas es k = false := by
  cases hb : dictHas es k
  · rfl
  · obtain ⟨v, hv⟩ := (dictHas_iff_dictGet es k).mp hb
    rw [h] at hv
    cases hv

lemma dictGet_none_of_has_false (es : List (String × PyVal)) (k : String)
    (h : dictHas es k = false) : dictGet es k = Option.none := by
  cases hg : dictGet es k with
  | none => rfl
  | some v => rw [dictHas_true_of_get es k v hg] at h; cases h

lemma pyGet_congr (es es2 : List (String × PyVal)) (k : String)
    (h : dictGet es k = dictGet es2 k) : pyGet es k = pyGet es2 k := by
  unfold pyGet
  rw [h]

lemma pyGet_of_get (es : List (String × PyVal)) (k : String) (v : PyVal)
    (h : dictGet es k = some v) : pyGet es k = v := by
  unfold pyGet
  rw [h]
  rfl

lemma pyGet_of_none (es : List (String × PyVal)) (k : String)
    (h : dictGet es k = Option.none) : pyGet es k = .none := by
  unfold pyGet
  rw [h]
  rfl


/-! ## String-collection normalization: outputs are trimmed non-empty strings -/

lemma collectStringItems_strs (items : List String)
    (hgood : ∀ t ∈ items, ¬ t = "" ∧ pyStrip t = t) :
    collectStringItems (items.map PyVal.str) = items := by
  induction items with
  | nil => rfl
  | cons t rest ih =>
    obtain ⟨ht1, ht2⟩ := hgood t (List.mem_cons_self _ _)
    have hrest := ih (fun x hx => hgood x (List.mem_cons_of_mem _ hx))
    simp only [List.map_cons, collectStringItems]
    rw [if_neg ?hg]
    case hg =>
      rintro (hc | hc | hc)
      · cases hc
      · exact ht1 (PyVal.str.inj hc)
      · cases hc
    rw [ht2, if_neg ht1, hrest]

lemma nsc_roundtrip (items : List String)
    (hgood : ∀ t ∈ items, ¬ t = "" ∧ pyStrip t = t) :
    normalizeStringCollection (.list (items.map PyVal.str)) = some items := by
  cases items with
  | nil => rfl
  | cons t rest =>
    unfold normalizeStringCollection
    rw [if_neg ?hg]
    case hg => rintro (hc | hc | hc) <;> simp at hc
    dsimp only
    rw [collectStringItems_strs _ hgood]

lemma mem_filter_strip {l : List String} {t : String}
    (hstab : ∀ x ∈ l, pyStrip x = x)
    (ht : t ∈ l.filter (fun x => ¬ x = "")) : ¬ t = "" ∧ pyStrip t = t := by
  rw [List.mem_filter] at ht
  refine ⟨?_, hstab t ht.1⟩
  simpa using ht.2

lemma strip_stable_in_map {α : Type} (f : α → String) (l : List α) :
    ∀ x ∈ l.map (fun a => pyStrip (f a)), pyStrip x = x := by
  intro x hx
  obtain ⟨a, _, ha⟩ := List.mem_map.mp hx
  rw [← ha]
  exact pyStrip_idem (f a)

lemma collectStringItems_good (xs : List PyVal) (hok : xs.all itemOk = true) :
    ∀ t ∈ collectStringItems xs, ¬ t = "" ∧ pyStrip t = t := by
  induction xs with
  | nil => intro t ht; simp [collectStringItems] at ht
  | cons it rest ih =>
    simp only [List.all_cons, Bool.and_eq_true] at hok
    have hit := hok.1
    have hrest := ih hok.2
    intro t ht
    simp only [collectStringItems] at ht
    by_cases hguard : (it = PyVal.none ∨ it = PyVal.str "" ∨ it = PyVal.list [])
    · rw [if_pos hguard] at ht
      exact hrest t ht
    · rw [if_neg hguard] at ht
      cases it with
      | str s =>
        dsimp only at ht
        by_cases hps : pyStrip s = ""
        · rw [if_pos hps] at ht
          exact hrest t ht
        · rw [if_neg hps] at ht
          rcases List.mem_cons.mp ht with h | h
          · subst h
            exact ⟨hps, pyStrip_idem s⟩
          · exact hrest t h
      | none => exact absurd (Or.inl rfl) hguard
      | list xs2 =>
        cases xs2 with
        | nil => exact absurd (Or.inr (Or.inr rfl)) hguard
        | cons y ys => simp [itemOk] at hit
      | bool b => simp [itemOk] at hit
      | int n => simp [itemOk] at hit
      | float q => simp [itemOk] at hit
      | dict es2 => simp [itemOk] at hit

lemma nsc_str_good (s : String) (items : List String)
    (h : normalizeStringCollection (.str s) = some items) :
    ∀ t ∈ items, ¬ t = "" ∧ pyStrip t = t := by
  unfold normalizeStringCollection at h
  by_cases hg : (PyVal.str s = PyVal.none ∨ PyVal.str s = PyVal.str "" ∨
      PyVal.str s = PyVal.list [])
  · rw [if_pos hg] at h
    cases h
    intro t ht
    cases ht
  · rw [if_neg hg] at h
    dsimp only at h
    by_cases h1 : (pyStrip s = "" ∨ pyStrip s = "[]")
    · rw [if_pos h1] at h
      cases h
      intro t ht
      cases ht
    · rw [if_neg h1] at h
      cases hj : jsonLoads (pyStrip s) with
      | none =>
        rw [hj] at h
        dsimp only at h
        cases h
        intro t ht
        exact mem_filter_strip (strip_stable_in_map (fun x => x) _) ht
      | some parsed =>
        rw [hj] at h
        cases parsed with
        | list its =>
          dsimp only at h
          cases h
          intro t ht
          exact mem_filter_strip (strip_stable_in_map (fun it => pyStr it) its) ht
        | none =>
          dsimp only at h
          cases h
          intro t ht
          cases ht
        | str s2 =>
          dsimp only at h
          by_cases hps : pyStrip (pyStr (PyVal.str s2)) = ""
          · rw [if_pos hps] at h
            cases h
            intro t ht
            cases ht
          · rw [if_neg hps] at h
            cases h
            intro t ht
            rcases List.mem_cons.mp ht with h2 | h2
            · subst h2
              exact ⟨hps, pyStrip_idem _⟩
            · cases h2
        | int n =>
          dsimp only at h
          by_cases hps : pyStrip (pyStr (PyVal.int n)) = ""
          · rw [if_pos hps] at h
            cases h
            intro t ht
            cases ht
          · rw [if_neg hps] at h
            cases h
            intro t ht
            rcases List.mem_cons.mp ht with h2 | h2
            · subst h2
              exact ⟨hps, pyStrip_idem _⟩
            · cases h2
        | float q =>
          dsimp only at h
          by_cases hps : pyStrip (pyStr (PyVal.float q)) = ""
          · rw [if_pos hps] at h
            cases h
            intro t ht
            cases ht
          · rw [if_neg hps] at h
            cases h
            intro t ht
            rcases List.mem_cons.mp ht with h2 | h2
            · subst h2
              exact ⟨hps, pyStrip_idem _⟩
            · cases h2
        | bool b =>
          dsimp only at h
          by_cases hps : pyStrip (pyStr (PyVal.bool b)) = ""
          · rw [if_pos hps] at h
            cases h
            intro t ht
            cases ht
          · rw [if_neg hps] at h
            cases h
            intro t ht
            rcases List.mem_cons.mp ht with h2 | h2
            · subst h2
              exact ⟨hps, pyStrip_idem _⟩
            · cases h2
        | dict es2 =>
          dsimp only at h
          by_cases hps : pyStrip (pyStr (PyVal.dict es2)) = ""
          · rw [if_pos hps] at h
            cases h
            intro t ht
            cases ht
          · rw [if_neg hps] at h
            cases h
            intro t ht
            rcases List.mem_cons.mp ht with h2 | h2
            · subst h2
              exact ⟨hps, pyStrip_idem _⟩
            · cases h2

lemma sanitizeListVals_of_itemOk (ot : String) (now : PyDateTime) (xs : List PyVal)
    (d : Nat) (h : xs.all itemOk = true) : sanitizeListVals ot now xs d = xs := by
  induction xs with
  | nil => rfl
  | cons x rest ih =>
    simp only [List.all_cons, Bool.and_eq_true] at h
    have hx := h.1
    have hr := ih h.2
    show sanitizeVal ot now x d :: sanitizeListVals ot now rest d = x :: rest
    rw [hr]
    congr 1
    cases x with
    | str s => rfl
    | none => rfl
    | list xs2 =>
      cases xs2 with
      | nil => rfl
      | cons y ys => simp [itemOk] at hx
    | bool b => simp [itemOk] at hx
    | int n => simp [itemOk] at hx
    | float q => simp [itemOk] at hx
    | dict es => simp [itemOk] at hx

lemma nsc_sanitized_good (ot : String) (now : PyDateTime) (v0 : PyVal) (d : Nat)
    (hok : collectionOk v0 = true) (items : List String)
    (h : normalizeStringCollection (sanitizeVal ot now v0 d) = some items) :
    ∀ t ∈ items, ¬ t = "" ∧ pyStrip t = t := by
  cases v0 with
  | str s => exact nsc_str_good s items h
  | none =>
    replace h : (some [] : Option (List String)) = some items := h
    cases h
    intro t ht
    cases ht
  | bool b =>
    replace h : (Option.none : Option (List String)) = some items := h
    cases h
  | int n =>
    replace h : (Option.none : Option (List String)) = some items := h
    cases h
  | float q =>
    replace h : (Option.none : Option (List String)) = some items := h
    cases h
  | dict es =>
    replace h : (Option.none : Option (List String)) = some items := h
    cases h
  | list xs =>
    have hxs : xs.all itemOk = true := by simpa [collectionOk] using hok
    have hsan : sanitizeVal ot now (PyVal.list xs) d = PyVal.list xs := by
      show PyVal.list (sanitizeListVals ot now xs (d+1)) = PyVal.list xs
      rw [sanitizeListVals_of_itemOk ot now xs (d+1) hxs]
    rw [hsan] at h
    by_cases hnil : xs = []
    · subst hnil
      replace h : (some [] : Option (List String)) = some items := h
      cases h
      intro t ht
      cases ht
    · unfold normalizeStringCollection at h
      rw [if_neg ?hg] at h
      case hg =>
        rintro (hc | hc | hc)
        · cases hc
        · cases hc
        · exact hnil (PyVal.list.inj hc)
      dsimp only at h
      cases h
      exact collectStringItems_good xs hxs

/-! ## Values introduced by the dict rules -/

lemma mem_budgetRule (vs : List (String × PyVal)) :
    ∀ kv ∈ budgetRule vs, kv ∈ vs ∨ ∃ n : Int, kv.2 = .int n := by
  intro kv hkv
  unfold budgetRule at hkv
  split_ifs at hkv
  · split at hkv
    · rcases mem_dictSet _ _ _ kv (mem_dictPop _ _ kv hkv) with h | h
      · exact Or.inl h
      · exact Or.inr ⟨_, by rw [h]⟩
    · rcases mem_dictSet _ _ _ kv (mem_dictPop _ _ kv hkv) with h | h
      · exact Or.inl h
      · exact Or.inr ⟨_, by rw [h]⟩
    · exact Or.inl (mem_dictPop _ _ kv (mem_dictPop _ _ kv hkv))
  · exact Or.inl hkv

lemma mem_spendCapRule (vs : List (String × PyVal)) :
    ∀ kv ∈ spendCapRule vs, kv ∈ vs ∨ ∃ n : Int, kv.2 = .int n := by
  intro kv hkv
  unfold spendCapRule at hkv
  dsimp only at hkv
  split_ifs at hkv <;> try split at hkv
  all_goals
    first
      | exact Or.inl hkv
      | exact Or.inl (mem_dictPop _ _ kv hkv)
      | (rcases mem_dictSet _ _ _ kv hkv with h | h
         · exact Or.inl h
         · exact Or.inr ⟨_, by rw [h]⟩)

lemma mem_sacRule (vs : List (String × PyVal)) (d0 : Bool) :
    ∀ kv ∈ sacRule vs d0, kv ∈ vs ∨ ∃ its : List String, kv.2 = .list (its.map PyVal.str) := by
  intro kv hkv
  unfold sacRule at hkv
  split_ifs at hkv <;> try split at hkv
  all_goals
    first
      | exact Or.inl hkv
      | exact Or.inl (mem_dictPop _ _ kv hkv)
      | (rcases mem_dictSet _ _ _ kv hkv with h | h
         · exact Or.inl h
         · rw [h]
           first
             | exact Or.inr ⟨_, rfl⟩
             | exact Or.inr ⟨[], rfl⟩)

lemma mem_brandFieldRule (vs : List (String × PyVal)) (name : String) :
    ∀ kv ∈ brandFieldRule vs name,
      kv ∈ vs ∨ ∃ its : List String, kv.2 = .list (its.map PyVal.str) := by
  intro kv hkv
  unfold brandFieldRule at hkv
  split_ifs at hkv
  · split at hkv
    · exact Or.inl (mem_dictPop _ _ kv hkv)
    · rcases mem_dictSet _ _ _ kv hkv with h | h
      · exact Or.inl h
      · exact Or.inr ⟨_, by rw [h]⟩
  · exact Or.inl hkv

lemma brandRule_eq (vs : List (String × PyVal)) :
    brandRule vs = brandFieldRule (brandFieldRule
      (brandFieldRule vs "brand_safety_content_filter_levels")
      "brand_safety_content_severity_levels") "excluded_brand_safety_content_types" := rfl

lemma mem_brandRule (vs : List (String × PyVal)) :
    ∀ kv ∈ brandRule vs,
      kv ∈ vs ∨ ∃ its : List String, kv.2 = .list (its.map PyVal.str) := by
  intro kv hkv
  rw [brandRule_eq] at hkv
  rcases mem_brandFieldRule _ _ kv hkv with h | h
  · rcases mem_brandFieldRule _ _ kv h with h2 | h2
    · rcases mem_brandFieldRule _ _ kv h2 with h3 | h3
      · exact Or.inl h3
      · exact Or.inr h3
    · exact Or.inr h2
  · exact Or.inr h

lemma mem_startTimeRule (vs : List (String × PyVal)) (now : PyDateTime) :
    ∀ kv ∈ startTimeRule vs now,
      kv ∈ vs ∨ ∃ p : PyDateTime, kv.2 = .str (isoformatDatetime p) := by
  intro kv hkv
  unfold startTimeRule at hkv
  dsimp only at hkv
  split_ifs at hkv
  · exact Or.inl (mem_dictPop _ _ kv hkv)
  · split at hkv
    · rcases mem_dictSet _ _ _ kv hkv with h | h
      · exact Or.inl h
      · exact Or.inr ⟨_, by rw [h]⟩
    · exact Or.inl (mem_dictPop _ _ kv hkv)

lemma mem_timeFieldRule (vs : List (String × PyVal)) (name : String) :
    ∀ kv ∈ timeFieldRule vs name,
      kv ∈ vs ∨ ∃ p : PyDateTime, kv.2 = .str (isoformatDatetime p) := by
  intro kv hkv
  unfold timeFieldRule at hkv
  dsimp only at hkv
  split_ifs at hkv <;> try split at hkv
  all_goals
    first
      | exact Or.inl hkv
      | exact Or.inl (mem_dictPop _ _ kv hkv)
      | (rcases mem_dictSet _ _ _ kv hkv with h | h
         · exact Or.inl h
         · exact Or.inr ⟨_, by rw [h]⟩)

lemma mem_timeFold (names : List String) :
    ∀ (vs : List (String × PyVal)) (kv : String × PyVal),
      kv ∈ names.foldl timeFieldRule vs →
      kv ∈ vs ∨ ∃ p : PyDateTime, kv.2 = .str (isoformatDatetime p) := by
  induction names with
  | nil => intro vs kv h; exact Or.inl h
  | cons n ns ih =>
    intro vs kv h
    rcases ih (timeFieldRule vs n) kv h with h2 | h2
    · exact mem_timeFieldRule _ _ kv h2
    · exact Or.inr h2

lemma mem_timeFieldsRule (vs : List (String × PyVal)) (ot : String) :
    ∀ kv ∈ timeFieldsRule vs ot,
      kv ∈ vs ∨ ∃ p : PyDateTime, kv.2 = .str (isoformatDatetime p) := by
  intro kv h
  exact mem_timeFold (timeFieldsList ot) vs kv h

lemma mem_ruleChain (S : List (String × PyVal)) (d0 : Bool) (now : PyDateTime)
    (ot : String) :
    ∀ kv ∈ timeFieldsRule
        (startTimeRule (brandRule (sacRule (spendCapRule (budgetRule S)) d0)) now) ot,
      kv ∈ S ∨ (∃ n : Int, kv.2 = .int n) ∨
        (∃ its : List String, kv.2 = .list (its.map PyVal.str)) ∨
        (∃ p : PyDateTime, kv.2 = .str (isoformatDatetime p)) := by
  intro kv hkv
  rcases mem_timeFieldsRule _ _ kv hkv with h | h
  · rcases mem_startTimeRule _ _ kv h with h | h
    · rcases mem_brandRule _ kv h with h | h
      · rcases mem_sacRule _ _ kv h with h | h
        · rcases mem_spendCapRule _ kv h with h | h
          · rcases mem_budgetRule _ kv h with h | h
            · exact Or.inl h
            · exact Or.inr (Or.inl h)
          · exact Or.inr (Or.inl h)
        · exact Or.inr (Or.inr (Or.inl h))
      · exact Or.inr (Or.inr (Or.inl h))
    · exact Or.inr (Or.inr (Or.inr h))
  · exact Or.inr (Or.inr (Or.inr h))

/-! ## The rules are the identity on an already-ruled dict -/

lemma budgetRule_fix_none (F : List (String × PyVal))
    (h1 : dictGet F "daily_budget" = Option.none)
    (h2 : dictGet F "lifetime_budget" = Option.none) : budgetRule F = F := by
  unfold budgetRule
  rw [if_neg ?hc]
  case hc =>
    rw [dictHas_false_of_get _ _ h1, dictHas_false_of_get _ _ h2]
    exact Bool.false_ne_true

lemma budgetRule_fix_daily (F : List (String × PyVal)) (a : Int) (ha : 1 ≤ a)
    (h1 : dictGet F "daily_budget" = some (.int a))
    (h2 : dictGet F "lifetime_budget" = Option.none) : budgetRule F = F := by
  unfold budgetRule
  have hcond : (dictHas F "daily_budget" || dictHas F "lifetime_budget") = true := by
    rw [dictHas_true_of_get _ _ _ h1]
    rfl
  have hp : parsePositiveAmount (pyGet F "daily_budget") = some a := by
    rw [pyGet_of_get _ _ _ h1]
    exact parsePositiveAmount_int a ha
  simp only [hcond, if_true, hp]
  rw [dictSet_of_get_self _ _ _ h1, dictPop_of_get_none _ _ h2]

lemma budgetRule_fix_lifetime (F : List (String × PyVal)) (b : Int) (hb : 1 ≤ b)
    (h1 : dictGet F "daily_budget" = Option.none)
    (h2 : dictGet F "lifetime_budget" = some (.int b)) : budgetRule F = F := by
  unfold budgetRule
  have hcond : (dictHas F "daily_budget" || dictHas F "lifetime_budget") = true := by
    rw [dictHas_true_of_get _ _ _ h2, Bool.or_true]
  have hpd : parsePositiveAmount (pyGet F "daily_budget") = Option.none := by
    rw [pyGet_of_none _ _ h1]
    rfl
  have hpl : parsePositiveAmount (pyGet F "lifetime_budget") = some b := by
    rw [pyGet_of_get _ _ _ h2]
    exact parsePositiveAmount_int b hb
  simp only [hcond, if_true, hpd, hpl]
  rw [dictSet_of_get_self _ _ _ h2, dictPop_of_get_none _ _ h1]

lemma spendCapRule_fix_none (F : List (String × PyVal))
    (h : dictGet F "spend_cap" = Option.none) : spendCapRule F = F := by
  unfold spendCapRule
  rw [if_neg ?hc]
  case hc =>
    rw [dictHas_false_of_get _ _ h]
    exact Bool.false_ne_true

lemma spendCapRule_fix_int (F : List (String × PyVal)) (n : Int) (hn : 1 ≤ n)
    (h : dictGet F "spend_cap" = some (.int n)) : spendCapRule F = F := by
  unfold spendCapRule
  rw [if_pos (dictHas_true_of_get _ _ _ h)]
  rw [pyGet_of_get _ _ _ h]
  dsimp only
  rw [if_neg ?hsent]
  case hsent =>
    intro hc
    simp only [spendCapSentinel, decide_eq_true_eq] at hc
    omega
  rw [parsePositiveAmount_int n hn]
  exact dictSet_of_get_self _ _ _ h

lemma sacRule_fix_absent (F : List (String × PyVal))
    (h : dictGet F "special_ad_categories" = Option.none) : sacRule F false = F := by
  unfold sacRule
  rw [if_neg ?hc]
  case hc =>
    rw [dictHas_false_of_get _ _ h]
    exact Bool.false_ne_true

lemma sacRule_fix_present (F : List (String × PyVal)) (d0 : Bool) (items : List String)
    (hgood : ∀ t ∈ items, ¬ t = "" ∧ pyStrip t = t)
    (h : dictGet F "special_ad_categories" = some (.list (items.map PyVal.str))) :
    sacRule F d0 = F := by
  unfold sacRule
  rw [if_pos ?hc]
  case hc => rw [dictHas_true_of_get _ _ _ h, Bool.or_true]
  rw [pyGet_of_get _ _ _ h, nsc_roundtrip items hgood]
  exact dictSet_of_get_self _ _ _ h

lemma brandFieldRule_fix_absent (F : List (String × PyVal)) (name : String)
    (h : dictGet F name = Option.none) : brandFieldRule F name = F := by
  unfold brandFieldRule
  rw [if_neg ?hc]
  case hc =>
    rw [dictHas_false_of_get _ _ h]
    exact Bool.false_ne_true

lemma brandFieldRule_fix_present (F : List (String × PyVal)) (name : String)
    (items : List String) (hgood : ∀ t ∈ items, ¬ t = "" ∧ pyStrip t = t)
    (h : dictGet F name = some (.list (items.map PyVal.str))) :
    brandFieldRule F name = F := by
  unfold brandFieldRule
  rw [if_pos (dictHas_true_of_get _ _ _ h)]
  rw [pyGet_of_get _ _ _ h, nsc_roundtrip items hgood]
  exact dictSet_of_get_self _ _ _ h

lemma startTimeRule_fix_absent (F : List (String × PyVal)) (now : PyDateTime)
    (h : dictGet F "start_time" = Option.none) : startTimeRule F now = F := by
  unfold startTimeRule
  dsimp only
  rw [pyGet_of_none _ _ h]
  rw [if_pos (Or.inl rfl)]
  exact dictPop_of_get_none _ _ h

lemma startTimeRule_fix_str (F : List (String × PyVal)) (now p : PyDateTime)
    (hvp : validDT p = true)
    (hle : dtInstantMicro now ≤ dtInstantMicro p - (p.microsecond : Int))
    (h : dictGet F "start_time" = some (.str (isoformatDatetime p))) :
    startTimeRule F now = F := by
  unfold startTimeRule
  dsimp only
  rw [pyGet_of_get _ _ _ h]
  rw [if_neg ?hne]
  case hne =>
    rintro (hc | hc)
    · cases hc
    · exact iso_ne_empty p (PyVal.str.inj hc)
  have hpd : parseDatetimeValue (.str (isoformatDatetime p))
      = some { p with microsecond := 0 } := isoformat_roundtrip p hvp
  rw [hpd]
  dsimp only
  rw [if_pos ?hcl]
  case hcl =>
    rw [dtInstantMicro_micro0]
    exact hle
  rw [isoformatDatetime_micro0]
  exact dictSet_of_get_self _ _ _ h

lemma timeFieldRule_fix_absent (F : List (String × PyVal)) (name : String)
    (h : dictGet F name = Option.none) : timeFieldRule F name = F := by
  unfold timeFieldRule
  rw [if_neg ?hc]
  case hc =>
    rw [dictHas_false_of_get _ _ h]
    exact Bool.false_ne_true

lemma timeFieldRule_fix_str (F : List (String × PyVal)) (name : String) (p : PyDateTime)
    (hvp : validDT p = true)
    (h : dictGet F name = some (.str (isoformatDatetime p))) : timeFieldRule F name = F := by
  unfold timeFieldRule
  rw [if_pos (dictHas_true_of_get _ _ _ h)]
  dsimp only
  rw [pyGet_of_get _ _ _ h]
  rw [if_neg ?hne]
  case hne =>
    rintro (hc | hc)
    · cases hc
    · exact iso_ne_empty p (PyVal.str.inj hc)
  have hpd : parseDatetimeValue (.str (isoformatDatetime p))
      = some { p with microsecond := 0 } := isoformat_roundtrip p hvp
  rw [hpd]
  dsimp only
  rw [isoformatDatetime_micro0]
  exact dictSet_of_get_self _ _ _ h

lemma numericCoerceRule_idem (vs : List (String × PyVal)) :
    numericCoerceRule (numericCoerceRule vs) = numericCoerceRule vs := by
  unfold numericCoerceRule
  rw [List.map_map]
  refine List.map_congr_left (fun e he => ?_)
  dsimp only [Function.comp]
  rw [coerceEntry_idem]

/-! ## What each rule leaves at its own key -/

lemma timeFieldRule_get_self (vs : List (String × PyVal)) (name : String) :
    dictGet (timeFieldRule vs name) name = Option.none ∨
      ∃ p, validDT p = true ∧
        dictGet (timeFieldRule vs name) name = some (.str (isoformatDatetime p)) := by
  unfold timeFieldRule
  by_cases hh : dictHas vs name = true
  · rw [if_pos hh]
    dsimp only
    by_cases h0 : (pyGet vs name = PyVal.none ∨ pyGet vs name = PyVal.str "")
    · rw [if_pos h0]
      exact Or.inl (dictGet_dictPop_self _ _)
    · rw [if_neg h0]
      cases hp : parseDatetimeValue (pyGet vs name) with
      | none => exact Or.inl (dictGet_dictPop_self _ _)
      | some p => exact Or.inr ⟨p, parseDatetimeValue_valid _ _ hp, dictGet_dictSet_self _ _ _⟩
  · rw [if_neg hh]
    exact Or.inl (dictGet_none_of_has_false _ _ (by simpa using hh))

lemma startTimeRule_get_self (vs : List (String × PyVal)) (now : PyDateTime)
    (hvnow : validDT now = true) (hmnow : now.microsecond = 0) :
    dictGet (startTimeRule vs now) "start_time" = Option.none ∨
      ∃ p, validDT p = true ∧
        dtInstantMicro now ≤ dtInstantMicro p - (p.microsecond : Int) ∧
        dictGet (startTimeRule vs now) "start_time" = some (.str (isoformatDatetime p)) := by
  unfold startTimeRule
  dsimp only
  by_cases h0 : (pyGet vs "start_time" = PyVal.none ∨ pyGet vs "start_time" = PyVal.str "")
  · rw [if_pos h0]
    exact Or.inl (dictGet_dictPop_self _ _)
  · rw [if_neg h0]
    cases hp : parseDatetimeValue (pyGet vs "start_time") with
    | none => exact Or.inl (dictGet_dictPop_self _ _)
    | some parsed =>
      dsimp only
      have hvparsed := parseDatetimeValue_valid _ _ hp
      by_cases hcl : dtInstantMicro now ≤ dtInstantMicro parsed
      · refine Or.inr ⟨parsed, hvparsed, ?_, ?_⟩
        · have hm : parsed.microsecond < 1000000 := by
            simp only [validDT, Bool.and_eq_true, decide_eq_true_eq] at hvparsed
            omega
          have hdn : (1000000 : Int) ∣ dtInstantMicro now := dvd_dtInstantMicro now hmnow
          have hdb : (1000000 : Int) ∣ (dtInstantMicro parsed - (parsed.microsecond : Int)) := by
            rw [← dtInstantMicro_micro0]
            exact dvd_dtInstantMicro _ rfl
          exact clamp_floor _ _ parsed.microsecond hm hdn hdb (by omega)
        · rw [if_pos hcl]
          exact dictGet_dictSet_self _ _ _
      · refine Or.inr ⟨now, hvnow, ?_, ?_⟩
        · rw [hmnow]
          simp
        · rw [if_neg hcl]
          exact dictGet_dictSet_self _ _ _

lemma sacRule_get_self (vs : List (String × PyVal)) (d0 : Bool)
    (hgood : ∀ items, normalizeStringCollection (pyGet vs "special_ad_categories") = some items →
      ∀ t ∈ items, ¬ t = "" ∧ pyStrip t = t) :
    (d0 = false ∧ dictGet (sacRule vs d0) "special_ad_categories" = Option.none) ∨
      ∃ items : List String, (∀ t ∈ items, ¬ t = "" ∧ pyStrip t = t) ∧
        dictGet (sacRule vs d0) "special_ad_categories"
          = some (.list (items.map PyVal.str)) := by
  unfold sacRule
  by_cases hc : (d0 || dictHas vs "special_ad_categories") = true
  · rw [if_pos hc]
    cases hn : normalizeStringCollection (pyGet vs "special_ad_categories") with
    | some items =>
      dsimp only
      exact Or.inr ⟨items, hgood items hn, dictGet_dictSet_self _ _ _⟩
    | none =>
      dsimp only
      cases d0 with
      | true =>
        rw [if_pos rfl]
        exact Or.inr ⟨[], (by intro t ht; cases ht), dictGet_dictSet_self _ _ _⟩
      | false =>
        rw [if_neg (by exact Bool.false_ne_true)]
        exact Or.inl ⟨rfl, dictGet_dictPop_self _ _⟩
  · rw [if_neg hc]
    have hcb : d0 = false ∧ dictHas vs "special_ad_categories" = false := by
      simpa using hc
    exact Or.inl ⟨hcb.1, dictGet_none_of_has_false _ _ hcb.2⟩

lemma brandFieldRule_get_self (vs : List (String × PyVal)) (name : String)
    (hgood : ∀ items, normalizeStringCollection (pyGet vs name) = some items →
      ∀ t ∈ items, ¬ t = "" ∧ pyStrip t = t) :
    dictGet (brandFieldRule vs name) name = Option.none ∨
      ∃ items : List String, (∀ t ∈ items, ¬ t = "" ∧ pyStrip t = t) ∧
        dictGet (brandFieldRule vs name) name = some (.list (items.map PyVal.str)) := by
  unfold brandFieldRule
  by_cases hh : dictHas vs name = true
  · rw [if_pos hh]
    cases hn : normalizeStringCollection (pyGet vs name) with
    | none => exact Or.inl (dictGet_dictPop_self _ _)
    | some items =>
      dsimp only
      exact Or.inr ⟨items, hgood items hn, dictGet_dictSet_self _ _ _⟩
  · rw [if_neg hh]
    exact Or.inl (dictGet_none_of_has_false _ _ (by simpa using hh))

lemma spendCapRule_get_self (vs : List (String × PyVal))
    (hok : ¬ parsePositiveAmount (pyGet vs "spend_cap") = some 0) :
    dictGet (spendCapRule vs) "spend_cap" = Option.none ∨
      ∃ n, 1 ≤ n ∧ dictGet (spendCapRule vs) "spend_cap" = some (.int n) := by
  unfold spendCapRule
  by_cases hh : dictHas vs "spend_cap" = true
  · rw [if_pos hh]
    dsimp only
    cases hw : pyGet vs "spend_cap" with
    | none =>
      rw [if_pos (by decide)]
      exact Or.inl (dictGet_dictPop_self _ _)
    | str s =>
      dsimp only
      by_cases hsen : spendCapSentinel (PyVal.str (pyStrip s)) = true
      · rw [if_pos hsen]
        exact Or.inl (dictGet_dictPop_self _ _)
      · rw [if_neg hsen]
        cases hp : parsePositiveAmount (PyVal.str (pyStrip s)) with
        | none => exact Or.inl (dictGet_dictPop_self _ _)
        | some n =>
          refine Or.inr ⟨n, ?_, dictGet_dictSet_self _ _ _⟩
          have hnn := parsePositiveAmount_nonneg _ _ hp
          rw [parsePositiveAmount_strip] at hp
          rw [hw] at hok
          have hne : ¬ n = 0 := fun h0 => hok (h0 ▸ hp)
          omega
    | int n2 =>
      dsimp only
      by_cases h0 : n2 = 0
      · subst h0
        rw [if_pos (by decide)]
        exact Or.inl (dictGet_dictPop_self _ _)
      · rw [if_neg ?hs]
        case hs =>
          intro hcc
          simp only [spendCapSentinel, decide_eq_true_eq] at hcc
          exact h0 hcc
        by_cases hneg : n2 ≤ 0
        · have hp : parsePositiveAmount (PyVal.int n2) = Option.none := by
            unfold parsePositiveAmount
            dsimp only
            rw [if_pos (by exact_mod_cast hneg)]
          rw [hp]
          exact Or.inl (dictGet_dictPop_self _ _)
        · have hp := parsePositiveAmount_int n2 (by omega)
          rw [hp]
          exact Or.inr ⟨n2, by omega, dictGet_dictSet_self _ _ _⟩
    | float q =>
      dsimp only
      by_cases hsen : spendCapSentinel (PyVal.float q) = true
      · rw [if_pos hsen]
        exact Or.inl (dictGet_dictPop_self _ _)
      · rw [if_neg hsen]
        cases hp : parsePositiveAmount (PyVal.float q) with
        | none => exact Or.inl (dictGet_dictPop_self _ _)
        | some n =>
          refine Or.inr ⟨n, ?_, dictGet_dictSet_self _ _ _⟩
          have hnn := parsePositiveAmount_nonneg _ _ hp
          rw [hw] at hok
          have hne : ¬ n = 0 := fun h0 => hok (h0 ▸ hp)
          omega
    | bool b =>
      dsimp only
      cases b with
      | false =>
        rw [if_pos (by decide)]
        exact Or.inl (dictGet_dictPop_self _ _)
      | true =>
        rw [if_neg (by decide)]
        have hp : parsePositiveAmount (PyVal.bool true) = some 1 := by
          with_unfolding_all rfl
        rw [hp]
        exact Or.inr ⟨1, le_refl 1, dictGet_dictSet_self _ _ _⟩
    | list xs =>
      dsimp only
      rw [if_neg (by simp [spendCapSentinel])]
      have hp : parsePositiveAmount (PyVal.list xs) = Option.none := rfl
      rw [hp]
      exact Or.inl (dictGet_dictPop_self _ _)
    | dict es2 =>
      dsimp only
      rw [if_neg (by simp [spendCapSentinel])]
      have hp : parsePositiveAmount (PyVal.dict es2) = Option.none := rfl
      rw [hp]
      exact Or.inl (dictGet_dictPop_self _ _)
  · rw [if_neg hh]
    exact Or.inl (dictGet_none_of_has_false _ _ (by simpa using hh))

/-! ## Fixed points of the recursive sanitizer -/

lemma sanitizeVal_strList (ot : String) (now : PyDateTime) (its : List String) (d : Nat) :
    sanitizeVal ot now (.list (its.map PyVal.str)) d = .list (its.map PyVal.str) := by
  show PyVal.list (sanitizeListVals ot now (its.map PyVal.str) (d+1))
    = PyVal.list (its.map PyVal.str)
  congr 1
  induction its with
  | nil => rfl
  | cons t rest ih =>
    show PyVal.str t :: sanitizeListVals ot now (rest.map PyVal.str) (d+1)
      = PyVal.str t :: rest.map PyVal.str
    rw [ih]

lemma sanitizeEntries_of_fixed (ot : String) (now : PyDateTime)
    (vs : List (String × PyVal)) (d : Nat)
    (h : ∀ kv ∈ vs, sanitizeVal ot now kv.2 d = kv.2) :
    sanitizeEntries ot now vs d = vs := by
  induction vs with
  | nil => rfl
  | cons e rest ih =>
    obtain ⟨k, v⟩ := e
    have hv := h (k, v) (List.mem_cons_self _ _)
    dsimp only at hv
    show (k, sanitizeVal ot now v d) :: sanitizeEntries ot now rest d = (k, v) :: rest
    rw [hv, ih (fun kv hkv => h kv (List.mem_cons_of_mem _ hkv))]

/-! ## A second pass of `_apply_dict_rules` is the identity -/

lemma applyDictRules_fix (ot : String) (now : PyDateTime) (S : List (String × PyVal))
    (d0 : Bool) (hvnow : validDT now = true) (hmnow : now.microsecond = 0)
    (hd : ¬ parsePositiveAmount (pyGet S "daily_budget") = some 0)
    (hl : ¬ parsePositiveAmount (pyGet S "lifetime_budget") = some 0)
    (hsc : ¬ parsePositiveAmount (pyGet S "spend_cap") = some 0)
    (hsacg : ∀ items, normalizeStringCollection (pyGet S "special_ad_categories") = some items →
      ∀ t ∈ items, ¬ t = "" ∧ pyStrip t = t)
    (hbg1 : ∀ items,
      normalizeStringCollection (pyGet S "brand_safety_content_filter_levels") = some items →
      ∀ t ∈ items, ¬ t = "" ∧ pyStrip t = t)
    (hbg2 : ∀ items,
      normalizeStringCollection (pyGet S "brand_safety_content_severity_levels") = some items →
      ∀ t ∈ items, ¬ t = "" ∧ pyStrip t = t)
    (hbg3 : ∀ items,
      normalizeStringCollection (pyGet S "excluded_brand_safety_content_types") = some items →
      ∀ t ∈ items, ¬ t = "" ∧ pyStrip t = t) :
    applyDictRules ot now (applyDictRules ot now S d0) d0 = applyDictRules ot now S d0 := by
  by_cases hS : S = []
  · subst hS
    rfl
  · have hinner : applyDictRules ot now S d0 = numericCoerceRule (timeFieldsRule
        (startTimeRule (brandRule (sacRule (spendCapRule (budgetRule S)) d0)) now) ot) := by
      unfold applyDictRules
      rw [if_neg hS]
    rw [hinner]
    set B := budgetRule S with hBdef
    set C := spendCapRule B with hCdef
    set A := sacRule C d0 with hAdef
    set Br := brandRule A with hBrdef
    set St := startTimeRule Br now with hStdef
    set T := timeFieldsRule St ot with hTdef
    set F := numericCoerceRule T with hFdef
    have hFother : ∀ k : String, ¬ k = "special_ad_categories" →
        ¬ k = "brand_safety_content_filter_levels" →
        ¬ k = "brand_safety_content_severity_levels" →
        ¬ k = "excluded_brand_safety_content_types" →
        ¬ k = "start_time" → ¬ k = "stop_time" → ¬ k = "end_time" →
        dictGet F k = (dictGet C k).map (coerceEntry k) := by
      intro k hk1 hk2 hk3 hk4 hk5 hk6 hk7
      rw [hFdef, hTdef, hStdef, hBrdef, hAdef]
      exact laterRules_other C ot now d0 k hk1 hk2 hk3 hk4 hk5 hk6 hk7
    have hBchar : (dictGet B "daily_budget" = Option.none ∧
          dictGet B "lifetime_budget" = Option.none) ∨
        (∃ a : Int, 1 ≤ a ∧ dictGet B "daily_budget" = some (.int a) ∧
          dictGet B "lifetime_budget" = Option.none) ∨
        (∃ b : Int, 1 ≤ b ∧ dictGet B "lifetime_budget" = some (.int b) ∧
          dictGet B "daily_budget" = Option.none) := by
      rw [hBdef]
      by_cases hhas : (dictHas S "daily_budget" || dictHas S "lifetime_budget") = true
      · obtain ⟨c1, c2, c3⟩ := budgetRule_char S hhas
        cases hpd : parsePositiveAmount (pyGet S "daily_budget") with
        | some a =>
          obtain ⟨g1, g2⟩ := c1 a hpd
          have hnn := parsePositiveAmount_nonneg _ _ hpd
          have hne : ¬ a = 0 := fun h0 => hd (h0 ▸ hpd)
          exact Or.inr (Or.inl ⟨a, by omega, g1, g2⟩)
        | none =>
          cases hpl : parsePositiveAmount (pyGet S "lifetime_budget") with
          | some b =>
            obtain ⟨g1, g2⟩ := c2 hpd b hpl
            have hnn := parsePositiveAmount_nonneg _ _ hpl
            have hne : ¬ b = 0 := fun h0 => hl (h0 ▸ hpl)
            exact Or.inr (Or.inr ⟨b, by omega, g1, g2⟩)
          | none =>
            obtain ⟨g1, g2⟩ := c3 hpd hpl
            exact Or.inl ⟨g1, g2⟩
      · have hbeq : budgetRule S = S := by
          unfold budgetRule
          rw [if_neg hhas]
        have hh2 : dictHas S "daily_budget" = false ∧ dictHas S "lifetime_budget" = false := by
          simpa using hhas
        rw [hbeq]
        exact Or.inl ⟨dictGet_none_of_has_false _ _ hh2.1, dictGet_none_of_has_false _ _ hh2.2⟩
    have hFd : dictGet F "daily_budget"
        = (dictGet B "daily_budget").map (coerceEntry "daily_budget") := by
      rw [hFother "daily_budget" (by decide) (by decide) (by decide) (by decide) (by decide)
        (by decide) (by decide)]
      rw [hCdef, spendCapRule_other B "daily_budget" (by decide)]
    have hFl : dictGet F "lifetime_budget"
        = (dictGet B "lifetime_budget").map (coerceEntry "lifetime_budget") := by
      rw [hFother "lifetime_budget" (by decide) (by decide) (by decide) (by decide) (by decide)
        (by decide) (by decide)]
      rw [hCdef, spendCapRule_other B "lifetime_budget" (by decide)]
    have h1 : budgetRule F = F := by
      rcases hBchar with ⟨g1, g2⟩ | ⟨a, ha, g1, g2⟩ | ⟨b, hb, g1, g2⟩
      · exact budgetRule_fix_none F (by rw [hFd, g1]; rfl) (by rw [hFl, g2]; rfl)
      · exact budgetRule_fix_daily F a ha (by rw [hFd, g1]; rfl) (by rw [hFl, g2]; rfl)
      · exact budgetRule_fix_lifetime F b hb (by rw [hFd, g2]; rfl) (by rw [hFl, g1]; rfl)
    have hCsc : dictGet C "spend_cap" = Option.none ∨
        ∃ n, 1 ≤ n ∧ dictGet C "spend_cap" = some (.int n) := by
      rw [hCdef]
      refine spendCapRule_get_self B ?_
      have hpg : pyGet B "spend_cap" = pyGet S "spend_cap" := by
        apply pyGet_congr
        rw [hBdef]
        exact budgetRule_other S "spend_cap" (by decide) (by decide)
      rw [hpg]
      exact hsc
    have hFsc : dictGet F "spend_cap" = (dictGet C "spend_cap").map (coerceEntry "spend_cap") :=
      hFother "spend_cap" (by decide) (by decide) (by decide) (by decide) (by decide)
        (by decide) (by decide)
    have h2 : spendCapRule F = F := by
      rcases hCsc with g | ⟨n, hn, g⟩
      · exact spendCapRule_fix_none F (by rw [hFsc, g]; rfl)
      · exact spendCapRule_fix_int F n hn (by rw [hFsc, g]; rfl)
    have hApg : pyGet C "special_ad_categories" = pyGet S "special_ad_categories" := by
      apply pyGet_congr
      rw [hCdef, spendCapRule_other _ _ (by decide), hBdef,
        budgetRule_other _ _ (by decide) (by decide)]
    have hAchar := sacRule_get_self C d0 (by rw [hApg]; exact hsacg)
    rw [← hAdef] at hAchar
    have hFsac : dictGet F "special_ad_categories"
        = (dictGet A "special_ad_categories").map (coerceEntry "special_ad_categories") := by
      rw [hFdef, numericCoerceRule_get, hTdef,
        timeFieldsRule_other _ _ _ (by decide) (by decide), hStdef,
        startTimeRule_other _ _ _ (by decide), hBrdef,
        brandRule_other _ _ (by decide) (by decide) (by decide)]
    have h3 : sacRule F d0 = F := by
      rcases hAchar with ⟨hd0, g⟩ | ⟨items, hgd, g⟩
      · subst hd0
        exact sacRule_fix_absent F (by rw [hFsac, g]; rfl)
      · exact sacRule_fix_present F d0 items hgd (by rw [hFsac, g]; rfl)
    have hBr_eq : Br = brandFieldRule (brandFieldRule
        (brandFieldRule A "brand_safety_content_filter_levels")
        "brand_safety_content_severity_levels") "excluded_brand_safety_content_types" := by
      rw [hBrdef]
      exact brandRule_eq A
    have hpg1 : pyGet A "brand_safety_content_filter_levels"
        = pyGet S "brand_safety_content_filter_levels" := by
      apply pyGet_congr
      rw [hAdef, sacRule_other _ _ _ (by decide), hCdef, spendCapRule_other _ _ (by decide),
        hBdef, budgetRule_other _ _ (by decide) (by decide)]
    have hchar1 := brandFieldRule_get_self A "brand_safety_content_filter_levels"
      (by rw [hpg1]; exact hbg1)
    have hF1 : dictGet F "brand_safety_content_filter_levels"
        = (dictGet (brandFieldRule A "brand_safety_content_filter_levels")
            "brand_safety_content_filter_levels").map
          (coerceEntry "brand_safety_content_filter_levels") := by
      rw [hFdef, numericCoerceRule_get, hTdef,
        timeFieldsRule_other _ _ _ (by decide) (by decide), hStdef,
        startTimeRule_other _ _ _ (by decide), hBr_eq,
        brandFieldRule_other _ _ _ (by decide), brandFieldRule_other _ _ _ (by decide)]
    have hpg2 : pyGet (brandFieldRule A "brand_safety_content_filter_levels")
        "brand_safety_content_severity_levels"
        = pyGet S "brand_safety_content_severity_levels" := by
      apply pyGet_congr
      rw [brandFieldRule_other _ _ _ (by decide), hAdef, sacRule_other _ _ _ (by decide),
        hCdef, spendCapRule_other _ _ (by decide), hBdef,
        budgetRule_other _ _ (by decide) (by decide)]
    have hchar2 := brandFieldRule_get_self
      (brandFieldRule A "brand_safety_content_filter_levels")
      "brand_safety_content_severity_levels" (by rw [hpg2]; exact hbg2)
    have hF2 : dictGet F "brand_safety_content_severity_levels"
        = (dictGet (brandFieldRule (brandFieldRule A "brand_safety_content_filter_levels")
            "brand_safety_content_severity_levels") "brand_safety_content_severity_levels").map
          (coerceEntry "brand_safety_content_severity_levels") := by
      rw [hFdef, numericCoerceRule_get, hTdef,
        timeFieldsRule_other _ _ _ (by decide) (by decide), hStdef,
        startTimeRule_other _ _ _ (by decide), hBr_eq,
        brandFieldRule_other _ _ _ (by decide)]
    have hpg3 : pyGet (brandFieldRule (brandFieldRule A "brand_safety_content_filter_levels")
        "brand_safety_content_severity_levels") "excluded_brand_safety_content_types"
        = pyGet S "excluded_brand_safety_content_types" := by
      apply pyGet_congr
      rw [brandFieldRule_other _ _ _ (by decide), brandFieldRule_other _ _ _ (by decide),
        hAdef, sacRule_other _ _ _ (by decide), hCdef, spendCapRule_other _ _ (by decide),
        hBdef, budgetRule_other _ _ (by decide) (by decide)]
    have hchar3 := brandFieldRule_get_self
      (brandFieldRule (brandFieldRule A "brand_safety_content_filter_levels")
        "brand_safety_content_severity_levels")
      "excluded_brand_safety_content_types" (by rw [hpg3]; exact hbg3)
    have hF3 : dictGet F "excluded_brand_safety_content_types"
        = (dictGet (brandFieldRule (brandFieldRule
            (brandFieldRule A "brand_safety_content_filter_levels")
            "brand_safety_content_severity_levels") "excluded_brand_safety_content_types")
            "excluded_brand_safety_content_types").map
          (coerceEntry "excluded_brand_safety_content_types") := by
      rw [hFdef, numericCoerceRule_get, hTdef,
        timeFieldsRule_other _ _ _ (by decide) (by decide), hStdef,
        startTimeRule_other _ _ _ (by decide), hBr_eq]
    have hbf1 : brandFieldRule F "brand_safety_content_filter_levels" = F := by
      rcases hchar1 with g | ⟨items, hgd, g⟩
      · exact brandFieldRule_fix_absent F _ (by rw [hF1, g]; rfl)
      · exact brandFieldRule_fix_present F _ items hgd (by rw [hF1, g]; rfl)
    have hbf2 : brandFieldRule F "brand_safety_content_severity_levels" = F := by
      rcases hchar2 with g | ⟨items, hgd, g⟩
      · exact brandFieldRule_fix_absent F _ (by rw [hF2, g]; rfl)
      · exact brandFieldRule_fix_present F _ items hgd (by rw [hF2, g]; rfl)
    have hbf3 : brandFieldRule F "excluded_brand_safety_content_types" = F := by
      rcases hchar3 with g | ⟨items, hgd, g⟩
      · exact brandFieldRule_fix_absent F _ (by rw [hF3, g]; rfl)
      · exact brandFieldRule_fix_present F _ items hgd (by rw [hF3, g]; rfl)
    have h4 : brandRule F = F := by
      rw [brandRule_eq F, hbf1, hbf2, hbf3]
    have hStchar := startTimeRule_get_self Br now hvnow hmnow
    rw [← hStdef] at hStchar
    have hFst : dictGet F "start_time"
        = (dictGet St "start_time").map (coerceEntry "start_time") := by
      rw [hFdef, numericCoerceRule_get, hTdef,
        timeFieldsRule_other _ _ _ (by decide) (by decide)]
    have h5 : startTimeRule F now = F := by
      rcases hStchar with g | ⟨p, hvp, hbound, g⟩
      · exact startTimeRule_fix_absent F now (by rw [hFst, g]; rfl)
      · refine startTimeRule_fix_str F now p hvp hbound ?_
        rw [hFst, g]
        exact congrArg some (coerceEntry_iso "start_time" p)
    have htfl : timeFieldsList ot = ["stop_time"] ∨
        timeFieldsList ot = ["end_time", "stop_time"] ∨
        timeFieldsList ot = ["stop_time", "end_time"] := by
      unfold timeFieldsList
      split_ifs
      · exact Or.inl rfl
      · exact Or.inr (Or.inl rfl)
      · exact Or.inr (Or.inr rfl)
    have h6 : timeFieldsRule F ot = F := by
      rcases htfl with ht | ht | ht
      · have hTeq : T = timeFieldRule St "stop_time" := by
          rw [hTdef]
          unfold timeFieldsRule
          rw [ht]
          simp only [List.foldl]
        have hchar_stop := timeFieldRule_get_self St "stop_time"
        have hFstop : dictGet F "stop_time"
            = (dictGet (timeFieldRule St "stop_time") "stop_time").map
              (coerceEntry "stop_time") := by
          rw [hFdef, numericCoerceRule_get, hTeq]
        have hfixstop : timeFieldRule F "stop_time" = F := by
          rcases hchar_stop with g | ⟨p, hvp, g⟩
          · exact timeFieldRule_fix_absent F _ (by rw [hFstop, g]; rfl)
          · refine timeFieldRule_fix_str F _ p hvp ?_
            rw [hFstop, g]
            exact congrArg some (coerceEntry_iso "stop_time" p)
        unfold timeFieldsRule
        rw [ht]
        simp only [List.foldl]
        exact hfixstop
      · have hTeq : T = timeFieldRule (timeFieldRule St "end_time") "stop_time" := by
          rw [hTdef]
          unfold timeFieldsRule
          rw [ht]
          simp only [List.foldl]
        have hchar_end := timeFieldRule_get_self St "end_time"
        have hchar_stop := timeFieldRule_get_self (timeFieldRule St "end_time") "stop_time"
        have hFend : dictGet F "end_time"
            = (dictGet (timeFieldRule St "end_time") "end_time").map
              (coerceEntry "end_time") := by
          rw [hFdef, numericCoerceRule_get, hTeq, timeFieldRule_other _ _ _ (by decide)]
        have hFstop : dictGet F "stop_time"
            = (dictGet (timeFieldRule (timeFieldRule St "end_time") "stop_time")
                "stop_time").map (coerceEntry "stop_time") := by
          rw [hFdef, numericCoerceRule_get, hTeq]
        have hfixend : timeFieldRule F "end_time" = F := by
          rcases hchar_end with g | ⟨p, hvp, g⟩
          · exact timeFieldRule_fix_absent F _ (by rw [hFend, g]; rfl)
          · refine timeFieldRule_fix_str F _ p hvp ?_
            rw [hFend, g]
            exact congrArg some (coerceEntry_iso "end_time" p)
        have hfixstop : timeFieldRule F "stop_time" = F := by
          rcases hchar_stop with g | ⟨p, hvp, g⟩
          · exact timeFieldRule_fix_absent F _ (by rw [hFstop, g]; rfl)
          · refine timeFieldRule_fix_str F _ p hvp ?_
            rw [hFstop, g]
            exact congrArg some (coerceEntry_iso "stop_time" p)
        unfold timeFieldsRule
        rw [ht]
        simp only [List.foldl]
        rw [hfixend]
        exact hfixstop
      · have hTeq : T = timeFieldRule (timeFieldRule St "stop_time") "end_time" := by
          rw [hTdef]
          unfold timeFieldsRule
          rw [ht]
          simp only [List.foldl]
        have hchar_stop := timeFieldRule_get_self St "stop_time"
        have hchar_end := timeFieldRule_get_self (timeFieldRule St "stop_time") "end_time"
        have hFstop : dictGet F "stop_time"
            = (dictGet (timeFieldRule St "stop_time") "stop_time").map
              (coerceEntry "stop_time") := by
          rw [hFdef, numericCoerceRule_get, hTeq, timeFieldRule_other _ _ _ (by decide)]
        have hFend : dictGet F "end_time"
            = (dictGet (timeFieldRule (timeFieldRule St "stop_time") "end_time")
                "end_time").map (coerceEntry "end_time") := by
          rw [hFdef, numericCoerceRule_get, hTeq]
        have hfixstop : timeFieldRule F "stop_time" = F := by
          rcases hchar_stop with g | ⟨p, hvp, g⟩
          · exact timeFieldRule_fix_absent F _ (by rw [hFstop, g]; rfl)
          · refine timeFieldRule_fix_str F _ p hvp ?_
            rw [hFstop, g]
            exact congrArg some (coerceEntry_iso "stop_time" p)
        have hfixend : timeFieldRule F "end_time" = F := by
          rcases hchar_end with g | ⟨p, hvp, g⟩
          · exact timeFieldRule_fix_absent F _ (by rw [hFend, g]; rfl)
          · refine timeFieldRule_fix_str F _ p hvp ?_
            rw [hFend, g]
            exact congrArg some (coerceEntry_iso "end_time" p)
        unfold timeFieldsRule
        rw [ht]
        simp only [List.foldl]
        rw [hfixstop]
        exact hfixend
    have h7 : numericCoerceRule F = F := by
      rw [hFdef]
      exact numericCoerceRule_idem T
    by_cases hFnil : F = []
    · rw [hFnil]
      rfl
    · have houter : applyDictRules ot now F d0 = numericCoerceRule (timeFieldsRule
          (startTimeRule (brandRule (sacRule (spendCapRule (budgetRule F)) d0)) now) ot) := by
        unfold applyDictRules
        rw [if_neg hFnil]
      rw [houter, h1, h2, h3, h4, h5, h6]
      exact h7

/-! ## Idempotence of the recursive sanitizer -/

mutual

lemma sanitizeVal_fix (ot : String) (now : PyDateTime) (hvnow : validDT now = true)
    (hmnow : now.microsecond = 0) :
    (v : PyVal) → (d : Nat) → wfVal v = true →
      sanitizeVal ot now (sanitizeVal ot now v d) d = sanitizeVal ot now v d
  | .none, _, _ => rfl
  | .bool _, _, _ => rfl
  | .int _, _, _ => rfl
  | .float _, _, _ => rfl
  | .str _, _, _ => rfl
  | .list xs, d, h => by
    have hw : wfListVals xs = true := by
      simpa [wfVal] using h
    show PyVal.list (sanitizeListVals ot now (sanitizeListVals ot now xs (d+1)) (d+1))
      = PyVal.list (sanitizeListVals ot now xs (d+1))
    rw [sanitizeListVals_fix ot now hvnow hmnow xs (d+1) hw]
  | .dict es, d, h => by
    have hw : wfDict es = true ∧ wfEntries es = true := by
      simpa [wfVal, Bool.and_eq_true] using h
    obtain ⟨hwd, hwe⟩ := hw
    have hwd2 : amountOk (pyGet es "daily_budget") = true ∧
        amountOk (pyGet es "lifetime_budget") = true ∧
        amountOk (pyGet es "spend_cap") = true ∧
        collectionOk (pyGet es "special_ad_categories") = true ∧
        collectionOk (pyGet es "brand_safety_content_filter_levels") = true ∧
        collectionOk (pyGet es "brand_safety_content_severity_levels") = true ∧
        collectionOk (pyGet es "excluded_brand_safety_content_types") = true := by
      simpa [wfDict, brandSafetyFields, Bool.and_eq_true, List.all_cons, and_assoc] using hwd
    obtain ⟨ha1, ha2, ha3, hc0, hcb1, hcb2, hcb3⟩ := hwd2
    have hd : ¬ parsePositiveAmount
        (pyGet (sanitizeEntries ot now es (d+1)) "daily_budget") = some 0 := by
      rw [pyGet_sanitizeEntries, parsePositiveAmount_sanitizeVal]
      simpa [amountOk] using ha1
    have hl : ¬ parsePositiveAmount
        (pyGet (sanitizeEntries ot now es (d+1)) "lifetime_budget") = some 0 := by
      rw [pyGet_sanitizeEntries, parsePositiveAmount_sanitizeVal]
      simpa [amountOk] using ha2
    have hsc : ¬ parsePositiveAmount
        (pyGet (sanitizeEntries ot now es (d+1)) "spend_cap") = some 0 := by
      rw [pyGet_sanitizeEntries, parsePositiveAmount_sanitizeVal]
      simpa [amountOk] using ha3
    have hsacg : ∀ items, normalizeStringCollection
        (pyGet (sanitizeEntries ot now es (d+1)) "special_ad_categories") = some items →
        ∀ t ∈ items, ¬ t = "" ∧ pyStrip t = t := by
      rw [pyGet_sanitizeEntries]
      exact fun items h2 => nsc_sanitized_good ot now _ _ hc0 items h2
    have hbg1 : ∀ items, normalizeStringCollection
        (pyGet (sanitizeEntries ot now es (d+1)) "brand_safety_content_filter_levels")
          = some items → ∀ t ∈ items, ¬ t = "" ∧ pyStrip t = t := by
      rw [pyGet_sanitizeEntries]
      exact fun items h2 => nsc_sanitized_good ot now _ _ hcb1 items h2
    have hbg2 : ∀ items, normalizeStringCollection
        (pyGet (sanitizeEntries ot now es (d+1)) "brand_safety_content_severity_levels")
          = some items → ∀ t ∈ items, ¬ t = "" ∧ pyStrip t = t := by
      rw [pyGet_sanitizeEntries]
      exact fun items h2 => nsc_sanitized_good ot now _ _ hcb2 items h2
    have hbg3 : ∀ items, normalizeStringCollection
        (pyGet (sanitizeEntries ot now es (d+1)) "excluded_brand_safety_content_types")
          = some items → ∀ t ∈ items, ¬ t = "" ∧ pyStrip t = t := by
      rw [pyGet_sanitizeEntries]
      exact fun items h2 => nsc_sanitized_good ot now _ _ hcb3 items h2
    have hfixed : ∀ kv ∈ applyDictRules ot now (sanitizeEntries ot now es (d + 1))
        (decide (d = 0)), sanitizeVal ot now kv.2 (d+1) = kv.2 := by
      intro kv hkv
      by_cases hSnil : sanitizeEntries ot now es (d + 1) = []
      · rw [hSnil] at hkv
        replace hkv : kv ∈ ([] : List (String × PyVal)) := hkv
        cases hkv
      · have hunf3 : applyDictRules ot now (sanitizeEntries ot now es (d + 1)) (decide (d = 0))
            = numericCoerceRule (timeFieldsRule (startTimeRule (brandRule (sacRule
              (spendCapRule (budgetRule (sanitizeEntries ot now es (d + 1))))
              (decide (d = 0)))) now) ot) := by
          unfold applyDictRules
          rw [if_neg hSnil]
        rw [hunf3] at hkv
        unfold numericCoerceRule at hkv
        obtain ⟨e, he, hkveq⟩ := List.mem_map.mp hkv
        have hfix_e : sanitizeVal ot now e.2 (d+1) = e.2 := by
          rcases mem_ruleChain _ _ _ _ e he with hmem | ⟨n, hn⟩ | ⟨its, hits⟩ | ⟨p, hp⟩
          · exact sanitizeEntriesPt_fix ot now hvnow hmnow es (d+1) hwe e hmem
          · rw [hn]
            rfl
          · rw [hits]
            exact sanitizeVal_strList ot now its (d+1)
          · rw [hp]
            rfl
        rcases coerceEntry_shape e.1 e.2 with hsh | ⟨n, hsh⟩ | ⟨q, hsh⟩
        · rw [← hkveq]
          dsimp only
          rw [hsh]
          exact hfix_e
        · rw [← hkveq]
          dsimp only
          rw [hsh]
          rfl
        · rw [← hkveq]
          dsimp only
          rw [hsh]
          rfl
    have hunf : sanitizeVal ot now (PyVal.dict es) d
        = PyVal.dict (applyDictRules ot now (sanitizeEntries ot now es (d + 1))
            (decide (d = 0))) := rfl
    rw [hunf]
    have hunf2 : sanitizeVal ot now (PyVal.dict (applyDictRules ot now
        (sanitizeEntries ot now es (d + 1)) (decide (d = 0)))) d
        = PyVal.dict (applyDictRules ot now (sanitizeEntries ot now (applyDictRules ot now
            (sanitizeEntries ot now es (d + 1)) (decide (d = 0))) (d + 1))
            (decide (d = 0))) := rfl
    rw [hunf2]
    rw [sanitizeEntries_of_fixed ot now _ (d+1) hfixed]
    rw [applyDictRules_fix ot now (sanitizeEntries ot now es (d+1)) (decide (d = 0))
      hvnow hmnow hd hl hsc hsacg hbg1 hbg2 hbg3]

lemma sanitizeListVals_fix (ot : String) (now : PyDateTime) (hvnow : validDT now = true)
    (hmnow : now.microsecond = 0) :
    (xs : List PyVal) → (d : Nat) → wfListVals xs = true →
      sanitizeListVals ot now (sanitizeListVals ot now xs d) d
        = sanitizeListVals ot now xs d
  | [], _, _ => rfl
  | x :: xs, d, h => by
    have h2 : wfVal x = true ∧ wfListVals xs = true := by
      simpa [wfListVals, Bool.and_eq_true] using h
    show sanitizeVal ot now (sanitizeVal ot now x d) d
        :: sanitizeListVals ot now (sanitizeListVals ot now xs d) d
      = sanitizeVal ot now x d :: sanitizeListVals ot now xs d
    rw [sanitizeVal_fix ot now hvnow hmnow x d h2.1,
      sanitizeListVals_fix ot now hvnow hmnow xs d h2.2]

lemma sanitizeEntriesPt_fix (ot : String) (now : PyDateTime) (hvnow : validDT now = true)
    (hmnow : now.microsecond = 0) :
    (es : List (String × PyVal)) → (d : Nat) → wfEntries es = true →
      ∀ kv ∈ sanitizeEntries ot now es d, sanitizeVal ot now kv.2 d = kv.2
  | [], _, _ => by
    intro kv hkv
    replace hkv : kv ∈ ([] : List (String × PyVal)) := hkv
    cases hkv
  | (k, v) :: es, d, h => by
    have h2 : wfVal v = true ∧ wfEntries es = true := by
      simpa [wfEntries, Bool.and_eq_true] using h
    intro kv hkv
    replace hkv : kv ∈ (k, sanitizeVal ot now v d) :: sanitizeEntries ot now es d := hkv
    rcases List.mem_cons.mp hkv with hh | hh
    · rw [hh]
      dsimp only
      exact sanitizeVal_fix ot now hvnow hmnow v d h2.1
    · exact sanitizeEntriesPt_fix ot now hvnow hmnow es d h2.2 kv hh

end

lemma wfListVals_mem (xs : List PyVal) (h : wfListVals xs = true) :
    ∀ x ∈ xs, wfVal x = true := by
  induction xs with
  | nil => intro x hx; cases hx
  | cons y ys ih =>
    have h2 : wfVal y = true ∧ wfListVals ys = true := by
      simpa [wfListVals, Bool.and_eq_true] using h
    intro x hx
    rcases List.mem_cons.mp hx with hh | hh
    · rw [hh]
      exact h2.1
    · exact ih h2.2 x hh

lemma sanitizePayload_as_sanitizeVal (es : List (String × PyVal)) (k : String)
    (now : PyDateTime) :
    sanitizePayload (.dict es) k now = sanitizeVal (pyLower k) now (.dict es) 0 := rfl

/-! # Claims -/

/-- C3: for a call raising a rate-limit-classified platform error on every
invocation, `make_api_request` with `max_retries = N` issues exactly `N`
underlying calls and returns the null sentinel after the Nth failure; a
non-rate-limited platform error and an unexpected exception terminate with
the null sentinel after a single call (nothing is raised to the caller). -/
theorem claim_C3_retry_bound (call : Nat → CallOutcome) (N : Int) (hN : 1 ≤ N) :
    ((∀ k, ∃ c s, call k = .platformError c s ∧ isRateLimitedError c s = true) →
      makeApiRequest call N = (Option.none, N.toNat)) ∧
    (∀ c s, call 0 = .platformError c s → isRateLimitedError c s = false →
      makeApiRequest call N = (Option.none, 1)) ∧
    (call 0 = .unexpectedError → makeApiRequest call N = (Option.none, 1)) := by
  have htn : ((N.toNat : Int)) = N := Int.toNat_of_nonneg (by omega)
  obtain ⟨f, hf⟩ : ∃ f, N.toNat = f + 1 := ⟨N.toNat - 1, by omega⟩
  have hstep : makeApiRequestGo call N 0 (f + 1)
      = (match call 0 with
         | .success v => (some v, 1)
         | .unexpectedError => (Option.none, 1)
         | .platformError code subcode =>
           if isRateLimitedError code subcode && decide ((0 : Int) < N - 1) then
             let r := makeApiRequestGo call N 1 f
             (r.1, r.2 + 1)
           else (Option.none, 1)) := rfl
  refine ⟨?_, ?_, ?_⟩
  · intro h
    unfold makeApiRequest
    exact makeApiRequestGo_rateLimited call N h N.toNat 0 (by omega)
  · intro c s hcall hrl
    unfold makeApiRequest
    rw [hf, hstep, hcall]
    simp [hrl]
  · intro hcall
    unfold makeApiRequest
    rw [hf, hstep, hcall]

theorem claim_C3_retry_bound_witness :
    (1 : Int) ≤ 3 ∧
    makeApiRequest (fun _ => .platformError (some 4) Option.none) 3 = (Option.none, 3) ∧
    makeApiRequest (fun _ => .platformError (some 100) Option.none) 3 = (Option.none, 1) ∧
    makeApiRequest (fun _ => .unexpectedError) 3 = (Option.none, 1) := by
  refine ⟨by norm_num, ?_, ?_, ?_⟩
  · exact (claim_C3_retry_bound _ 3 (by norm_num)).1
      (fun k => ⟨some 4, Option.none, rfl, rfl⟩)
  · exact (claim_C3_retry_bound _ 3 (by norm_num)).2.1 (some 100) Option.none rfl (by decide)
  · exact (claim_C3_retry_bound _ 3 (by norm_num)).2.2 rfl

/-- C4: for every dict payload carrying both `daily_budget` and
`lifetime_budget`, sanitization keeps at most one of the two: `daily_budget`
survives as the rounded integer of its amount whenever that amount parses
positive, otherwise `lifetime_budget` survives if its amount parses positive,
otherwise both keys are absent. -/
theorem claim_C4_budget_mutual_exclusivity (es : List (String × PyVal)) (ot : String)
    (now : PyDateTime) (dv lv : PyVal)
    (hd : dictGet es "daily_budget" = some dv)
    (hl : dictGet es "lifetime_budget" = some lv) :
    ∃ es2, sanitizePayload (.dict es) ot now = .dict es2 ∧
      ¬ (dictHas es2 "daily_budget" = true ∧ dictHas es2 "lifetime_budget" = true) ∧
      (∀ a, parsePositiveAmount dv = some a →
        dictGet es2 "daily_budget" = some (.int a) ∧
        dictGet es2 "lifetime_budget" = Option.none) ∧
      (parsePositiveAmount dv = Option.none → ∀ b, parsePositiveAmount lv = some b →
        dictGet es2 "lifetime_budget" = some (.int b) ∧
        dictGet es2 "daily_budget" = Option.none) ∧
      (parsePositiveAmount dv = Option.none → parsePositiveAmount lv = Option.none →
        dictGet es2 "daily_budget" = Option.none ∧
        dictGet es2 "lifetime_budget" = Option.none) := by
  have hne : ¬ es = [] := by
    intro h; rw [h] at hd; exact Option.noConfusion hd
  set ot2 := pyLower ot with hot2
  set vsd := sanitizeEntries ot2 now es 1 with hvsd
  have hdv : dictGet vsd "daily_budget" = some (sanitizeVal ot2 now dv 1) := by
    rw [hvsd, dictGet_sanitizeEntries, hd]; rfl
  have hlv : dictGet vsd "lifetime_budget" = some (sanitizeVal ot2 now lv 1) := by
    rw [hvsd, dictGet_sanitizeEntries, hl]; rfl
  have hpgd : pyGet vsd "daily_budget" = sanitizeVal ot2 now dv 1 := by
    unfold pyGet; rw [hdv]; rfl
  have hpgl : pyGet vsd "lifetime_budget" = sanitizeVal ot2 now lv 1 := by
    unfold pyGet; rw [hlv]; rfl
  have hpd : parsePositiveAmount (pyGet vsd "daily_budget") = parsePositiveAmount dv := by
    rw [hpgd, parsePositiveAmount_sanitizeVal]
  have hpl : parsePositiveAmount (pyGet vsd "lifetime_budget") = parsePositiveAmount lv := by
    rw [hpgl, parsePositiveAmount_sanitizeVal]
  have hhas : (dictHas vsd "daily_budget" || dictHas vsd "lifetime_budget") = true := by
    have : dictHas vsd "daily_budget" = true := (dictHas_iff_dictGet _ _).2 ⟨_, hdv⟩
    simp [this]
  have hchar := budgetRule_char vsd hhas
  set B := budgetRule vsd with hB
  have hgetd : ∀ k, ¬ k = "spend_cap" →
      dictGet (numericCoerceRule
        (timeFieldsRule
          (startTimeRule (brandRule (sacRule (spendCapRule B) true)) now) ot2)) k
        = (dictGet B k).map (coerceEntry k) →
      True := fun _ _ _ => trivial
  refine ⟨_, sanitizePayload_dict_ne_nil es ot now hne, ?_, ?_, ?_, ?_⟩
  · -- at most one of the two keys survives
    rintro ⟨h1, h2⟩
    rw [dictHas_iff_dictGet] at h1 h2
    obtain ⟨v1, hv1⟩ := h1
    obtain ⟨v2, hv2⟩ := h2
    rw [laterRules_other _ _ _ _ _ (by decide) (by decide) (by decide) (by decide)
      (by decide) (by decide) (by decide)] at hv1 hv2
    rw [spendCapRule_other _ _ (by decide)] at hv1 hv2
    rw [← hB] at hv1 hv2
    cases hcd : parsePositiveAmount dv with
    | some a =>
      have := ((hchar.1 a) (by rw [hpd, hcd])).2
      rw [this] at hv2
      exact Option.noConfusion hv2
    | none =>
      cases hcl : parsePositiveAmount lv with
      | some b =>
        have := ((hchar.2.1 (by rw [hpd, hcd])) b (by rw [hpl, hcl])).2
        rw [this] at hv1
        exact Option.noConfusion hv1
      | none =>
        have := (hchar.2.2 (by rw [hpd, hcd]) (by rw [hpl, hcl])).1
        rw [this] at hv1
        exact Option.noConfusion hv1
  · intro a ha
    have hc := hchar.1 a (by rw [hpd, ha])
    constructor
    · rw [laterRules_other _ _ _ _ _ (by decide) (by decide) (by decide) (by decide)
        (by decide) (by decide) (by decide), spendCapRule_other _ _ (by decide), ← hB,
        hc.1]
      rfl
    · rw [laterRules_other _ _ _ _ _ (by decide) (by decide) (by decide) (by decide)
        (by decide) (by decide) (by decide), spendCapRule_other _ _ (by decide), ← hB,
        hc.2]
      rfl
  · intro hdn b hbv
    have hc := hchar.2.1 (by rw [hpd, hdn]) b (by rw [hpl, hbv])
    constructor
    · rw [laterRules_other _ _ _ _ _ (by decide) (by decide) (by decide) (by decide)
        (by decide) (by decide) (by decide), spendCapRule_other _ _ (by decide), ← hB,
        hc.1]
      rfl
    · rw [laterRules_other _ _ _ _ _ (by decide) (by decide) (by decide) (by decide)
        (by decide) (by decide) (by decide), spendCapRule_other _ _ (by decide), ← hB,
        hc.2]
      rfl
  · intro hdn hln
    have hc := hchar.2.2 (by rw [hpd, hdn]) (by rw [hpl, hln])
    constructor
    · rw [laterRules_other _ _ _ _ _ (by decide) (by decide) (by decide) (by decide)
        (by decide) (by decide) (by decide), spendCapRule_other _ _ (by decide), ← hB,
        hc.1]
      rfl
    · rw [laterRules_other _ _ _ _ _ (by decide) (by decide) (by decide) (by decide)
        (by decide) (by decide) (by decide), spendCapRule_other _ _ (by decide), ← hB,
        hc.2]
      rfl

theorem claim_C4_budget_mutual_exclusivity_witness :
    dictGet [("daily_budget", PyVal.str "500"), ("lifetime_budget", PyVal.int 900)]
      "daily_budget" = some (.str "500") ∧
    dictGet [("daily_budget", PyVal.str "500"), ("lifetime_budget", PyVal.int 900)]
      "lifetime_budget" = some (.int 900) ∧
    ∃ es2, sanitizePayload
        (.dict [("daily_budget", .str "500"), ("lifetime_budget", .int 900)])
        "campaign" refNow = .dict es2 ∧
      dictGet es2 "daily_budget" = some (.int 500) ∧
      dictGet es2 "lifetime_budget" = Option.none := by
  refine ⟨rfl, rfl, ?_⟩
  obtain ⟨es2, h1, _, h3, _, _⟩ :=
    claim_C4_budget_mutual_exclusivity
      [("daily_budget", .str "500"), ("lifetime_budget", .int 900)]
      "campaign" refNow (.str "500") (.int 900) rfl rfl
  obtain ⟨h4, h5⟩ := h3 500 (by with_unfolding_all rfl)
  exact ⟨es2, h1, h4, h5⟩

/-- C5 fails as stated: in CBO mode there is NO per-ad-set budget check — a
budget-less ad set is created without any assembly error (the run below
completes).  The per-ad-set check fires only when CBO is NOT requested. -/
theorem claim_C5_cex_no_adset_check_in_cbo :
    createCampaignFromTemplate
      (fun k => some (.dict [("id", .str (if k = 0 then "c1" else "s1"))]))
      [("campaign", .dict [("name", .str "camp"), ("daily_budget", .str "800")]),
       ("ad_sets", .list [.dict [("id", .str "as1"), ("name", .str "as1")]])]
      [] [] true refNow
      = ⟨.completed "c1" [ "s1" ] [], 2⟩ := by
  with_unfolding_all rfl

/-- C5 amended: when CBO is requested and neither budget key survives
assembly+sanitization of the campaign payload, the cloner raises before any
create API call (zero calls); the per-ad-set budget check is the
complementary NON-CBO check: when CBO is not requested and the first ad set's
sanitized payload lacks both budget keys, the cloner raises upon reaching
that ad set, after only the campaign create call. -/
theorem claim_C5_cbo_budget_check (oracle : Nat → Option PyVal)
    (templateData userInputs assetMap : List (String × PyVal)) (now : PyDateTime) :
    (¬ (dictHas (cloneCampaignParams templateData userInputs true now) "daily_budget" = true ∨
        dictHas (cloneCampaignParams templateData userInputs true now) "lifetime_budget" = true) →
      createCampaignFromTemplate oracle templateData userInputs assetMap true now =
        ⟨.raised "CBO campaign requires daily_budget or lifetime_budget", 0⟩) ∧
    (∀ r adSet rest,
      pyGet templateData "ad_sets" = .list (adSet :: rest) →
      oracle 0 = some r → pyTruthy r = true → pyTruthy (resultId r) = true →
      ¬ (dictHas (cloneAdsetParams adSet
            (adsetInputsOf ((dictGet userInputs "ad_sets").getD (.dict []))
              (adsetKeyOf (asDictEntries adSet) 0))
            (pyStr (resultId r)) false now) "daily_budget" = true ∨
          dictHas (cloneAdsetParams adSet
            (adsetInputsOf ((dictGet userInputs "ad_sets").getD (.dict []))
              (adsetKeyOf (asDictEntries adSet) 0))
            (pyStr (resultId r)) false now) "lifetime_budget" = true) →
      createCampaignFromTemplate oracle templateData userInputs assetMap false now =
        ⟨.raised "ad set missing budget", 1⟩) := by
  constructor
  · intro hb
    unfold createCampaignFromTemplate
    dsimp only
    rw [if_pos ⟨rfl, hb⟩]
  · intro r adSet rest hsets hor htr hti hnb
    unfold createCampaignFromTemplate
    dsimp only
    rw [if_neg (fun hc => absurd hc.1 (by decide)), hor]
    have ho : optTruthy (some r) = true := by
      unfold optTruthy; exact htr
    rw [if_neg (fun hc => hc ho)]
    simp only [Option.getD_some]
    rw [if_neg (fun hc => hc hti), hsets]
    dsimp only
    unfold cloneAdSets
    dsimp only
    rw [if_pos ⟨(by decide : ¬ false = true), hnb⟩]

theorem claim_C5_cbo_budget_check_witness :
    ¬ (dictHas (cloneCampaignParams
          [("campaign", .dict [("name", .str "c"), ("daily_budget", .int 0),
            ("lifetime_budget", .int 0)])] [] true refNow) "daily_budget" = true ∨
        dictHas (cloneCampaignParams
          [("campaign", .dict [("name", .str "c"), ("daily_budget", .int 0),
            ("lifetime_budget", .int 0)])] [] true refNow) "lifetime_budget" = true) ∧
    createCampaignFromTemplate (fun _ => Option.none)
      [("campaign", .dict [("name", .str "c"), ("daily_budget", .int 0),
        ("lifetime_budget", .int 0)])] [] [] true refNow =
      ⟨.raised "CBO campaign requires daily_budget or lifetime_budget", 0⟩ ∧
    createCampaignFromTemplate (fun _ => some (.dict [("id", .str "c1")]))
      [("campaign", .dict [("name", .str "c")]),
       ("ad_sets", .list [.dict [("id", .str "as1")]])] [] [] false refNow =
      ⟨.raised "ad set missing budget", 1⟩ := by
  have hb : ¬ (dictHas (cloneCampaignParams
      [("campaign", .dict [("name", .str "c"), ("daily_budget", .int 0),
        ("lifetime_budget", .int 0)])] [] true refNow) "daily_budget" = true ∨
      dictHas (cloneCampaignParams
        [("campaign", .dict [("name", .str "c"), ("daily_budget", .int 0),
          ("lifetime_budget", .int 0)])] [] true refNow) "lifetime_budget" = true) := by
    with_unfolding_all decide
  refine ⟨hb, ?_, ?_⟩
  · exact (claim_C5_cbo_budget_check (fun _ => Option.none)
      [("campaign", .dict [("name", .str "c"), ("daily_budget", .int 0),
        ("lifetime_budget", .int 0)])] [] [] refNow).1 hb
  · exact (claim_C5_cbo_budget_check (fun _ => some (.dict [("id", .str "c1")]))
      [("campaign", .dict [("name", .str "c")]),
       ("ad_sets", .list [.dict [("id", .str "as1")]])] [] [] refNow).2
      (.dict [("id", .str "c1")]) (.dict [("id", .str "as1")]) [] rfl rfl
      (by decide) (by decide) (by with_unfolding_all decide)

/-- C6 fails as stated: for input `"A, A, B ,"` the assembled payload's
TOP-LEVEL `retailer_item_ids` is the undeduplicated `["A","A","B"]` (only the
object_story_spec copies are deduplicated). -/
theorem claim_C6_cex_top_level_not_deduped :
    (buildCreativePayload (.dict []) [("retailer_item_ids", .str "A, A, B ,")] []).1 =
      some [("object_story_spec", .dict [("retailer_item_ids", .list [.str "A", .str "B"])]),
            ("retailer_item_ids", .list [.str "A", .str "A", .str "B"])] ∧
    ¬ (PyVal.list [.str "A", .str "A", .str "B"] = .list [.str "A", .str "B"]) := by
  constructor
  · with_unfolding_all rfl
  · decide

/-- C6 amended: for the retailer-item-ids input `"A, A, B ,"`, every retailer
id list stored inside the assembled `object_story_spec` (its top level and
each of its `link_data`/`video_data`/`template_data` sections) is exactly
`["A","B"]` — deduplicated, order-preserving, empty tokens removed — while
the payload's top-level `retailer_item_ids` field keeps the stripped,
empty-token-filtered but UNDEDUPLICATED list `["A","A","B"]`. -/
theorem claim_C6_retailer_dedup (tpl spec ld vd td : List (String × PyVal))
    (htpl : dictGet tpl "object_story_spec" = some (.dict spec))
    (hld : dictGet spec "link_data" = some (.dict ld))
    (hvd : dictGet spec "video_data" = some (.dict vd))
    (htd : dictGet spec "template_data" = some (.dict td)) :
    ∃ out uSpec,
      (buildCreativePayload (.dict tpl)
        [("retailer_item_ids", .str "A, A, B ,")] []).1 = some out ∧
      dictGet out "object_story_spec" = some (.dict uSpec) ∧
      dictGet out "retailer_item_ids" = some (.list [.str "A", .str "A", .str "B"]) ∧
      dictGet uSpec "retailer_item_ids" = some (.list [.str "A", .str "B"]) ∧
      dictGet uSpec "link_data" =
        some (.dict (dictSet ld "retailer_item_ids" (.list [.str "A", .str "B"]))) ∧
      dictGet uSpec "video_data" =
        some (.dict (dictSet vd "retailer_item_ids" (.list [.str "A", .str "B"]))) ∧
      dictGet uSpec "template_data" =
        some (.dict (dictSet td "retailer_item_ids" (.list [.str "A", .str "B"]))) := by
  have hstep : (buildCreativePayload (.dict tpl)
      [("retailer_item_ids", .str "A, A, B ,")] []).1
      = some (dictSet
          (dictPop (dictPop
            (dictSet
              (dictPop (dictPop (dictPop (dictPop (dictPop (dictPop tpl
                "id") "status") "thumbnail_url") "image_url")
                "effective_object_story_id") "asset_feed_spec")
              "object_story_spec"
              (updateObjectStorySpec
                (pyGet (dictPop (dictPop (dictPop (dictPop (dictPop (dictPop tpl
                  "id") "status") "thumbnail_url") "image_url")
                  "effective_object_story_id") "asset_feed_spec") "object_story_spec")
                PyVal.none "" "" "" [ "A", "A", "B" ]))
            "body") "title")
          "retailer_item_ids" (.list [.str "A", .str "A", .str "B"])) := by
    with_unfolding_all rfl
  set P := dictPop (dictPop (dictPop (dictPop (dictPop (dictPop tpl
    "id") "status") "thumbnail_url") "image_url")
    "effective_object_story_id") "asset_feed_spec" with hPdef
  have hP : dictGet P "object_story_spec" = some (.dict spec) := by
    rw [hPdef, dictGet_dictPop_other _ _ _ (by decide), dictGet_dictPop_other _ _ _ (by decide),
      dictGet_dictPop_other _ _ _ (by decide), dictGet_dictPop_other _ _ _ (by decide),
      dictGet_dictPop_other _ _ _ (by decide), dictGet_dictPop_other _ _ _ (by decide), htpl]
  have hPy : pyGet P "object_story_spec" = .dict spec := by
    unfold pyGet; rw [hP]; rfl
  have hU : updateObjectStorySpec (.dict spec) PyVal.none "" "" "" [ "A", "A", "B" ]
      = .dict (dictSet
          (updateSection (updateSection (updateSection spec
            "link_data" (fun se => dictSet se "retailer_item_ids" (.list [.str "A", .str "B"])))
            "video_data" (fun se => dictSet se "retailer_item_ids" (.list [.str "A", .str "B"])))
            "template_data" (fun se => dictSet se "retailer_item_ids" (.list [.str "A", .str "B"])))
          "retailer_item_ids" (.list [.str "A", .str "B"])) := by
    with_unfolding_all rfl
  rw [hPy, hU] at hstep
  refine ⟨_,
    dictSet
      (updateSection (updateSection (updateSection spec
        "link_data" (fun se => dictSet se "retailer_item_ids" (.list [.str "A", .str "B"])))
        "video_data" (fun se => dictSet se "retailer_item_ids" (.list [.str "A", .str "B"])))
        "template_data" (fun se => dictSet se "retailer_item_ids" (.list [.str "A", .str "B"])))
      "retailer_item_ids" (.list [.str "A", .str "B"]),
    hstep, ?_, ?_, ?_, ?_, ?_, ?_⟩
  · rw [dictGet_dictSet_other _ _ _ _ (by decide), dictGet_dictPop_other _ _ _ (by decide),
      dictGet_dictPop_other _ _ _ (by decide), dictGet_dictSet_self]
  · rw [dictGet_dictSet_self]
  · rw [dictGet_dictSet_self]
  · rw [dictGet_dictSet_other _ _ _ _ (by decide),
      updateSection_get_other _ _ _ _ (by decide),
      updateSection_get_other _ _ _ _ (by decide),
      updateSection_get_self _ _ _ _ hld]
  · rw [dictGet_dictSet_other _ _ _ _ (by decide),
      updateSection_get_other _ _ _ _ (by decide),
      updateSection_get_self _ _ _ _ ?_]
    rw [updateSection_get_other _ _ _ _ (by decide), hvd]
  · rw [dictGet_dictSet_other _ _ _ _ (by decide),
      updateSection_get_self _ _ _ _ ?_]
    rw [updateSection_get_other _ _ _ _ (by decide),
      updateSection_get_other _ _ _ _ (by decide), htd]

theorem claim_C6_retailer_dedup_witness :
    ∃ out uSpec,
      (buildCreativePayload
        (.dict [("name", .str "cr"),
          ("object_story_spec", .dict
            [("link_data", .dict [("link", .str "u")]),
             ("video_data", .dict [("video_id", .str "v")]),
             ("template_data", .dict [("message", .str "m")])])])
        [("retailer_item_ids", .str "A, A, B ,")] []).1 = some out ∧
      dictGet out "object_story_spec" = some (.dict uSpec) ∧
      dictGet out "retailer_item_ids" = some (.list [.str "A", .str "A", .str "B"]) ∧
      dictGet uSpec "retailer_item_ids" = some (.list [.str "A", .str "B"]) ∧
      dictGet uSpec "link_data" =
        some (.dict (dictSet [("link", .str "u")] "retailer_item_ids"
          (.list [.str "A", .str "B"]))) ∧
      dictGet uSpec "video_data" =
        some (.dict (dictSet [("video_id", .str "v")] "retailer_item_ids"
          (.list [.str "A", .str "B"]))) ∧
      dictGet uSpec "template_data" =
        some (.dict (dictSet [("message", .str "m")] "retailer_item_ids"
          (.list [.str "A", .str "B"]))) :=
  claim_C6_retailer_dedup
    [("name", .str "cr"),
     ("object_story_spec", .dict
       [("link_data", .dict [("link", .str "u")]),
        ("video_data", .dict [("video_id", .str "v")]),
        ("template_data", .dict [("message", .str "m")])])]
    [("link_data", .dict [("link", .str "u")]),
     ("video_data", .dict [("video_id", .str "v")]),
     ("template_data", .dict [("message", .str "m")])]
    [("link", .str "u")] [("video_id", .str "v")] [("message", .str "m")]
    rfl rfl rfl rfl

/-- C9 fails as stated: `_apply_dict_rules` returns an empty dict untouched,
so the sanitized empty payload lacks `special_ad_categories`. -/
theorem claim_C9_cex_empty_payload :
    sanitizePayload (.dict []) "campaign" refNow = .dict [] ∧
    dictGet (asDictEntries (sanitizePayload (.dict []) "campaign" refNow))
      "special_ad_categories" = Option.none :=
  ⟨rfl, rfl⟩

/-- C9 amended: for every NON-EMPTY dict payload and object kind, the
sanitized top level carries `special_ad_categories`, whose value is `[]`
whenever the key is missing or its (recursively sanitized) value is empty or
uncoercible, and the normalized string list otherwise. -/
theorem claim_C9_sac_always_present (es : List (String × PyVal)) (ot : String)
    (now : PyDateTime) (hne : ¬ es = []) :
    ∃ es2, sanitizePayload (.dict es) ot now = .dict es2 ∧
      dictGet es2 "special_ad_categories" =
        some (match normalizeStringCollection
            (sanitizeVal (pyLower ot) now (pyGet es "special_ad_categories") 1) with
          | Option.none => .list []
          | some items => .list (items.map PyVal.str)) := by
  refine ⟨_, sanitizePayload_dict_ne_nil es ot now hne, ?_⟩
  rw [numericCoerceRule_get, timeFieldsRule_other _ _ _ (by decide) (by decide),
    startTimeRule_other _ _ _ (by decide),
    brandRule_other _ _ (by decide) (by decide) (by decide), sacRule_self_depth0]
  have hpg : pyGet (spendCapRule (budgetRule (sanitizeEntries (pyLower ot) now es 1)))
      "special_ad_categories"
      = sanitizeVal (pyLower ot) now (pyGet es "special_ad_categories") 1 := by
    unfold pyGet
    rw [spendCapRule_other _ _ (by decide), budgetRule_other _ _ (by decide) (by decide),
      dictGet_sanitizeEntries]
    cases dictGet es "special_ad_categories" <;> rfl
  rw [hpg]
  cases hn : normalizeStringCollection
      (sanitizeVal (pyLower ot) now (pyGet es "special_ad_categories") 1) <;> rfl

theorem claim_C9_sac_always_present_witness :
    ¬ ([("name", PyVal.str "n")] : List (String × PyVal)) = [] ∧
    ∃ es2, sanitizePayload (.dict [("name", .str "n")]) "campaign" refNow = .dict es2 ∧
      dictGet es2 "special_ad_categories" = some (.list []) := by
  refine ⟨by decide, ?_⟩
  obtain ⟨es2, h1, h2⟩ :=
    claim_C9_sac_always_present [("name", .str "n")] "campaign" refNow (by decide)
  refine ⟨es2, h1, ?_⟩
  rw [h2]
  with_unfolding_all rfl

/-- C8 fails as stated on non-numeric strings with surrounding whitespace:
the budget branch returns the TRIMMED string, not the input unchanged. -/
theorem claim_C8_cex_trimming :
    normalizeInputValue "daily_budget" (.str " abc ") .none = .str "abc" ∧
    ¬ (PyVal.str "abc" = .str " abc ") := by
  exact ⟨rfl, by decide⟩

/-- C8 amended: for every budget-class field, `normalize_input_value` maps an
empty candidate (`None`, `''`, or whitespace-only) to `None`, a numeric value
or numeric string to the half-even-rounded integer-valued string, and a
non-numeric string through TRIMMED of surrounding whitespace (otherwise
unchanged). -/
theorem claim_C8_budget_field_normalization (field : String)
    (hf : BUDGET_FIELDS.contains field = true) :
    (∀ ov, normalizeInputValue field .none ov = .none) ∧
    (∀ ov, normalizeInputValue field (.str "") ov = .none) ∧
    (∀ s ov, pyStrip s = "" → normalizeInputValue field (.str s) ov = .none) ∧
    (∀ (n : Int) ov, normalizeInputValue field (.int n) ov = .str (toString n)) ∧
    (∀ (q : Rat) ov, normalizeInputValue field (.float q) ov = .str (toString (pyRound q))) ∧
    (∀ s q ov, parseFloat (pyStrip s) = some q → ¬ pyStrip s = "" →
      normalizeInputValue field (.str s) ov = .str (toString (pyRound q))) ∧
    (∀ s ov, parseFloat (pyStrip s) = Option.none → ¬ pyStrip s = "" →
      normalizeInputValue field (.str s) ov = .str (pyStrip s)) := by
  have hm : field ∈ BUDGET_FIELDS := by simpa using hf
  refine ⟨?_, ?_, ?_, ?_, ?_, ?_, ?_⟩
  · intro ov; rfl
  · intro ov; simp [normalizeInputValue, hm]
  · intro s ov hs
    by_cases he : s = ""
    · subst he; simp [normalizeInputValue, hm]
    · have : ¬ PyVal.str s = .str "" := by
        intro hh; cases hh; exact he rfl
      simp [normalizeInputValue, hm, this, hs]
  · intro n ov; simp [normalizeInputValue, hm]
  · intro q ov; simp [normalizeInputValue, hm]
  · intro s q ov hq hs
    have he : ¬ PyVal.str s = .str "" := by
      intro hh; cases hh; exact hs (by rfl)
    simp [normalizeInputValue, hm, he, hs, hq]
  · intro s ov hq hs
    have he : ¬ PyVal.str s = .str "" := by
      intro hh; cases hh; exact hs (by rfl)
    simp [normalizeInputValue, hm, he, hs, hq]

theorem claim_C8_budget_field_normalization_witness :
    BUDGET_FIELDS.contains "bid_amount" = true ∧
    normalizeInputValue "bid_amount" (.int 700) (.str "x") = .str "700" ∧
    normalizeInputValue "bid_amount" (.str " 12.7 ") .none = .str "13" ∧
    normalizeInputValue "bid_amount" (.str "   ") .none = .none := by
  have h := claim_C8_budget_field_normalization "bid_amount" (by decide)
  refine ⟨by decide, ?_, ?_, h.2.2.1 "   " .none (by decide)⟩
  · have := h.2.2.2.1 700 (.str "x")
    rw [this]
    with_unfolding_all rfl
  · have := h.2.2.2.2.2.1 " 12.7 " (127/10) .none
      (by with_unfolding_all rfl) (by decide)
    rw [this]
    with_unfolding_all rfl

/-- C10: `make_api_request` with `max_retries ≤ 0` returns the null sentinel
without invoking the underlying call (the call count is 0). -/
theorem claim_C10_nonpositive_retries (call : Nat → CallOutcome) (N : Int) (hN : N ≤ 0) :
    makeApiRequest call N = (Option.none, 0) := by
  unfold makeApiRequest
  rw [Int.toNat_of_nonpos hN]
  rfl

theorem claim_C10_nonpositive_retries_witness :
    (0 : Int) ≤ 0 ∧
    makeApiRequest (fun _ => .success (.int 7)) 0 = (Option.none, 0) :=
  ⟨le_refl 0, claim_C10_nonpositive_retries (fun _ => .success (.int 7)) 0 (le_refl 0)⟩

/-- C1 amended: abort semantics of the hierarchical cloner. If the run ends
`.aborted` (the Python function returned `None`), the failed create call is
the LAST call issued — every earlier call succeeded, the final one did not,
and nothing further was attempted; if the run returns a Creation Result,
every issued call succeeded. The aborted run discards the partial ids. -/
theorem claim_C1_abort_semantics (oracle : Nat → Option PyVal)
    (templateData userInputs assetMap : List (String × PyVal)) (isCbo : Bool)
    (now : PyDateTime) (res : CloneResult)
    (hres : createCampaignFromTemplate oracle templateData userInputs assetMap isCbo now = res) :
    (res.outcome = .aborted →
      1 ≤ res.calls ∧
      (∀ i, i + 1 < res.calls → createSucceeds (oracle i) = true) ∧
      createSucceeds (oracle (res.calls - 1)) = false) ∧
    (∀ cid sids aids, res.outcome = .completed cid sids aids →
      ∀ i, i < res.calls → createSucceeds (oracle i) = true) := by
  subst hres
  unfold createCampaignFromTemplate
  dsimp only
  split_ifs with hA hB hC
  · exact ⟨fun h => h.elim, fun _ _ _ h => h.elim⟩
  · exact topStep oracle _ _ (cloneAdSets_calls_spec oracle assetMap now isCbo _ _ _ 0 1 [] []
      (succPrefix1 oracle 0 (fun i hi => absurd hi (by omega)) hB hC))
  · exact ⟨(abortedHalt_idFalse oracle 0 (fun i hi => absurd hi (by omega)) hB hC).1,
      fun _ _ _ h => h.elim⟩
  · exact ⟨(abortedHalt_optFalse oracle 0 (fun i hi => absurd hi (by omega)) hB).1,
      fun _ _ _ h => h.elim⟩

/-- C1 fails as stated: when the second of two template ad sets fails to
create (call 4 returns the null sentinel), the invocation returns `None`
(modeled `.aborted`) after exactly 5 calls — it does NOT return a Creation
Result carrying the previously created campaign "c1", ad set "s1" and ad
"a1"; those partial ids are discarded. -/
theorem claim_C1_cex_abort_discards_partial :
    createCampaignFromTemplate
      (fun i =>
        match i with
        | 0 => some (.dict [("id", .str "c1")])
        | 1 => some (.dict [("id", .str "s1")])
        | 2 => some (.dict [("id", .str "cr1")])
        | 3 => some (.dict [("id", .str "a1")])
        | _ => Option.none)
      [("campaign", .dict [("name", .str "c"), ("objective", .str "OUTCOME_SALES")]),
       ("ad_sets", .list [
          .dict [("id", .str "s_t1"), ("daily_budget", .int 500),
                 ("ads", .list [ .dict [("id", .str "ad_t1"),
                    ("creative_details", .dict [("name", .str "cr")])] ])],
          .dict [("id", .str "s_t2"), ("daily_budget", .int 500)] ])]
      [] [] false refNow = ⟨.aborted, 5⟩ ∧
    ¬ ((CloneResult.mk .aborted 5) =
        ⟨.completed "c1" [ "s1" ] [ "a1" ], 5⟩) := by
  constructor
  · with_unfolding_all rfl
  · decide

theorem claim_C1_abort_semantics_witness :
    (1 ≤ (5 : Nat) ∧
      (∀ i, i + 1 < 5 → createSucceeds
        ((fun i =>
          match i with
          | 0 => some (PyVal.dict [("id", PyVal.str "c1")])
          | 1 => some (PyVal.dict [("id", PyVal.str "s1")])
          | 2 => some (PyVal.dict [("id", PyVal.str "cr1")])
          | 3 => some (PyVal.dict [("id", PyVal.str "a1")])
          | _ => Option.none) i) = true) ∧
      createSucceeds
        ((fun i =>
          match i with
          | 0 => some (PyVal.dict [("id", PyVal.str "c1")])
          | 1 => some (PyVal.dict [("id", PyVal.str "s1")])
          | 2 => some (PyVal.dict [("id", PyVal.str "cr1")])
          | 3 => some (PyVal.dict [("id", PyVal.str "a1")])
          | _ => Option.none) (5 - 1)) = false) := by
  refine (claim_C1_abort_semantics
    (fun i =>
      match i with
      | 0 => some (.dict [("id", .str "c1")])
      | 1 => some (.dict [("id", .str "s1")])
      | 2 => some (.dict [("id", .str "cr1")])
      | 3 => some (.dict [("id", .str "a1")])
      | _ => Option.none)
    [("campaign", .dict [("name", .str "c"), ("objective", .str "OUTCOME_SALES")]),
     ("ad_sets", .list [
        .dict [("id", .str "s_t1"), ("daily_budget", .int 500),
               ("ads", .list [ .dict [("id", .str "ad_t1"),
                  ("creative_details", .dict [("name", .str "cr")])] ])],
        .dict [("id", .str "s_t2"), ("daily_budget", .int 500)] ])]
    [] [] false refNow ⟨.aborted, 5⟩ (by with_unfolding_all rfl)).1 rfl

/-- C2 amended: provided every `batch.execute` call completes (the
`make_api_request(batch.execute)` wrapper never returns the null sentinel),
the handler-collected successes and the per-request logged terminal failures
together are a permutation of the R input requests — each request ends in
exactly one bucket and none is dropped. -/
theorem claim_C2_batch_completeness (oracle : BatchOracle) (R : Nat)
    (maxChunkRetries chunkSize : Int)
    (hnb : ∀ c a, oracle.batchFails c a = false) :
    ((executeBatchRequests oracle R maxChunkRetries chunkSize).1 ++
      (executeBatchRequests oracle R maxChunkRetries chunkSize).2).Perm (List.range R) := by
  have hm : (1 : Int) ≤ max 1 chunkSize := le_max_left _ _
  have hn : (1 : Nat) ≤ (max 1 chunkSize).toNat := by omega
  have hg := executeBatch_go_perm oracle maxChunkRetries hnb
    (chunkList (List.range R) (max 1 chunkSize).toNat) 0
  rw [chunkList_flatten _ _ hn] at hg
  exact hg

/-- C2 fails as stated: with a single request whose `batch.execute` fails
outright on every attempt (the wrapper returns the null sentinel), the
orchestrator collects nothing and logs no per-request terminal failure — the
request is silently dropped, and the two buckets together have 0 ≠ 1
members. -/
theorem claim_C2_cex_batch_failure_drops :
    executeBatchRequests
      ⟨fun _ _ => true, fun _ _ => .success, fun _ => .success⟩ 1 5 20 = ([], []) ∧
    ¬ (([] ++ ([] : List Nat)).Perm (List.range 1)) := by
  constructor
  · with_unfolding_all rfl
  · decide

theorem claim_C2_batch_completeness_witness :
    ((executeBatchRequests
        ⟨fun _ _ => false,
         fun _ i => if i = 1 then .failure true else if i = 2 then .handlerError else .success,
         fun i => if i = 1 then .failure false else .success⟩ 4 2 2).1 ++
      (executeBatchRequests
        ⟨fun _ _ => false,
         fun _ i => if i = 1 then .failure true else if i = 2 then .handlerError else .success,
         fun i => if i = 1 then .failure false else .success⟩ 4 2 2).2).Perm (List.range 4) :=
  claim_C2_batch_completeness _ 4 2 2 (fun _ _ => rfl)


/-- C7 counterexample: with a reference time carrying 500000 microseconds, a
`start_time` of `2030-01-01T05:00:00.700+05:00` survives the first clamp (it is
0.2s after the reference) but its isoformat drops the fraction, so the second
pass re-parses it at 0.7s earlier and clamps it to the reference time: the
second sanitization changes the payload. -/
theorem claim_C7_cex_microsecond_drift :
    sanitizePayload (.dict [("start_time", .str "2030-01-01T05:00:00.700+05:00")]) "campaign"
        ⟨2030, 1, 1, 0, 0, 0, 500000, 0⟩
      = .dict [("start_time", .str "2030-01-01T05:00:00+05:00"),
          ("special_ad_categories", .list [])] ∧
    sanitizePayload (sanitizePayload (.dict [("start_time",
          .str "2030-01-01T05:00:00.700+05:00")]) "campaign"
        ⟨2030, 1, 1, 0, 0, 0, 500000, 0⟩) "campaign" ⟨2030, 1, 1, 0, 0, 0, 500000, 0⟩
      = .dict [("start_time", .str "2030-01-01T00:00:00+00:00"),
          ("special_ad_categories", .list [])] ∧
    ¬ sanitizePayload (sanitizePayload (.dict [("start_time",
          .str "2030-01-01T05:00:00.700+05:00")]) "campaign"
        ⟨2030, 1, 1, 0, 0, 0, 500000, 0⟩) "campaign" ⟨2030, 1, 1, 0, 0, 0, 500000, 0⟩
      = sanitizePayload (.dict [("start_time", .str "2030-01-01T05:00:00.700+05:00")])
          "campaign" ⟨2030, 1, 1, 0, 0, 0, 500000, 0⟩ :=
  ⟨by with_unfolding_all rfl, by with_unfolding_all rfl, by with_unfolding_all decide⟩

/-- C7: the structural sanitizer is NOT idempotent in general (the `start_time`
clamp drifts when the reference time carries microseconds, which `isoformat`
drops); it IS idempotent — `sanitize_payload(sanitize_payload(p, k), k) =
sanitize_payload(p, k)` with the same reference time — whenever the reference
time is a valid datetime on a whole second and the payload is well-formed:
every budget/spend-cap amount parses to a positive integer or not at all, and
each collection field (`special_ad_categories` and the brand-safety fields)
holds only plain strings, `None`s or empty lists. -/
theorem claim_C7_idempotent_normalization (data : PyVal) (k : String) (now : PyDateTime)
    (hvnow : validDT now = true) (hmnow : now.microsecond = 0)
    (hwf : wfVal data = true) :
    sanitizePayload (sanitizePayload data k now) k now = sanitizePayload data k now := by
  cases data with
  | dict es =>
    obtain ⟨F0, hF0⟩ : ∃ F0, sanitizeVal (pyLower k) now (PyVal.dict es) 0 = PyVal.dict F0 :=
      ⟨_, rfl⟩
    rw [sanitizePayload_as_sanitizeVal, hF0, sanitizePayload_as_sanitizeVal, ← hF0]
    exact sanitizeVal_fix (pyLower k) now hvnow hmnow (PyVal.dict es) 0 hwf
  | list xs =>
    have hw : wfListVals xs = true := by
      simpa [wfVal] using hwf
    show PyVal.list ((xs.map fun item => sanitizeVal (pyLower k) now item 0).map
        fun item => sanitizeVal (pyLower k) now item 0)
      = PyVal.list (xs.map fun item => sanitizeVal (pyLower k) now item 0)
    rw [List.map_map]
    refine congrArg PyVal.list (List.map_congr_left (fun x hx => ?_))
    exact sanitizeVal_fix (pyLower k) now hvnow hmnow x 0 (wfListVals_mem xs hw x hx)
  | none => rfl
  | bool b => rfl
  | int n => rfl
  | float q => rfl
  | str s => rfl

/-- C7 witness: a well-formed campaign payload and a whole-second reference
time satisfy the hypotheses, and re-sanitization is the identity on it. -/
theorem claim_C7_idempotent_normalization_witness :
    (validDT ⟨2030, 1, 1, 0, 0, 0, 0, 0⟩ = true ∧
      PyDateTime.microsecond ⟨2030, 1, 1, 0, 0, 0, 0, 0⟩ = 0 ∧
      wfVal (.dict [("name", .str "Clone A"), ("daily_budget", .str "250.5"),
        ("special_ad_categories", .str "HOUSING, CREDIT"),
        ("start_time", .str "2031-05-06T07:08:09+00:00")]) = true) ∧
    sanitizePayload (sanitizePayload (.dict [("name", .str "Clone A"),
        ("daily_budget", .str "250.5"),
        ("special_ad_categories", .str "HOUSING, CREDIT"),
        ("start_time", .str "2031-05-06T07:08:09+00:00")]) "Campaign"
        ⟨2030, 1, 1, 0, 0, 0, 0, 0⟩) "Campaign" ⟨2030, 1, 1, 0, 0, 0, 0, 0⟩
      = sanitizePayload (.dict [("name", .str "Clone A"), ("daily_budget", .str "250.5"),
        ("special_ad_categories", .str "HOUSING, CREDIT"),
        ("start_time", .str "2031-05-06T07:08:09+00:00")]) "Campaign"
        ⟨2030, 1, 1, 0, 0, 0, 0, 0⟩ :=
  ⟨⟨by decide, rfl, by with_unfolding_all decide⟩,
    claim_C7_idempotent_normalization _ "Campaign" _ (by decide) rfl (by with_unfolding_all decide)⟩

end AdDataLake
